import Mathlib

/-!
# Slic3r auto-arrangement (`libslic3r/ModelArrange.cpp`): embedding and properties

The development embeds the orchestration layer of `Slic3r::arr` in Lean:
the bed-shape classifier `bedShape`, the projection `projectModelFromTop`,
the write-back `applyResult` and the entry point `arrange`.

Conventions of the embedding.

* `coord_t`, `Coord` and `ClipperLib::cInt` are 64-bit signed integers in the
  source; they are `ℤ` here (overflow of a signed coordinate is undefined in
  C++ and is not modelled).
* `double` values are exact rationals `ℚ`; rounding of the floating-point
  operations is not modelled, so a comparison whose two sides are closer than
  the rounding error of the source can come out differently there.  The one
  place where the source can produce a NaN for a non-degenerate reason (a
  default-constructed `Circle`) is modelled by an `Option` radius.
* A division by zero has the value 0 in `ℚ`; the variants `projectModelFromTopChecked`
  and `objfuncChecked` return `none` where the source reads a missing element
  or divides by zero.
* `std::sqrt` and the constants `SCALING_FACTOR` and `SCALED_EPSILON` come from
  headers outside `ModelArrange.cpp`; they are the fields of `Consts`, and all
  functions that use them take a `Consts` argument.
* The external placer (libnest2d) is a function argument of `arrange`.
* Model instances live in a store `Instances` addressed by `InstPtr`; the
  functions that write to instances pass the store explicitly.
-/

namespace Slic3r
namespace arr

/-! ## Numeric environment -/

/-- Header-provided numerics used by `ModelArrange.cpp`: the two scaling
constants of `libslic3r.h` and the square root of `<cmath>`. -/
structure Consts where
  SCALING_FACTOR : ℚ
  SCALED_EPSILON : ℚ
  sqrt : ℚ → ℚ

/-- Conversion `static_cast<Coord>(d)` / `ClipperLib::cInt(d)` of a `double`
to a signed integer: truncation toward zero. -/
def toCoord (d : ℚ) : ℤ := Int.tdiv d.num (d.den : ℤ)

/-! ## Geometry data -/

/-- A point with integer (scaled) coordinates: `Slic3r::Point`,
`libnest2d::PointImpl`. -/
structure Point where
  x : ℤ
  y : ℤ
deriving DecidableEq, Repr

/-- An open or closed chain of points: `Slic3r::Polyline`. -/
abbrev Polyline := List Point

/-- Axis-aligned box of `Slic3r::BoundingBox` (corners `min`, `max`). -/
structure BoundingBox where
  min : Point
  max : Point
deriving DecidableEq, Repr

/-- Modelled from the spec: `BoundingBox(points)` / `MultiPoint::bounding_box()`
(BoundingBox.hpp is not part of the sources at hand), the axis-aligned bounding
box of a point set: componentwise minimum and maximum.  An empty point set has
no bounding box. -/
def bounding_box : Polyline → Option BoundingBox
  | [] => none
  | p :: ps =>
    some (ps.foldl
      (fun bb q => { min := ⟨Min.min bb.min.x q.x, Min.min bb.min.y q.y⟩,
                     max := ⟨Max.max bb.max.x q.x, Max.max bb.max.y q.y⟩ })
      { min := p, max := p })

/-- Modelled from the spec: `BoundingBox::center()`, the bounding-box centre.
Coordinates are integers, the half-sum is an integer division (truncating). -/
def BoundingBox.center (bb : BoundingBox) : Point :=
  ⟨Int.tdiv (bb.min.x + bb.max.x) 2, Int.tdiv (bb.min.y + bb.max.y) 2⟩

/-- Accumulation loop of the shoelace sum: `j` is the previous vertex. -/
def areaAcc (j : Point) : List Point → ℚ
  | [] => 0
  | p :: ps => ((j.x : ℚ) + p.x) * ((j.y : ℚ) - p.y) + areaAcc p ps

/-- Modelled from the spec: `Polygon::area()` (Polygon.cpp is not part of the
sources at hand), the signed area of the polygon through the given vertices by
the shoelace formula; positive for a counter-clockwise contour. -/
def Polygon.area (pts : List Point) : ℚ :=
  match pts.getLast? with
  | none => 0
  | some last => -(areaAcc last pts) / 2

/-- Modelled from the spec: `Circle` of ModelArrange.hpp (not among the sources
at hand), a centre and a `double` radius.  `isCircle` answers "not a circle"
with the default-constructed `Circle()`, and `bedShape` tests the circle it
gets as a boolean; `radius = none` is the radius of `Circle()` (a NaN), for
which that test is false. -/
structure Circle where
  center : Point
  radius : Option ℚ
deriving DecidableEq, Repr

/-- Modelled from the spec: the default-constructed `Circle()`. -/
def Circle.invalid : Circle := ⟨⟨0, 0⟩, none⟩

/-- Modelled from the spec: `Circle::operator bool`, true when the circle has a
radius (not the NaN of `Circle()`). -/
def Circle.valid (c : Circle) : Bool := c.radius.isSome

/-- Tag `BedShapeType` of a bed-shape hint. -/
inductive BedShapeType where
  | BOX
  | CIRCLE
  | IRREGULAR
  | WHO_KNOWS
deriving DecidableEq, Repr

/-- Payload `BedShapeHint::shape`: the three members `circ`, `box`, `polygon`. -/
structure BedShapePayload where
  circ : Circle
  box : BoundingBox
  polygon : Polyline
deriving DecidableEq, Repr

/-- Hint `BedShapeHint`: a tag and the payload. -/
structure BedShapeHint where
  type : BedShapeType
  shape : BedShapePayload
deriving DecidableEq, Repr

/-- Default-constructed payload of `BedShapeHint ret;`. -/
def BedShapePayload.default : BedShapePayload :=
  { circ := Circle.invalid, box := ⟨⟨0, 0⟩, ⟨0, 0⟩⟩, polygon := [] }

/-! ## `bedShape` (ModelArrange.cpp 579-655) -/

/-- Lambda `width` of `bedShape`: `x(box.max) - x(box.min)`. -/
def BoundingBox.width (box : BoundingBox) : ℤ := box.max.x - box.min.x

/-- Lambda `height` of `bedShape`: `y(box.max) - y(box.min)`. -/
def BoundingBox.height (box : BoundingBox) : ℤ := box.max.y - box.min.y

/-- Lambda `area` of `bedShape`: `w*h` as doubles. -/
def BoundingBox.area (box : BoundingBox) : ℚ := (box.width : ℚ) * (box.height : ℚ)

/-- Lambda `poly_area` of `bedShape`: the outline is closed with its first
point and the absolute value of the polygon area is returned.  The first
point of an empty outline does not exist (`front()` of an empty vector). -/
def poly_area (p : Polyline) : Option ℚ :=
  match p.head? with
  | none => none
  | some front => some |Polygon.area (p ++ [front])|

/-- Lambda `distance_to` of `bedShape`. -/
def distance_to (env : Consts) (p1 p2 : Point) : ℚ :=
  let dx : ℚ := ((p2.x - p1.x : ℤ) : ℚ)
  let dy : ℚ := ((p2.y - p1.y : ℤ) : ℚ)
  env.sqrt (dx * dx + dy * dy)

/-- Lambda `isCircle` of `bedShape` (614-637).  With no vertex the mean is
`0.0/0`, a NaN: the circle built from it tests false, like `Circle()`. -/
def isCircle (env : Consts) (bb : BoundingBox) (polygon : Polyline) : Circle :=
  let center := bb.center
  let vertex_distances := polygon.map (fun pt => distance_to env center pt)
  if polygon = [] then ⟨center, none⟩
  else
    let avg_dist := vertex_distances.sum / (vertex_distances.length : ℚ)
    if vertex_distances.any (fun el => decide (|el - avg_dist| > 10 * env.SCALED_EPSILON))
    then Circle.invalid
    else ⟨center, some avg_dist⟩

/-- Classifier `bedShape`.  The result is `none` only where the source has no
defined result: an empty outline (no bounding box, no first point).  The
quotient `parea/area(bb)` is the rational one, with value 0 for a zero
bounding-box area. -/
def bedShape (env : Consts) (bed : Polyline) : Option BedShapeHint :=
  match bounding_box bed, poly_area bed with
  | some bb, some parea =>
    if 1 - parea / bb.area < 1 / 1000 then
      some { type := BedShapeType.BOX,
             shape := { BedShapePayload.default with box := bb } }
    else
      let c := isCircle env bb bed
      if c.valid then
        some { type := BedShapeType.CIRCLE,
               shape := { BedShapePayload.default with circ := c } }
      else
        some { type := BedShapeType.IRREGULAR,
               shape := { BedShapePayload.default with polygon := bed } }
  | _, _ => none

/-! ## Items, model instances and the shape map -/

/-- Placeable shape `libnest2d::Item` as far as this layer reads and writes it:
the contour (a closed path), the translation and the rotation. -/
structure Item where
  contour : List Point
  translation : Point
  rotation : ℚ
deriving DecidableEq, Repr

/-- Modelled from the spec: `Item::vertexCount()` of libnest2d (not among the
sources at hand), the number of hull vertices of the item's polygon.  The
contour of an item is a closed path: its last point repeats the first one and
is not a vertex of its own. -/
def Item.vertexCount (item : Item) : Nat := item.contour.length - 1

/-- Three doubles: `Vec3d`. -/
structure Vec3d where
  x : ℚ
  y : ℚ
  z : ℚ
deriving DecidableEq, Repr

/-- Pose of a `ModelInstance`: the members read and written by this layer
(`get_offset`, `set_offset`, `get_rotation`, `set_rotation`). -/
structure ModelInstance where
  offset : Vec3d
  rotation : Vec3d
deriving DecidableEq, Repr

/-- Modelled from the spec: `ModelInstance::set_offset(const Vec3d&)` (Model.hpp
is not among the sources at hand), which stores the offset. -/
def ModelInstance.set_offset (inst : ModelInstance) (offset : Vec3d) : ModelInstance :=
  { inst with offset := offset }

/-- Modelled from the spec: `ModelInstance::set_rotation(Z, rot)`, which stores
the rotation about Z and leaves the rotations about X and Y. -/
def ModelInstance.set_rotation_Z (inst : ModelInstance) (rot : ℚ) : ModelInstance :=
  { inst with rotation := { inst.rotation with z := rot } }

/-- Address of a model instance (`ModelInstance*`). -/
abbrev InstPtr := Nat

/-- Store of all model instances, addressed by pointer. -/
abbrev Instances := InstPtr → ModelInstance

/-- Object of the model `ModelObject`.  `hull` is the polygon `p` of
`projectModelFromTop` after line 523 (the convex hull of the transformed mesh,
made clockwise): mesh geometry outside this layer.  `instances` is the vector
of instance pointers; `none` is a null pointer. -/
structure ModelObject where
  hull : List Point
  instances : List (Option InstPtr)
deriving DecidableEq, Repr

/-- The model: its vector of objects.  `projectModelFromTop` (line 499) and
`arrange` (line 757) dereference every object pointer, so the vector holds
objects, not nullable pointers. -/
structure Model where
  objects : List ModelObject
deriving DecidableEq, Repr

/-- Vector `ShapeData2D` of (instance pointer, item) pairs. -/
abbrev ShapeData2D := List (InstPtr × Item)

/-- One group of an indexed pack result (`IndexedPackGroup::value_type`): pairs
of an index into the item sequence and the placed item. -/
abbrev PackGroup := List (Nat × Item)

/-- Result of the placer, one group per bin: `IndexedPackGroup`. -/
abbrev IndexedPackGroup := List PackGroup

/-! ## `projectModelFromTop` (ModelArrange.cpp 496-550) -/

/-- Lines 524-525: the hull closed with its first point, as a Clipper path.
An empty hull has no first point (`first_point()` of line 524 has no defined
result, see `projectObjectChecked`); the path is then left empty. -/
def closedPath (p : List Point) : List Point :=
  match p.head? with
  | some first => p ++ [first]
  | none => p

/-- Lines 529-542 for one non-null instance: the item built from the path, with
the pose of the instance, appended to `ret` when it has more than 3 vertices. -/
def projectInstance (env : Consts) (heap : Instances) (clpath : List Point)
    (ret : ShapeData2D) (objinst : Option InstPtr) : ShapeData2D :=
  match objinst with
  | none => ret
  | some ptr =>
    let item : Item := { contour := clpath, translation := ⟨0, 0⟩, rotation := 0 }
    if item.vertexCount > 3 then
      ret ++ [(ptr,
        { item with
          rotation := (heap ptr).rotation.z,
          translation := ⟨toCoord ((heap ptr).offset.x / env.SCALING_FACTOR),
                          toCoord ((heap ptr).offset.y / env.SCALING_FACTOR)⟩ })]
    else ret

/-- Body of the loop over the objects (lines 506-547) for an object on which
the reads of lines 511-518 and 524 are defined: the entries of its instances
are appended to `ret`.  `projectObjectChecked` has these reads. -/
def projectObject (env : Consts) (heap : Instances) (ret : ShapeData2D)
    (objptr : ModelObject) : ShapeData2D :=
  objptr.instances.foldl (projectInstance env heap (closedPath objptr.hull)) ret

/-- Projection `projectModelFromTop` on a model on which the source is defined
(see `projectModelFromTopChecked`): the instances are only read. -/
def projectModelFromTop (env : Consts) (model : Model) (heap : Instances) : ShapeData2D :=
  model.objects.foldl (projectObject env heap) []

/-- Body of the loop over the objects (lines 506-547) with the reads that can
fail.  Line 511 takes `instances.front()`, which does not exist for an empty
vector, and lines 516-518 dereference it, also when it is null (the null test
of line 528 comes later, inside the loop over the instances); line 524 takes
the first point of the hull, which does not exist for an empty hull.  The
result is `none` in these cases. -/
def projectObjectChecked (env : Consts) (heap : Instances) (ret : ShapeData2D)
    (objptr : ModelObject) : Option ShapeData2D :=
  match objptr.instances.head? with
  | none => none
  | some none => none
  | some (some _) =>
    match objptr.hull.head? with
    | none => none
    | some first_point =>
      let clpath := objptr.hull ++ [first_point]
      some (objptr.instances.foldl (projectInstance env heap clpath) ret)

/-- Loop of lines 506-547 over the objects, from the shape map `ret` on. -/
def projectObjectsChecked (env : Consts) (heap : Instances) :
    List ModelObject → ShapeData2D → Option ShapeData2D
  | [], ret => some ret
  | objptr :: rest, ret =>
    match projectObjectChecked env heap ret objptr with
    | none => none
    | some ret1 => projectObjectsChecked env heap rest ret1

/-- Projection `projectModelFromTop` (lines 496-550): the shape map, or `none`
when the source has no defined result. -/
def projectModelFromTopChecked (env : Consts) (model : Model) (heap : Instances) :
    Option ShapeData2D :=
  projectObjectsChecked env heap model.objects []

/-! ## `applyResult` (ModelArrange.cpp 552-577) -/

/-- Write of one (index, item) pair of a group into its instance (lines
558-575).  An index outside the shape map is undefined in the source; the
store is left as it is. -/
def applyPair (env : Consts) (batch_offset : ℤ) (shapemap : ShapeData2D)
    (heap : Instances) (r : Nat × Item) : Instances :=
  match shapemap[r.1]? with
  | none => heap
  | some (inst_ptr, _) =>
    let off := r.2.translation
    let rot := r.2.rotation
    let foff : Vec3d :=
      ⟨(off.x : ℚ) * env.SCALING_FACTOR + (batch_offset : ℚ),
       (off.y : ℚ) * env.SCALING_FACTOR,
       (heap inst_ptr).offset.z⟩
    Function.update heap inst_ptr (((heap inst_ptr).set_rotation_Z rot).set_offset foff)

/-- Write-back `applyResult` of one group with a batch offset. -/
def applyResult (env : Consts) (group : PackGroup) (batch_offset : ℤ)
    (shapemap : ShapeData2D) (heap : Instances) : Instances :=
  group.foldl (applyPair env batch_offset shapemap) heap

/-! ## `arrange` (ModelArrange.cpp 657-760) -/

/-- Rectangle `libnest2d::Box` given by two corners. -/
structure Box where
  minCorner : Point
  maxCorner : Point
deriving DecidableEq, Repr

/-- Modelled from the spec: `Box::width()` of libnest2d, the extent on X. -/
def Box.width (b : Box) : ℤ := b.maxCorner.x - b.minCorner.x

/-- Bin handed to the placer: the template argument of `AutoArranger` together
with its constructor argument. -/
inductive Bin where
  | box (bin : Box)
  | circle (bin : Circle)
  | polygon (bin : List Point)
deriving DecidableEq, Repr

/-- How a call of `arrange` ends: it returns a boolean, or an exception of the
placer leaves it, or the source has no defined behaviour (empty bed outline). -/
inductive Outcome (ε : Type) where
  | returned (ret : Bool)
  | raised (e : ε)
  | undefined
deriving DecidableEq, Repr

/-- Line 683: the hint after the optional classification. -/
def effectiveHint (env : Consts) (bed : Polyline) (bedhint : BedShapeHint) :
    Option BedShapeHint :=
  if bedhint.type = BedShapeType.WHO_KNOWS then bedShape env bed else some bedhint

/-- The `switch` of lines 698-733: which arranger is built, on which bin
(`to_lnCircle` copies the centre and the radius of the circle). -/
def selectBin (binbb : Box) (bed : Polyline) (bedhint : BedShapeHint) : Bin :=
  match bedhint.type with
  | BedShapeType.BOX => Bin.box binbb
  | BedShapeType.CIRCLE => Bin.circle bedhint.shape.circ
  | BedShapeType.IRREGULAR => Bin.polygon bed
  | BedShapeType.WHO_KNOWS => Bin.polygon bed

/-- Lines 741-744: the stride between two successive groups. -/
def stride (env : Consts) (binbb : Box) : ℤ :=
  toCoord ((6 / 5 : ℚ) * (binbb.width : ℚ) * env.SCALING_FACTOR)

/-- Loop of lines 747-754 over the groups, `batch_offset` being the running
offset. -/
def applyGroups (env : Consts) (stride : ℤ) (shapemap : ShapeData2D) :
    IndexedPackGroup → ℤ → Instances → Instances
  | [], _, heap => heap
  | group :: rest, batch_offset, heap =>
    applyGroups env stride shapemap rest (batch_offset + stride)
      (applyResult env group batch_offset shapemap heap)

/-- Lines 665-733 of `arrange`: projection, classification, choice of the
arranger and the run of the placer on the item sequence.  The placer is the
external libnest2d search, given as a function of the bin, the minimum object
distance and the items; it returns its groups or raises an exception.  The
result is `none` when the bed outline is empty. -/
def runPlacer {ε : Type} (env : Consts)
    (placer : Bin → ℤ → List Item → Except ε IndexedPackGroup)
    (model : Model) (min_obj_distance : ℤ) (bed : Polyline) (bedhint : BedShapeHint)
    (heap : Instances) : Option (Except ε IndexedPackGroup) :=
  let shapemap := projectModelFromTop env model heap
  let shapes := shapemap.map Prod.snd
  match effectiveHint env bed bedhint, bounding_box bed with
  | some hint, some bbb =>
    let binbb : Box := ⟨bbb.min, bbb.max⟩
    some (placer (selectBin binbb bed hint) min_obj_distance shapes)
  | _, _ => none

/-- Entry point `arrange`.  `stopcondition` is the value that the call
`stopcondition()` of line 735 yields.  The result is the outcome together with
the store of instances after the call. -/
def arrange {ε : Type} (env : Consts)
    (placer : Bin → ℤ → List Item → Except ε IndexedPackGroup)
    (model : Model) (min_obj_distance : ℤ) (bed : Polyline) (bedhint : BedShapeHint)
    (first_bin_only : Bool) (stopcondition : Bool) (heap : Instances) :
    Outcome ε × Instances :=
  let shapemap := projectModelFromTop env model heap
  match runPlacer env placer model min_obj_distance bed bedhint heap, bounding_box bed with
  | some (Except.ok result), some bbb =>
    let binbb : Box := ⟨bbb.min, bbb.max⟩
    match result with
    | [] => (Outcome.returned false, heap)
    | front :: rest =>
      if stopcondition then (Outcome.returned false, heap)
      else
        let heap1 :=
          if first_bin_only then applyResult env front 0 shapemap heap
          else applyGroups env (stride env binbb) shapemap (front :: rest) 0 heap
        (Outcome.returned (true && decide ((front :: rest).length = 1)), heap1)
  | some (Except.error e), _ => (Outcome.raised e, heap)
  | _, _ => (Outcome.undefined, heap)

/-! ## Sequential writes: the effect of the write-back loops -/

/-- Pose stored by lines 566-575 into an instance whose previous state is
`inst`, for a placed item and a batch offset. -/
def poseOf (env : Consts) (batch_offset : ℤ) (item : Item) (inst : ModelInstance) :
    ModelInstance :=
  { offset := ⟨(item.translation.x : ℚ) * env.SCALING_FACTOR + (batch_offset : ℚ),
               (item.translation.y : ℚ) * env.SCALING_FACTOR,
               inst.offset.z⟩,
    rotation := ⟨inst.rotation.x, inst.rotation.y, item.rotation⟩ }

/-- A list of writes (instance, batch offset, item) carried out in order. -/
def runWrites (env : Consts) (ws : List (InstPtr × ℤ × Item)) (heap : Instances) :
    Instances :=
  ws.foldl (fun h w => Function.update h w.1 (poseOf env w.2.1 w.2.2 (h w.1))) heap

/-- The writes of one group: one per pair whose index is in the shape map. -/
def groupWrites (shapemap : ShapeData2D) (batch_offset : ℤ) (group : PackGroup) :
    List (InstPtr × ℤ × Item) :=
  group.filterMap (fun r => shapemap[r.1]?.map (fun e => (e.1, batch_offset, r.2)))

/-- The writes of a sequence of groups, the offset growing by `stride`. -/
def groupsWrites (shapemap : ShapeData2D) (stride : ℤ) :
    IndexedPackGroup → ℤ → List (InstPtr × ℤ × Item)
  | [], _ => []
  | group :: rest, batch_offset =>
    groupWrites shapemap batch_offset group ++
      groupsWrites shapemap stride rest (batch_offset + stride)

/-- All instance pointers of a model, in model order, null pointers left out. -/
def Model.instancePtrs (model : Model) : List InstPtr :=
  model.objects.flatMap (fun o => o.instances.filterMap id)

/-- Item that `projectModelFromTop` builds for the instance at `ptr` of an
object with hull `hull` (lines 529-541). -/
def itemOf (env : Consts) (heap : Instances) (hull : List Point) (ptr : InstPtr) : Item :=
  { contour := closedPath hull,
    translation := ⟨toCoord ((heap ptr).offset.x / env.SCALING_FACTOR),
                    toCoord ((heap ptr).offset.y / env.SCALING_FACTOR)⟩,
    rotation := (heap ptr).rotation.z }

/-- Square root on rationals that is exact on squares; used to instantiate
`Consts` on concrete inputs. -/
def sqrtQ (q : ℚ) : ℚ := (Nat.sqrt q.num.toNat : ℚ) / (Nat.sqrt q.den : ℚ)

/-- The constants of `libslic3r.h` (`SCALING_FACTOR = 0.000001`,
`SCALED_EPSILON = EPSILON / SCALING_FACTOR = 100`) with `sqrtQ`. -/
def stdConsts : Consts := ⟨1 / 1000000, 100, sqrtQ⟩

/-! ## Concrete inputs -/

/-- Hint of `Plater::priv::arrange`: type `WHO_KNOWS`, payload untouched. -/
def hintWhoKnows : BedShapeHint := ⟨BedShapeType.WHO_KNOWS, BedShapePayload.default⟩

/-- Clockwise hull of a 10 mm square, scaled coordinates. -/
def demoHull : List Point :=
  [⟨0, 0⟩, ⟨0, 10000000⟩, ⟨10000000, 10000000⟩, ⟨10000000, 0⟩]

/-- One object with two instances, at addresses 0 and 1. -/
def demoModel : Model := ⟨[⟨demoHull, [some 0, some 1]⟩]⟩

/-- Store in which every instance sits at the origin, unrotated, at height 3. -/
def demoHeap : Instances := fun _ => ⟨⟨0, 0, 3⟩, ⟨0, 0, 0⟩⟩

/-- Rectangular bed of 250.5 mm by 200 mm, scaled coordinates. -/
def demoBed : Polyline :=
  [⟨0, 0⟩, ⟨250500000, 0⟩, ⟨250500000, 200000000⟩, ⟨0, 200000000⟩]

/-- Placed copy of the square at a translation, rotated by 1/2. -/
def demoItem (tx ty : ℤ) : Item := ⟨closedPath demoHull, ⟨tx, ty⟩, 1 / 2⟩

/-- Two groups: instance 0 in the first bin, instance 1 in the second. -/
def demoGroups : IndexedPackGroup :=
  [[(0, demoItem 120000000 100000000)], [(1, demoItem 125000000 90000000)]]

/-- Placer that needs two bins. -/
def demoPlacer : Bin → ℤ → List Item → Except Unit IndexedPackGroup :=
  fun _ _ _ => Except.ok demoGroups

/-- Placer that fits everything into one bin. -/
def onePlacer : Bin → ℤ → List Item → Except Unit IndexedPackGroup :=
  fun _ _ _ => Except.ok [[(0, demoItem 120000000 100000000), (1, demoItem 125000000 90000000)]]

/-- Placer that produces no group. -/
def emptyPlacer : Bin → ℤ → List Item → Except Unit IndexedPackGroup :=
  fun _ _ _ => Except.ok []

/-- Placer that raises an exception. -/
def failingPlacer : Bin → ℤ → List Item → Except Unit IndexedPackGroup :=
  fun _ _ _ => Except.error ()

/-- Shape map with the two instances of `demoModel`. -/
def demoShapemap : ShapeData2D := [(0, demoItem 0 0), (1, demoItem 0 0)]

/-- Clockwise triangular hull: three hull vertices. -/
def triHull : List Point := [⟨0, 0⟩, ⟨0, 10000000⟩, ⟨10000000, 0⟩]

/-- Unit square, clockwise. -/
def squareCW : Polyline := [⟨0, 0⟩, ⟨0, 1⟩, ⟨1, 1⟩, ⟨1, 0⟩]

/-- Unit square, counter-clockwise. -/
def squareCCW : Polyline := [⟨0, 0⟩, ⟨1, 0⟩, ⟨1, 1⟩, ⟨0, 1⟩]

/-- Eight integer points on the circle of radius 5000 around the origin. -/
def octagon : Polyline :=
  [⟨5000, 0⟩, ⟨3000, 4000⟩, ⟨0, 5000⟩, ⟨-3000, 4000⟩,
   ⟨-5000, 0⟩, ⟨-3000, -4000⟩, ⟨0, -5000⟩, ⟨3000, -4000⟩]

/-! ## Auxiliary notions for the classifier -/

/-- One step of the bounding-box computation: the box extended by a point. -/
def bbStep (bb : BoundingBox) (q : Point) : BoundingBox :=
  { min := ⟨Min.min bb.min.x q.x, Min.min bb.min.y q.y⟩,
    max := ⟨Max.max bb.max.x q.x, Max.max bb.max.y q.y⟩ }

/-- A box bounds a list of points and each of its sides is attained by one. -/
def BoundsTight (bb : BoundingBox) (l : List Point) : Prop :=
  (∀ p ∈ l, bb.min.x ≤ p.x ∧ p.x ≤ bb.max.x ∧ bb.min.y ≤ p.y ∧ p.y ≤ bb.max.y) ∧
  (∃ p ∈ l, p.x = bb.min.x) ∧ (∃ p ∈ l, p.x = bb.max.x) ∧
  (∃ p ∈ l, p.y = bb.min.y) ∧ (∃ p ∈ l, p.y = bb.max.y)

/-- Sum of the shoelace terms over the consecutive pairs of a list. -/
def edgeSum : List Point → ℚ
  | [] => 0
  | a :: l => areaAcc a l

/-- The outline `bed` is the closed polygon `l` read from any starting vertex
in either direction. -/
def SameCycle (l bed : Polyline) : Prop :=
  ∃ k : Nat, bed = l.rotate k ∨ bed = l.reverse.rotate k

/-- The four corners of the axis-aligned rectangle with opposite corners
`(x0, y0)` and `(x1, y1)`. -/
def rectCorners (x0 y0 x1 y1 : ℤ) : Polyline :=
  [⟨x0, y0⟩, ⟨x1, y0⟩, ⟨x1, y1⟩, ⟨x0, y1⟩]

/-- The six vertices of an L: the rectangle with opposite corners `(ox, oy)`
and `(cx, cy)`, from which the rectangle with opposite corners `(ix, iy)` and
`(cx, cy)` is removed. -/
def lCorners (ox oy cx cy ix iy : ℤ) : Polyline :=
  [⟨ox, oy⟩, ⟨cx, oy⟩, ⟨cx, iy⟩, ⟨ix, iy⟩, ⟨ix, cy⟩, ⟨ox, cy⟩]

/-- A coordinate lies strictly between two others, in either order. -/
def StrictlyBetween (a m b : ℤ) : Prop := (a < m ∧ m < b) ∨ (b < m ∧ m < a)

/-- Outline with two points, on a horizontal line. -/
def flatBed : Polyline := [⟨0, 0⟩, ⟨5, 0⟩]

/-- Open triangle whose first vertex is nearer to the centre of its bounding
box than the two others. -/
def openTriangle : Polyline := [⟨3000, 1250⟩, ⟨-3000, 4000⟩, ⟨-3000, -4000⟩]

/-- The same triangle with its first point repeated at the end. -/
def closedTriangle : Polyline := openTriangle ++ [⟨3000, 1250⟩]

/-- Square of side 100 with a notch of side 1 at its top right corner. -/
def notchedSquare : Polyline := lCorners 0 0 100 100 99 99

/-- An L inscribed in a square of side 2, with a notch of side 1. -/
def tinyL : Polyline := lCorners 0 0 2 2 1 1

/-- Regular 32-gon of radius 100 mm (100000000 scaled units) around the
origin, its vertices rounded to integer coordinates. -/
def gon32 : Polyline :=
  [⟨100000000, 0⟩, ⟨98078528, 19509032⟩, ⟨92387953, 38268343⟩, ⟨83146961, 55557023⟩,
   ⟨70710678, 70710678⟩, ⟨55557023, 83146961⟩, ⟨38268343, 92387953⟩, ⟨19509032, 98078528⟩,
   ⟨0, 100000000⟩, ⟨-19509032, 98078528⟩, ⟨-38268343, 92387953⟩, ⟨-55557023, 83146961⟩,
   ⟨-70710678, 70710678⟩, ⟨-83146961, 55557023⟩, ⟨-92387953, 38268343⟩, ⟨-98078528, 19509032⟩,
   ⟨-100000000, 0⟩, ⟨-98078528, -19509032⟩, ⟨-92387953, -38268343⟩, ⟨-83146961, -55557023⟩,
   ⟨-70710678, -70710678⟩, ⟨-55557023, -83146961⟩, ⟨-38268343, -92387953⟩, ⟨-19509032, -98078528⟩,
   ⟨0, -100000000⟩, ⟨19509032, -98078528⟩, ⟨38268343, -92387953⟩, ⟨55557023, -83146961⟩,
   ⟨70710678, -70710678⟩, ⟨83146961, -55557023⟩, ⟨92387953, -38268343⟩, ⟨98078528, -19509032⟩]

/-! ## The placement objective `objfunc` (ModelArrange.cpp 101-254) -/

/-- Contour of a libnest2d polygon (`PolygonImpl`), as a list of points. -/
abbrev PolygonImpl := List Point

/-- Sequence of items `ItemGroup`. -/
abbrev ItemGroup := List Item

/-- Stored value `SpatElement` of a spatial index: a box and an item index. -/
abbrev SpatElement := Box × Nat

/-- Spatial index `SpatIndex` (a boost R-tree), as the list of its values. -/
abbrev SpatIndex := List SpatElement

/-- The functions of libnest2d and boost that `objfunc` calls and whose code is
not among the sources at hand: `Item::area()`, `Item::transformedShape()`,
`sl::boundingBox(shape)`, `Item::boundingBox()`, `sl::convexHull(shapes)`,
`EdgeCache(hull).circumference()` and the predicate `bgi::intersects` on a
stored box and the query box.  They are parameters of the embedding. -/
structure Nest2D where
  area : Item → ℚ
  transformedShape : Item → PolygonImpl
  shapeBoundingBox : PolygonImpl → Box
  itemBoundingBox : Item → Box
  convexHull : List PolygonImpl → PolygonImpl
  circumference : PolygonImpl → ℚ
  intersects : Box → Box → Bool

/-- Modelled from the spec: `Box::height()` of libnest2d, the extent on Y. -/
def Box.height (b : Box) : ℤ := b.maxCorner.y - b.minCorner.y

/-- Modelled from the spec: `Box::center()` of libnest2d, the centre of the
box; the half-sums are converted to integer coordinates. -/
def Box.center (b : Box) : Point :=
  ⟨toCoord (((b.minCorner.x + b.maxCorner.x : ℤ) : ℚ) / 2),
   toCoord (((b.minCorner.y + b.maxCorner.y : ℤ) : ℚ) / 2)⟩

/-- Modelled from the spec: `Box::area()` of libnest2d, width times height. -/
def Box.area (b : Box) : ℚ := (b.width : ℚ) * (b.height : ℚ)

/-- Modelled from the spec: `pl::distance` of libnest2d, the Euclidean distance
of two points. -/
def pl_distance (env : Consts) (p1 p2 : Point) : ℚ :=
  let dx : ℚ := ((p1.x - p2.x : ℤ) : ℚ)
  let dy : ℚ := ((p1.y - p2.y : ℤ) : ℚ)
  env.sqrt (dx * dx + dy * dy)

/-- Threshold `BIG_ITEM_TRESHOLD = 0.02` (line 107). -/
def BIG_ITEM_TRESHOLD : ℚ := 2 / 100

/-- Function `boundingBox(pilebb, ibb)` (lines 109-122): the box spanned by the
componentwise minimum of the min corners and maximum of the max corners. -/
def boundingBox (pilebb ibb : Box) : Box :=
  let pminc := pilebb.minCorner
  let pmaxc := pilebb.maxCorner
  let iminc := ibb.minCorner
  let imaxc := ibb.maxCorner
  { minCorner := ⟨Min.min pminc.x iminc.x, Min.min pminc.y iminc.y⟩,
    maxCorner := ⟨Max.max pmaxc.x imaxc.x, Max.max pmaxc.y imaxc.y⟩ }

/-- Modelled from the spec: `rtree::bounds()` of boost, the box that spans all
the boxes stored in the index.  (It is read for a non-empty index only.) -/
def SpatIndex.bounds : SpatIndex → Box
  | [] => ⟨⟨0, 0⟩, ⟨0, 0⟩⟩
  | e :: es => es.foldl (fun b v => boundingBox b v.1) e.1

/-- Modelled from the spec: `rtree::query(bgi::intersects(querybb), out)` of
boost, the stored values whose box intersects the query box. -/
def SpatIndex.query (geo : Nest2D) (index : SpatIndex) (querybb : Box) : List SpatElement :=
  index.filter (fun e => geo.intersects e.1 querybb)

/-- Lambda `isBig` (lines 139-141, 326-328, 414-416): `a/bin_area > 0.02`.  For
`bin_area = 0` the floating-point quotient is an infinity with the sign of `a`
(a NaN for `a = 0`), so the comparison holds exactly for positive `a`. -/
def isBig (bin_area a : ℚ) : Bool :=
  if bin_area = 0 then decide (0 < a) else decide (a / bin_area > BIG_ITEM_TRESHOLD)

/-- Smallest element `*std::min_element` of the array of the five distances. -/
def min_element (d0 d1 d2 d3 d4 : ℚ) : ℚ :=
  [d1, d2, d3, d4].foldl (fun m d => if d < m then d else m) d0

/-- Body of the loop of lines 224-235 for one query result `e`: the alignment
score after looking at the neighbour `items[e.second]`.  (An index outside
`items` is undefined in the source; the score is left as it is.) -/
def alignmentStep (geo : Nest2D) (items : ItemGroup) (item : Item) (ibb : Box)
    (alignment_score : ℚ) (e : SpatElement) : ℚ :=
  match items[e.2]? with
  | none => alignment_score
  | some p =>
    let parea := geo.area p
    if |1 - parea / geo.area item| < 1 / 1000000 then
      let bb := boundingBox (geo.itemBoundingBox p) ibb
      let bbarea := bb.area
      let ascore := 1 - (geo.area item + parea) / bbarea
      if ascore < alignment_score then ascore else alignment_score
    else alignment_score

/-- Objective `objfunc` (lines 124-254): the score and the box `fullbb`.
Quotients are rational quotients; where the source divides by zero (see
`objfuncChecked`) its result is an infinity or a NaN and the rational score
has no meaning. -/
def objfunc (env : Consts) (geo : Nest2D) (bincenter : Point)
    (merged_pile : List PolygonImpl) (pilebb : Box) (items : ItemGroup) (item : Item)
    (bin_area norm : ℚ) (spatindex smalls_spatindex : SpatIndex) (remaining : ItemGroup) :
    ℚ × Box :=
  let ibb := geo.shapeBoundingBox (geo.transformedShape item)
  let fullbb := boundingBox pilebb ibb
  let bigbb := if spatindex.isEmpty then fullbb else SpatIndex.bounds spatindex
  let score : ℚ :=
    if isBig bin_area (geo.area item) || spatindex.isEmpty then
      let minc := ibb.minCorner
      let maxc := ibb.maxCorner
      let top_left : Point := ⟨minc.x, maxc.y⟩
      let bottom_right : Point := ⟨maxc.x, minc.y⟩
      let cc := fullbb.center
      let dist0 :=
        min_element (pl_distance env minc cc) (pl_distance env maxc cc)
          (pl_distance env ibb.center cc) (pl_distance env top_left cc)
          (pl_distance env bottom_right cc) / norm
      let bindist := pl_distance env ibb.center bincenter / norm
      let dist := 8 / 10 * dist0 + 2 / 10 * bindist
      if remaining.isEmpty then
        let mp := merged_pile ++ [geo.transformedShape item]
        let chull := geo.convexHull mp
        let circ := geo.circumference chull / norm
        let bcirc := 2 * (((fullbb.width + fullbb.height : ℤ) : ℚ)) / norm
        5 / 10 * circ + 5 / 10 * bcirc
      else
        let density := env.sqrt (((fullbb.width : ℚ) / norm) * ((fullbb.height : ℚ) / norm))
        let querybb := geo.itemBoundingBox item
        let result :=
          if isBig bin_area (geo.area item) then SpatIndex.query geo spatindex querybb
          else SpatIndex.query geo smalls_spatindex querybb
        let alignment_score := result.foldl (alignmentStep geo items item ibb) 1
        if result.isEmpty then 5 / 10 * dist + 5 / 10 * density
        else 40 / 100 * dist + 40 / 100 * density + 2 / 10 * alignment_score
    else
      pl_distance env ibb.center bigbb.center / norm
  (score, fullbb)

/-- Quotient `a / b` of two doubles where the divisor is not zero; `none` for
a division by zero. -/
def divChecked (a b : ℚ) : Option ℚ := if b = 0 then none else some (a / b)

/-- State of `_ArrBase` (lines 291-300) that the objective functions read. -/
structure ArrBase where
  m_bin_area : ℚ
  m_rtree : SpatIndex
  m_smallsrtree : SpatIndex
  m_norm : ℚ
  m_merged_pile : List PolygonImpl
  m_pilebb : Box
  m_remaining : ItemGroup
  m_items : ItemGroup

/-- Initialisation of `_ArrBase` (lines 303-307) for a bin of area `bin_area`:
the norm is its square root; indexes, pile and item lists are empty. -/
def ArrBase.new (env : Consts) (bin_area : ℚ) : ArrBase :=
  { m_bin_area := bin_area, m_rtree := [], m_smallsrtree := [],
    m_norm := env.sqrt bin_area, m_merged_pile := [], m_pilebb := ⟨⟨0, 0⟩, ⟨0, 0⟩⟩,
    m_remaining := [], m_items := [] }

/-- Object function of `AutoArranger<bool>` (lines 472-485): `objfunc` with bed
centre `{0, 0}` and bin area `0`. -/
def objectiveNoBin (env : Consts) (geo : Nest2D) (st : ArrBase) (item : Item) : ℚ :=
  (objfunc env geo ⟨0, 0⟩ st.m_merged_pile st.m_pilebb st.m_items item 0 st.m_norm
    st.m_rtree st.m_smallsrtree st.m_remaining).1

/-- The box of a shape: its bounding box, or the zero box for no point. -/
def boxOfShape (shape : PolygonImpl) : Box :=
  match bounding_box shape with
  | some bb => ⟨bb.min, bb.max⟩
  | none => ⟨⟨0, 0⟩, ⟨0, 0⟩⟩

/-- A contour moved by a translation. -/
def translateShape (t : Point) (shape : PolygonImpl) : PolygonImpl :=
  shape.map (fun p => ⟨p.x + t.x, p.y + t.y⟩)

/-- Two boxes with a common point (closed boxes). -/
def boxesIntersect (a b : Box) : Bool :=
  decide (a.minCorner.x ≤ b.maxCorner.x) && decide (b.minCorner.x ≤ a.maxCorner.x) &&
    decide (a.minCorner.y ≤ b.maxCorner.y) && decide (b.minCorner.y ≤ a.maxCorner.y)

/-- Length of a contour given with its closing point: the sum of the distances
of consecutive points. -/
def contourLength (env : Consts) : PolygonImpl → ℚ
  | p :: q :: rest => pl_distance env p q + contourLength env (q :: rest)
  | _ => 0

/-- An instance of the library functions for unrotated items: the shape is the
translated contour, boxes are bounding boxes, the area is the absolute
shoelace area, the circumference is the length of the closed contour.  The
convex hull is taken of piles of one convex contour only, where it is that
contour. -/
def demoGeo : Nest2D :=
  { area := fun item => |Polygon.area item.contour|,
    transformedShape := fun item => translateShape item.translation item.contour,
    shapeBoundingBox := boxOfShape,
    itemBoundingBox := fun item => boxOfShape (translateShape item.translation item.contour),
    convexHull := fun shapes => shapes.flatten,
    circumference := contourLength stdConsts,
    intersects := boxesIntersect }

/-- Clockwise closed contour of the rectangle of width `w` and height `h` at
the origin. -/
def rectContour (w h : ℤ) : PolygonImpl := [⟨0, 0⟩, ⟨0, h⟩, ⟨w, h⟩, ⟨w, 0⟩, ⟨0, 0⟩]

/-- A placed small item: 10 by 16, at the origin. -/
def placedSmall : Item := ⟨rectContour 10 16, ⟨0, 0⟩, 0⟩

/-- A small candidate: 10 by 12, at (26, 2). -/
def candidateSmall : Item := ⟨rectContour 10 12, ⟨26, 2⟩, 0⟩

/-- An item still to be placed. -/
def pendingItem : Item := ⟨rectContour 10 10, ⟨0, 0⟩, 0⟩

/-- A big candidate: 100 by 100 at the origin, a quarter of the 200 by 200 bin. -/
def candidateBig : Item := ⟨rectContour 100 100, ⟨0, 0⟩, 0⟩

/-- A candidate of the size of `placedSmall`, put right of it: 10 by 16 at
(10, 0). -/
def candidateTwin : Item := ⟨rectContour 10 16, ⟨10, 0⟩, 0⟩

/-- Specification side: the minimum of the distances from the centre of
`fullbb` to the five anchors of the candidate box `ibb`: min corner, max
corner, centre, top-left (minX, maxY) and bottom-right (maxX, minY). -/
def specAnchorDistance (env : Consts) (ibb fullbb : Box) : ℚ :=
  min (min (min (min
    (pl_distance env ibb.minCorner fullbb.center)
    (pl_distance env ibb.maxCorner fullbb.center))
    (pl_distance env ibb.center fullbb.center))
    (pl_distance env ⟨ibb.minCorner.x, ibb.maxCorner.y⟩ fullbb.center))
    (pl_distance env ⟨ibb.maxCorner.x, ibb.minCorner.y⟩ fullbb.center)

/-- Specification side: `dist = 0.8·(m / norm) + 0.2·(distance(candidate box
centre, bed centre) / norm)`. -/
def specDist (env : Consts) (ibb fullbb : Box) (bincenter : Point) (norm : ℚ) : ℚ :=
  4 / 5 * (specAnchorDistance env ibb fullbb / norm) +
    1 / 5 * (pl_distance env ibb.center bincenter / norm)

/-- Specification side: `density = sqrt((fullbb.width / norm) × (fullbb.height /
norm))`. -/
def specDensity (env : Consts) (fullbb : Box) (norm : ℚ) : ℚ :=
  env.sqrt (((fullbb.width : ℚ) / norm) * ((fullbb.height : ℚ) / norm))

/-- Specification side: the alignment values 1 - (area(candidate) + area(p)) /
area(merged box of p and candidate) of the neighbours p = items[idx] found by
the query whose area matches, |1 - area(p)/area(candidate)| < 1e-6. -/
def specAlignmentScores (geo : Nest2D) (items : ItemGroup) (item : Item) (ibb : Box)
    (neighbours : List SpatElement) : List ℚ :=
  ((neighbours.filterMap (fun e => items[e.2]?)).filter
      (fun p => decide (|1 - geo.area p / geo.area item| < 1 / 1000000))).map
    (fun p => 1 - (geo.area item + geo.area p) /
      (boundingBox (geo.itemBoundingBox p) ibb).area)

/-- Specification side: the minimum of a list of alignment values, and 1 when
there is none. -/
def specAlignment : List ℚ → ℚ
  | [] => 1
  | s :: ss => ss.foldl min s

/-! ## The object functions of the four arrangers (ModelArrange.cpp 346-489) -/

/-- The call of `objfunc` that the object functions of the arrangers with a
bin make (lines 359-368, 401-410, 445-454): the members of `_ArrBase` are
passed as they are. -/
def ArrBase.objfunc (env : Consts) (geo : Nest2D) (bincenter : Point) (st : ArrBase)
    (item : Item) : ℚ × Box :=
  arr.objfunc env geo bincenter st.m_merged_pile st.m_pilebb st.m_items item st.m_bin_area
    st.m_norm st.m_rtree st.m_smallsrtree st.m_remaining

/-- Object function of `AutoArranger<Box>` (lines 357-378).  The function
`Placer::overfit(fullbb, bin)` of libnest2d is the parameter `overfit`. -/
def objectiveBox (env : Consts) (geo : Nest2D) (overfit : Box → Box → ℚ) (bin : Box)
    (st : ArrBase) (item : Item) : ℚ :=
  let result := st.objfunc env geo bin.center item
  let score := result.1
  let fullbb := result.2
  let miss := overfit fullbb bin
  let miss := if miss > 0 then miss else 0
  score + miss * miss

/-- Object function of `AutoArranger<lnCircle>` (lines 399-428).  The function
`Placer::overfit(chull, bin)` of libnest2d is the parameter `overfit`. -/
def objectiveCircle (env : Consts) (geo : Nest2D) (overfit : PolygonImpl → Circle → ℚ)
    (bin : Circle) (st : ArrBase) (item : Item) : ℚ :=
  let result := st.objfunc env geo bin.center item
  let score := result.1
  if isBig st.m_bin_area (geo.area item) then
    let mp := st.m_merged_pile ++ [geo.transformedShape item]
    let chull := geo.convexHull mp
    let miss := overfit chull bin
    let miss := if miss < 0 then 0 else miss
    score + miss * miss
  else score

/-- Object function of `AutoArranger<PolygonImpl>` (lines 442-458): the bed
centre is the centre of the bounding box of the bin polygon. -/
def objectivePolygon (env : Consts) (geo : Nest2D) (bin : PolygonImpl) (st : ArrBase)
    (item : Item) : ℚ :=
  let binbb := geo.shapeBoundingBox bin
  let result := st.objfunc env geo binbb.center item
  result.1

/-! ## The callback `before_packing` (ModelArrange.cpp 311-335) -/

/-- Loop of lines 330-334 from the index `idx` on: every item goes into the
index of all items, a big one also into the index of big items. -/
def packingLoop (geo : Nest2D) (bin_area : ℚ) :
    ItemGroup → Nat → SpatIndex × SpatIndex → SpatIndex × SpatIndex
  | [], _, acc => acc
  | itm :: rest, idx, (rtree, smallsrtree) =>
    packingLoop geo bin_area rest (idx + 1)
      (if isBig bin_area (geo.area itm) then rtree ++ [(geo.itemBoundingBox itm, idx)]
        else rtree,
       smallsrtree ++ [(geo.itemBoundingBox itm, idx)])

/-- Callback `before_packing`: the state of `_ArrBase` after it ran on the
merged pile, the packed items and the remaining items.  The bounding box
`sl::boundingBox(merged_pile)` of a pile is the parameter `pileBox`. -/
def before_packing (geo : Nest2D) (pileBox : List PolygonImpl → Box) (st : ArrBase)
    (merged_pile : List PolygonImpl) (items remaining : ItemGroup) : ArrBase :=
  let indexes := packingLoop geo st.m_bin_area items 0 ([], [])
  { st with
    m_items := items,
    m_merged_pile := merged_pile,
    m_remaining := remaining,
    m_pilebb := pileBox merged_pile,
    m_rtree := indexes.1,
    m_smallsrtree := indexes.2 }

/-- Branch test of line 161: true when `objfunc` scores the candidate in the
branch of the big items. -/
def takesBigBranch (geo : Nest2D) (bin_area : ℚ) (spatindex : SpatIndex) (item : Item) :
    Bool :=
  isBig bin_area (geo.area item) || spatindex.isEmpty

/-- Box `outer` contains box `inner`. -/
def Box.contains (outer inner : Box) : Prop :=
  outer.minCorner.x ≤ inner.minCorner.x ∧ outer.minCorner.y ≤ inner.minCorner.y ∧
    inner.maxCorner.x ≤ outer.maxCorner.x ∧ inner.maxCorner.y ≤ outer.maxCorner.y

/-- Modelled from the spec: `Placer::overfit(bb, bin)` of libnest2d for two
boxes, the sum of the excess of the width and of the height of `bb` over
those of the bin. -/
def boxOverfit (bb bin : Box) : ℚ :=
  let wdiff : ℚ := ((bb.width - bin.width : ℤ) : ℚ)
  let hdiff : ℚ := ((bb.height - bin.height : ℤ) : ℚ)
  (if wdiff > 0 then wdiff else 0) + (if hdiff > 0 then hdiff else 0)

/-- Bounding box of a pile of shapes for the concrete inputs: the box of all
their points. -/
def demoPileBox (pile : List PolygonImpl) : Box := boxOfShape pile.flatten

/-! ## `Plater::priv::arrange` (Plater.cpp 1732-1817) -/

/-- Status texts of the arrange command. -/
inductive StatusMsg where
  | arranging
  | canceled
  | done
deriving DecidableEq, Repr

/-- Calls that `Plater::priv::arrange` makes on the objects around it, in the
order in which they happen. -/
inductive PlaterEvent where
  | enable_toolbar_item (enabled : Bool)
  | background_process_stop
  | set_range (range : Nat)
  | set_progress (progress : Nat)
  | set_status_text (msg : StatusMsg)
  | set_cancel_callback (installed : Bool)
  | arr_arrange
  | stopcondition (result : Bool)
  | show_error
  | update
deriving DecidableEq, Repr

/-- State that the command reads and writes: the flag `arranging`, whether the
model has objects, the number of instances, the range of the status bar, and
the calls made so far. -/
structure PlaterState where
  arranging : Bool
  has_objects : Bool
  instance_count : Nat
  statusbar_range : Nat
  log : List PlaterEvent
deriving DecidableEq, Repr

/-- What `arr::arrange` does with its callbacks while it runs: it reports
progress, it polls the stop condition, and during the `wxYieldIfNeeded` of a
progress report the user may press the cancel button. -/
inductive ArrStep where
  | progress (st : Nat)
  | cancel_pressed
  | poll_stop
deriving DecidableEq, Repr

/-- How the call of `arr::arrange` ends: it returns, or it throws a
`std::exception`, or it throws something else. -/
inductive ArrEnding where
  | returned (ret : Bool)
  | threw_std_exception
  | threw_other
deriving DecidableEq, Repr

/-- Calls appended to the log. -/
def PlaterState.emit (s : PlaterState) (es : List PlaterEvent) : PlaterState :=
  { s with log := s.log ++ es }

/-- Function `Plater::priv::can_arrange` (Plater.cpp 2621-2624). -/
def can_arrange (s : PlaterState) : Bool := s.has_objects && !s.arranging

/-- Lambda `statusfn` (lines 1751-1765); the events of its `wxYieldIfNeeded`
are steps of their own. -/
def statusfn (count st : Nat) (msg : StatusMsg) (s : PlaterState) : PlaterState :=
  s.emit [PlaterEvent.set_progress (count - st), PlaterEvent.set_status_text msg]

/-- Cancel callback (lines 1767-1770): it clears the flag and reports. -/
def cancelCallback (count : Nat) (s : PlaterState) : PlaterState :=
  statusfn count 0 StatusMsg.canceled { s with arranging := false }

/-- Stop condition handed to `arr::arrange` (line 1801): `!arranging.load()`. -/
def stopConditionOf (s : PlaterState) : Bool := !s.arranging

/-- One step of the run of `arr::arrange` on the state of the plater. -/
def arrStep (count : Nat) (s : PlaterState) : ArrStep → PlaterState
  | ArrStep.progress st => statusfn count st StatusMsg.arranging s
  | ArrStep.cancel_pressed => cancelCallback count s
  | ArrStep.poll_stop => s.emit [PlaterEvent.stopcondition (stopConditionOf s)]

/-- Lines 1737-1790: the state when `arr::arrange` is entered. -/
def arrangePrologue (s : PlaterState) : PlaterState :=
  let s1 := { s with arranging := true }
  let s2 := s1.emit [PlaterEvent.enable_toolbar_item (can_arrange s1),
    PlaterEvent.background_process_stop]
  let count := s2.instance_count
  let s3 := { s2 with statusbar_range := count }.emit
    [PlaterEvent.set_range count, PlaterEvent.set_cancel_callback true]
  (statusfn count 0 StatusMsg.arranging s3).emit [PlaterEvent.arr_arrange]

/-- Lines 1807-1817: what follows the `try` block. -/
def arrangeEpilogue (count prev_range : Nat) (s : PlaterState) : PlaterState :=
  let s1 := statusfn count 0 StatusMsg.done s
  let s2 := { s1 with statusbar_range := prev_range }.emit
    [PlaterEvent.set_range prev_range, PlaterEvent.set_cancel_callback false]
  let s3 := { s2 with arranging := false }
  s3.emit [PlaterEvent.enable_toolbar_item (can_arrange s3), PlaterEvent.update]

/-- Command `Plater::priv::arrange`, for a run `steps` of `arr::arrange` and its
ending.  The result is the state after the command and whether an exception
leaves it (an exception that is not a `std::exception` is not caught, and the
lines after the `try` block are not run). -/
def Plater.arrange (steps : List ArrStep) (ending : ArrEnding) (s : PlaterState) :
    PlaterState × Bool :=
  if s.arranging then (s, false)
  else
    let count := s.instance_count
    let prev_range := s.statusbar_range
    let s1 := arrangePrologue s
    let s2 := steps.foldl (arrStep count) s1
    match ending with
    | ArrEnding.returned _ => (arrangeEpilogue count prev_range s2, false)
    | ArrEnding.threw_std_exception =>
      (arrangeEpilogue count prev_range (s2.emit [PlaterEvent.show_error]), false)
    | ArrEnding.threw_other => (s2, true)

/-- A plater with two instances, not arranging. -/
def idlePlater : PlaterState := ⟨false, true, 2, 100, []⟩

/-- A plater in the middle of an arrange command. -/
def busyPlater : PlaterState := ⟨true, true, 2, 2, [PlaterEvent.arr_arrange]⟩

/-! # Theorems -/

/-! ## Lemmas on sequential writes -/

theorem runWrites_nil (env : Consts) (heap : Instances) : runWrites env [] heap = heap := rfl

theorem runWrites_cons (env : Consts) (w : InstPtr × ℤ × Item) (ws : List (InstPtr × ℤ × Item))
    (heap : Instances) :
    runWrites env (w :: ws) heap =
      runWrites env ws (Function.update heap w.1 (poseOf env w.2.1 w.2.2 (heap w.1))) := rfl

theorem runWrites_append (env : Consts) (ws vs : List (InstPtr × ℤ × Item)) (heap : Instances) :
    runWrites env (ws ++ vs) heap = runWrites env vs (runWrites env ws heap) := by
  simp [runWrites, List.foldl_append]

/-- An instance that no write addresses keeps its state. -/
theorem runWrites_untouched (env : Consts) (ws : List (InstPtr × ℤ × Item)) :
    ∀ (heap : Instances) (p : InstPtr), p ∉ ws.map Prod.fst → runWrites env ws heap p = heap p := by
  induction ws with
  | nil => intro heap p _; rfl
  | cons w ws ih =>
    intro heap p hp
    simp only [List.map_cons, List.mem_cons, not_or] at hp
    rw [runWrites_cons, ih _ p hp.2, Function.update_noteq hp.1]

/-- Writes never change the Z offset nor the X and Y rotations. -/
theorem runWrites_frame (env : Consts) (ws : List (InstPtr × ℤ × Item)) :
    ∀ (heap : Instances) (p : InstPtr),
      (runWrites env ws heap p).offset.z = (heap p).offset.z ∧
      (runWrites env ws heap p).rotation.x = (heap p).rotation.x ∧
      (runWrites env ws heap p).rotation.y = (heap p).rotation.y := by
  induction ws with
  | nil => intro heap p; exact ⟨rfl, rfl, rfl⟩
  | cons w ws ih =>
    intro heap p
    rw [runWrites_cons]
    obtain ⟨h1, h2, h3⟩ := ih (Function.update heap w.1 (poseOf env w.2.1 w.2.2 (heap w.1))) p
    rw [h1, h2, h3]
    by_cases hp : p = w.1
    · subst hp; simp [poseOf]
    · simp [Function.update_noteq hp]

/-- When the addressed instances are pairwise distinct, each write determines
the final state of its instance. -/
theorem runWrites_written (env : Consts) (ws : List (InstPtr × ℤ × Item)) :
    ∀ (heap : Instances), (ws.map Prod.fst).Nodup →
      ∀ w ∈ ws, runWrites env ws heap w.1 = poseOf env w.2.1 w.2.2 (heap w.1) := by
  induction ws with
  | nil => intro heap _ w hw; cases hw
  | cons v ws ih =>
    intro heap hnd w hw
    simp only [List.map_cons, List.nodup_cons] at hnd
    rw [runWrites_cons]
    rcases List.mem_cons.1 hw with rfl | hw
    · rw [runWrites_untouched env ws _ _ hnd.1, Function.update_same]
    · have hne : w.1 ≠ v.1 := by
        intro h
        exact hnd.1 (h ▸ List.mem_map_of_mem Prod.fst hw)
      rw [ih _ hnd.2 w hw, Function.update_noteq hne]

theorem applyPair_eq (env : Consts) (bo : ℤ) (sm : ShapeData2D) (heap : Instances)
    (r : Nat × Item) :
    applyPair env bo sm heap r = runWrites env (groupWrites sm bo [r]) heap := by
  unfold applyPair groupWrites
  cases h : sm[r.1]? with
  | none => simp [runWrites, List.filterMap_cons, h]
  | some e =>
    simp [runWrites, poseOf, List.filterMap_cons, h, ModelInstance.set_offset,
      ModelInstance.set_rotation_Z]

theorem groupWrites_cons (sm : ShapeData2D) (bo : ℤ) (r : Nat × Item) (g : PackGroup) :
    groupWrites sm bo (r :: g) = groupWrites sm bo [r] ++ groupWrites sm bo g := by
  unfold groupWrites
  cases h : sm[r.1]? <;> simp [List.filterMap_cons, h]

theorem applyResult_eq_runWrites (env : Consts) (bo : ℤ) (sm : ShapeData2D) (g : PackGroup) :
    ∀ heap : Instances, applyResult env g bo sm heap = runWrites env (groupWrites sm bo g) heap := by
  induction g with
  | nil => intro heap; rfl
  | cons r g ih =>
    intro heap
    rw [groupWrites_cons, runWrites_append, ← applyPair_eq, ← ih]
    rfl

theorem applyGroups_eq_runWrites (env : Consts) (s : ℤ) (sm : ShapeData2D)
    (gs : IndexedPackGroup) :
    ∀ (bo : ℤ) (heap : Instances),
      applyGroups env s sm gs bo heap = runWrites env (groupsWrites sm s gs bo) heap := by
  induction gs with
  | nil => intro bo heap; rfl
  | cons g gs ih =>
    intro bo heap
    simp only [applyGroups, groupsWrites, runWrites_append, ih, applyResult_eq_runWrites]

/-- In a shape map without repeated instance, the instance determines the index. -/
theorem shapemap_index_inj {sm : ShapeData2D} (hptr : (sm.map Prod.fst).Nodup)
    {i j : Nat} {e e' : InstPtr × Item} (hi : sm[i]? = some e) (hj : sm[j]? = some e')
    (h : e.1 = e'.1) : i = j := by
  obtain ⟨hil, hie⟩ := List.getElem?_eq_some.1 hi
  obtain ⟨hjl, hje⟩ := List.getElem?_eq_some.1 hj
  have hil' : i < (sm.map Prod.fst).length := by simpa using hil
  have hjl' : j < (sm.map Prod.fst).length := by simpa using hjl
  have hiff : (sm.map Prod.fst)[i] = (sm.map Prod.fst)[j] ↔ i = j :=
    List.Nodup.getElem_inj_iff hptr
  exact hiff.1 (by simp [hie, hje, h])

theorem groupWrites_map_fst (sm : ShapeData2D) (bo : ℤ) (g : PackGroup) :
    (groupWrites sm bo g).map Prod.fst =
      (g.map Prod.fst).filterMap (fun i => sm[i]?.map Prod.fst) := by
  induction g with
  | nil => rfl
  | cons r g ih =>
    rw [groupWrites_cons, List.map_append, ih]
    unfold groupWrites
    cases h : sm[r.1]? <;> simp [List.filterMap_cons, h]

theorem groupsWrites_map_fst (sm : ShapeData2D) (s : ℤ) (gs : IndexedPackGroup) :
    ∀ bo : ℤ, (groupsWrites sm s gs bo).map Prod.fst =
      (gs.flatten.map Prod.fst).filterMap (fun i => sm[i]?.map Prod.fst) := by
  induction gs with
  | nil => intro bo; rfl
  | cons g gs ih =>
    intro bo
    simp only [groupsWrites, List.map_append, List.flatten_cons, List.filterMap_append, ih,
      groupWrites_map_fst]

/-- Distinct indices address distinct instances. -/
theorem addressed_nodup {sm : ShapeData2D} (hptr : (sm.map Prod.fst).Nodup)
    {idxs : List Nat} (hidx : idxs.Nodup) :
    (idxs.filterMap (fun i => sm[i]?.map Prod.fst)).Nodup := by
  refine List.Nodup.filterMap ?_ hidx
  intro i j p hi hj
  simp only [Option.mem_def, Option.map_eq_some'] at hi hj
  obtain ⟨e, he, hep⟩ := hi
  obtain ⟨e', he', hep'⟩ := hj
  exact shapemap_index_inj hptr he he' (hep.trans hep'.symm)

theorem mem_groupWrites {sm : ShapeData2D} {bo : ℤ} {g : PackGroup} {r : Nat × Item}
    {e : InstPtr × Item} (hr : r ∈ g) (he : sm[r.1]? = some e) :
    (e.1, bo, r.2) ∈ groupWrites sm bo g := by
  unfold groupWrites
  exact List.mem_filterMap.2 ⟨r, hr, by simp [he]⟩

theorem mem_groupsWrites {sm : ShapeData2D} {s : ℤ} :
    ∀ (gs : IndexedPackGroup) (bo : ℤ) (k : Nat) (g : PackGroup) (r : Nat × Item)
      (e : InstPtr × Item), gs[k]? = some g → r ∈ g → sm[r.1]? = some e →
      (e.1, bo + (k : ℤ) * s, r.2) ∈ groupsWrites sm s gs bo := by
  intro gs
  induction gs with
  | nil => intro bo k g r e hk; simp at hk
  | cons g0 gs ih =>
    intro bo k g r e hk hr he
    cases k with
    | zero =>
      simp only [List.getElem?_cons_zero, Option.some.injEq] at hk
      subst hk
      simp only [groupsWrites, List.mem_append]
      left
      have hm := @mem_groupWrites sm bo g0 r e hr he
      simpa using hm
    | succ k =>
      simp only [List.getElem?_cons_succ] at hk
      simp only [groupsWrites, List.mem_append]
      right
      have := ih (bo + s) k g r e hk hr he
      have heq : bo + ((k + 1 : Nat) : ℤ) * s = bo + s + (k : ℤ) * s := by push_cast; ring
      rw [heq]
      exact this

/-- The instance of an index that does not occur is not addressed. -/
theorem not_addressed {sm : ShapeData2D} (hptr : (sm.map Prod.fst).Nodup)
    {idxs : List Nat} {j : Nat} {e : InstPtr × Item} (hj : j ∉ idxs) (he : sm[j]? = some e) :
    e.1 ∉ idxs.filterMap (fun i => sm[i]?.map Prod.fst) := by
  intro hmem
  obtain ⟨i, hi, hie⟩ := List.mem_filterMap.1 hmem
  simp only [Option.map_eq_some'] at hie
  obtain ⟨e', he', hep⟩ := hie
  exact hj (shapemap_index_inj hptr he' he hep ▸ hi)

/-- An instance outside the shape map is not addressed. -/
theorem not_addressed_of_not_mem {sm : ShapeData2D} {idxs : List Nat} {p : InstPtr}
    (hp : p ∉ sm.map Prod.fst) :
    p ∉ idxs.filterMap (fun i => sm[i]?.map Prod.fst) := by
  intro hmem
  obtain ⟨i, _, hie⟩ := List.mem_filterMap.1 hmem
  simp only [Option.map_eq_some'] at hie
  obtain ⟨e', he', hep⟩ := hie
  apply hp
  obtain ⟨hil, hie⟩ := List.getElem?_eq_some.1 he'
  exact List.mem_map.2 ⟨e', hie ▸ List.getElem_mem _, hep⟩

/-! ## Lemmas on the projection -/

theorem closedPath_length_gt (hull : List Point) :
    3 < (closedPath hull).length - 1 ↔ 4 ≤ hull.length := by
  unfold closedPath
  cases hull with
  | nil => simp
  | cons p ps => simp; omega

/-- Entries that `projectModelFromTop` emits for one object. -/
theorem projectInstance_foldl (env : Consts) (heap : Instances) (hull : List Point)
    (insts : List (Option InstPtr)) :
    ∀ ret : ShapeData2D,
      insts.foldl (projectInstance env heap (closedPath hull)) ret =
        ret ++ ((insts.filterMap id).filter (fun _ => decide (4 ≤ hull.length))).map
          (fun ptr => (ptr, itemOf env heap hull ptr)) := by
  induction insts with
  | nil => intro ret; simp
  | cons a insts ih =>
    intro ret
    rw [List.foldl_cons, ih]
    cases a with
    | none => simp [projectInstance]
    | some ptr =>
      by_cases h : 4 ≤ hull.length
      · have h' : 3 < (closedPath hull).length - 1 := (closedPath_length_gt hull).2 h
        simp [projectInstance, Item.vertexCount, h, h', itemOf]
      · have h' : ¬ 3 < (closedPath hull).length - 1 :=
          fun hc => h ((closedPath_length_gt hull).1 hc)
        simp [projectInstance, Item.vertexCount, h, h']

theorem projectObjects_foldl (env : Consts) (heap : Instances) (objs : List ModelObject) :
    ∀ ret : ShapeData2D,
      objs.foldl (projectObject env heap) ret =
        ret ++ objs.flatMap (fun o =>
          ((o.instances.filterMap id).filter (fun _ => decide (4 ≤ o.hull.length))).map
            (fun ptr => (ptr, itemOf env heap o.hull ptr))) := by
  induction objs with
  | nil => intro ret; simp
  | cons o objs ih =>
    intro ret
    rw [List.foldl_cons, ih, projectObject, projectInstance_foldl]
    simp [List.flatMap_cons]

theorem projectModelFromTop_eq (env : Consts) (model : Model) (heap : Instances) :
    projectModelFromTop env model heap =
      model.objects.flatMap (fun o =>
        ((o.instances.filterMap id).filter (fun _ => decide (4 ≤ o.hull.length))).map
          (fun ptr => (ptr, itemOf env heap o.hull ptr))) := by
  unfold projectModelFromTop
  rw [projectObjects_foldl]
  simp

/-- The instances of the shape map are instances of the model, in model order. -/
theorem shapemap_ptrs_sublist (env : Consts) (model : Model) (heap : Instances) :
    ((projectModelFromTop env model heap).map Prod.fst).Sublist model.instancePtrs := by
  rw [projectModelFromTop_eq]
  unfold Model.instancePtrs
  induction model.objects with
  | nil => simp
  | cons o objs ih =>
    simp only [List.flatMap_cons, List.map_append]
    refine List.Sublist.append ?_ ih
    rw [List.map_map]
    have : (Prod.fst ∘ fun ptr => (ptr, itemOf env heap o.hull ptr)) = id := by
      funext x; rfl
    rw [this, List.map_id]
    exact List.filter_sublist _

theorem shapemap_ptrs_nodup (env : Consts) (model : Model) (heap : Instances)
    (h : model.instancePtrs.Nodup) :
    ((projectModelFromTop env model heap).map Prod.fst).Nodup :=
  List.Nodup.sublist (shapemap_ptrs_sublist env model heap) h

/-! ## `arrange`: shared lemmas -/

theorem runPlacer_some_bounding_box {ε : Type} {env : Consts}
    {placer : Bin → ℤ → List Item → Except ε IndexedPackGroup}
    {model : Model} {d : ℤ} {bed : Polyline} {hint : BedShapeHint} {heap : Instances}
    {x : Except ε IndexedPackGroup}
    (hp : runPlacer env placer model d bed hint heap = some x) :
    ∃ bbb, bounding_box bed = some bbb := by
  unfold runPlacer at hp
  cases hb : bounding_box bed with
  | none =>
    rw [hb] at hp
    cases hh : effectiveHint env bed hint <;> rw [hh] at hp <;> simp at hp
  | some bbb => exact ⟨bbb, rfl⟩

theorem arrange_of_ok_nil {ε : Type} (env : Consts)
    (placer : Bin → ℤ → List Item → Except ε IndexedPackGroup)
    (model : Model) (d : ℤ) (bed : Polyline) (hint : BedShapeHint)
    (fbo stop : Bool) (heap : Instances)
    (hp : runPlacer env placer model d bed hint heap = some (Except.ok [])) :
    arrange env placer model d bed hint fbo stop heap = (Outcome.returned false, heap) := by
  obtain ⟨bbb, hb⟩ := runPlacer_some_bounding_box hp
  unfold arrange
  rw [hp, hb]

theorem arrange_of_ok_cons {ε : Type} (env : Consts)
    (placer : Bin → ℤ → List Item → Except ε IndexedPackGroup)
    (model : Model) (d : ℤ) (bed : Polyline) (hint : BedShapeHint)
    (fbo stop : Bool) (heap : Instances) (front : PackGroup) (rest : IndexedPackGroup)
    (bbb : BoundingBox)
    (hp : runPlacer env placer model d bed hint heap = some (Except.ok (front :: rest)))
    (hb : bounding_box bed = some bbb) :
    arrange env placer model d bed hint fbo stop heap =
      if stop then (Outcome.returned false, heap)
      else
        (Outcome.returned (decide ((front :: rest).length = 1)),
         if fbo then applyResult env front 0 (projectModelFromTop env model heap) heap
         else applyGroups env (stride env ⟨bbb.min, bbb.max⟩)
                (projectModelFromTop env model heap) (front :: rest) 0 heap) := by
  unfold arrange
  rw [hp, hb]
  simp

theorem arrange_of_error {ε : Type} (env : Consts)
    (placer : Bin → ℤ → List Item → Except ε IndexedPackGroup)
    (model : Model) (d : ℤ) (bed : Polyline) (hint : BedShapeHint)
    (fbo stop : Bool) (heap : Instances) (e : ε)
    (hp : runPlacer env placer model d bed hint heap = some (Except.error e)) :
    arrange env placer model d bed hint fbo stop heap = (Outcome.raised e, heap) := by
  unfold arrange
  rw [hp]

/-! ## Evaluation of the placer run on the concrete inputs -/

theorem demo_bounding_box :
    bounding_box demoBed = some ⟨⟨0, 0⟩, ⟨250500000, 200000000⟩⟩ := by
  simp [demoBed, bounding_box]

theorem demo_runPlacer (placer : Bin → ℤ → List Item → Except Unit IndexedPackGroup)
    (x : Except Unit IndexedPackGroup) (h : ∀ b d l, placer b d l = x) :
    runPlacer stdConsts placer demoModel 6000000 demoBed hintWhoKnows demoHeap = some x := by
  norm_num [runPlacer, effectiveHint, hintWhoKnows, bedShape, demoBed, bounding_box, poly_area,
    Polygon.area, areaAcc, BoundingBox.area, BoundingBox.width, BoundingBox.height, h]

/-! ## Claims on `arrange` -/

/-- C1: when the placer returns no group, or the stop condition holds when the
placer has returned (whatever the number of groups), `arrange` returns `false`
and the store of instances is the one before the call: no offset and no
rotation is changed. -/
theorem arrange_failure_leaves_instances {ε : Type} (env : Consts)
    (placer : Bin → ℤ → List Item → Except ε IndexedPackGroup)
    (model : Model) (min_obj_distance : ℤ) (bed : Polyline) (bedhint : BedShapeHint)
    (first_bin_only stopcondition : Bool) (heap : Instances) (result : IndexedPackGroup)
    (hp : runPlacer env placer model min_obj_distance bed bedhint heap = some (Except.ok result))
    (hfail : result = [] ∨ stopcondition = true) :
    arrange env placer model min_obj_distance bed bedhint first_bin_only stopcondition heap =
      (Outcome.returned false, heap) := by
  obtain ⟨bbb, hb⟩ := runPlacer_some_bounding_box hp
  cases result with
  | nil => exact arrange_of_ok_nil env placer model _ bed bedhint _ _ heap hp
  | cons front rest =>
    rcases hfail with h | h
    · cases h
    · rw [arrange_of_ok_cons env placer model _ bed bedhint _ _ heap front rest bbb hp hb, h]
      rfl

/-- Instance of C1: the placer returns two groups and the stop condition holds. -/
theorem arrange_failure_leaves_instances_witness :
    arrange stdConsts demoPlacer demoModel 6000000 demoBed hintWhoKnows false true demoHeap =
      (Outcome.returned false, demoHeap) :=
  arrange_failure_leaves_instances stdConsts demoPlacer demoModel 6000000 demoBed hintWhoKnows
    false true demoHeap demoGroups (demo_runPlacer demoPlacer _ (fun _ _ _ => rfl))
    (Or.inr rfl)

/-- C2: when the placer returns at least one group and the stop condition is
false, `arrange` returns, and the value returned is `true` exactly when the
placer returned one group; this is so for both values of `first_bin_only`. -/
theorem arrange_true_iff_one_group {ε : Type} (env : Consts)
    (placer : Bin → ℤ → List Item → Except ε IndexedPackGroup)
    (model : Model) (min_obj_distance : ℤ) (bed : Polyline) (bedhint : BedShapeHint)
    (first_bin_only : Bool) (heap : Instances) (result : IndexedPackGroup)
    (hp : runPlacer env placer model min_obj_distance bed bedhint heap = some (Except.ok result))
    (hne : result ≠ []) :
    ∃ ret : Bool,
      (arrange env placer model min_obj_distance bed bedhint first_bin_only false heap).1 =
        Outcome.returned ret ∧
      (ret = true ↔ result.length = 1) := by
  obtain ⟨bbb, hb⟩ := runPlacer_some_bounding_box hp
  cases result with
  | nil => exact absurd rfl hne
  | cons front rest =>
    rw [arrange_of_ok_cons env placer model _ bed bedhint _ _ heap front rest bbb hp hb]
    exact ⟨decide ((front :: rest).length = 1), by simp, by simp⟩

/-- Instance of C2: two groups with `first_bin_only = true`. -/
theorem arrange_true_iff_one_group_witness :
    ∃ ret : Bool,
      (arrange stdConsts demoPlacer demoModel 6000000 demoBed hintWhoKnows true false demoHeap).1 =
        Outcome.returned ret ∧
      (ret = true ↔ demoGroups.length = 1) :=
  arrange_true_iff_one_group stdConsts demoPlacer demoModel 6000000 demoBed hintWhoKnows
    true demoHeap demoGroups (demo_runPlacer demoPlacer _ (fun _ _ _ => rfl))
    (by simp [demoGroups])

/-- C8: when the placer raises an exception, `arrange` ends with that same
exception (it neither returns a value nor runs the placer again) and the store
of instances is the one before the call. -/
theorem arrange_propagates_exception {ε : Type} (env : Consts)
    (placer : Bin → ℤ → List Item → Except ε IndexedPackGroup)
    (model : Model) (min_obj_distance : ℤ) (bed : Polyline) (bedhint : BedShapeHint)
    (first_bin_only stopcondition : Bool) (heap : Instances) (e : ε)
    (hp : runPlacer env placer model min_obj_distance bed bedhint heap = some (Except.error e)) :
    arrange env placer model min_obj_distance bed bedhint first_bin_only stopcondition heap =
      (Outcome.raised e, heap) :=
  arrange_of_error env placer model min_obj_distance bed bedhint first_bin_only stopcondition
    heap e hp

/-- Instance of C8 with the placer that always raises. -/
theorem arrange_propagates_exception_witness :
    arrange stdConsts failingPlacer demoModel 6000000 demoBed hintWhoKnows false false demoHeap =
      (Outcome.raised (), demoHeap) :=
  arrange_propagates_exception stdConsts failingPlacer demoModel 6000000 demoBed hintWhoKnows
    false false demoHeap () (demo_runPlacer failingPlacer _ (fun _ _ _ => rfl))

/-! ## Claims on the write-back -/

/-- C6: `applyResult` on a group whose indices are pairwise distinct, with a
shape map that pairs distinct instances: for each pair (idx, item) of the
group the instance `shapemap[idx]` ends with offset
(item.translation.X × SCALING_FACTOR + batch_offset,
item.translation.Y × SCALING_FACTOR, previous Z offset) and with Z rotation
item.rotation, its X and Y rotations kept; no instance at all has its Z offset
or its X or Y rotation changed; the instance of an index that is not in the
group, and every instance outside the shape map, keeps its whole state. -/
theorem applyResult_writes_group (env : Consts) (group : PackGroup) (batch_offset : ℤ)
    (shapemap : ShapeData2D) (heap : Instances)
    (hidx : (group.map Prod.fst).Nodup) (hptr : (shapemap.map Prod.fst).Nodup) :
    (∀ r ∈ group, ∀ e, shapemap[r.1]? = some e →
        (applyResult env group batch_offset shapemap heap e.1).offset =
          ⟨(r.2.translation.x : ℚ) * env.SCALING_FACTOR + (batch_offset : ℚ),
           (r.2.translation.y : ℚ) * env.SCALING_FACTOR,
           (heap e.1).offset.z⟩ ∧
        (applyResult env group batch_offset shapemap heap e.1).rotation =
          ⟨(heap e.1).rotation.x, (heap e.1).rotation.y, r.2.rotation⟩) ∧
    (∀ p, (applyResult env group batch_offset shapemap heap p).offset.z = (heap p).offset.z ∧
        (applyResult env group batch_offset shapemap heap p).rotation.x = (heap p).rotation.x ∧
        (applyResult env group batch_offset shapemap heap p).rotation.y = (heap p).rotation.y) ∧
    (∀ j e, j ∉ group.map Prod.fst → shapemap[j]? = some e →
        applyResult env group batch_offset shapemap heap e.1 = heap e.1) ∧
    (∀ p, p ∉ shapemap.map Prod.fst →
        applyResult env group batch_offset shapemap heap p = heap p) := by
  rw [applyResult_eq_runWrites]
  have hnd : ((groupWrites shapemap batch_offset group).map Prod.fst).Nodup := by
    rw [groupWrites_map_fst]
    exact addressed_nodup hptr hidx
  refine ⟨?_, ?_, ?_, ?_⟩
  · intro r hr e he
    have hw := runWrites_written env _ heap hnd _ (@mem_groupWrites shapemap batch_offset group r e hr he)
    simp only at hw
    rw [hw]
    exact ⟨rfl, rfl⟩
  · intro p
    exact runWrites_frame env _ heap p
  · intro j e hj he
    apply runWrites_untouched
    rw [groupWrites_map_fst]
    exact not_addressed hptr hj he
  · intro p hp
    apply runWrites_untouched
    rw [groupWrites_map_fst]
    exact not_addressed_of_not_mem hp

/-- Instance of C6: the two placed squares written with batch offset 240. -/
theorem applyResult_writes_group_witness :
    (∀ r ∈ demoGroups.flatten, ∀ e, demoShapemap[r.1]? = some e →
        (applyResult stdConsts demoGroups.flatten 240 demoShapemap demoHeap e.1).offset =
          ⟨(r.2.translation.x : ℚ) * stdConsts.SCALING_FACTOR + ((240 : ℤ) : ℚ),
           (r.2.translation.y : ℚ) * stdConsts.SCALING_FACTOR,
           (demoHeap e.1).offset.z⟩ ∧
        (applyResult stdConsts demoGroups.flatten 240 demoShapemap demoHeap e.1).rotation =
          ⟨(demoHeap e.1).rotation.x, (demoHeap e.1).rotation.y, r.2.rotation⟩) ∧
    (∀ p, (applyResult stdConsts demoGroups.flatten 240 demoShapemap demoHeap p).offset.z =
          (demoHeap p).offset.z ∧
        (applyResult stdConsts demoGroups.flatten 240 demoShapemap demoHeap p).rotation.x =
          (demoHeap p).rotation.x ∧
        (applyResult stdConsts demoGroups.flatten 240 demoShapemap demoHeap p).rotation.y =
          (demoHeap p).rotation.y) ∧
    (∀ j e, j ∉ demoGroups.flatten.map Prod.fst → demoShapemap[j]? = some e →
        applyResult stdConsts demoGroups.flatten 240 demoShapemap demoHeap e.1 = demoHeap e.1) ∧
    (∀ p, p ∉ demoShapemap.map Prod.fst →
        applyResult stdConsts demoGroups.flatten 240 demoShapemap demoHeap p = demoHeap p) :=
  applyResult_writes_group stdConsts demoGroups.flatten 240 demoShapemap demoHeap
    (by simp [demoGroups]) (by simp [demoShapemap])

/-- C3: with `first_bin_only = false`, a non-empty result of the placer and no
cancellation, `arrange` returns (with `true` only for a single group) and has
applied every group: for the k-th group (k = 0, 1, 2, ...) and each of its
pairs (idx, item), the instance `shapemap[idx]` ends with X offset
item.translation.X × SCALING_FACTOR + k × stride, Y offset
item.translation.Y × SCALING_FACTOR (no batch offset), its previous Z offset,
and rotation Z = item.rotation.  The indices of the result are pairwise
distinct and the model owns each instance once. -/
theorem arrange_applies_every_group {ε : Type} (env : Consts)
    (placer : Bin → ℤ → List Item → Except ε IndexedPackGroup)
    (model : Model) (min_obj_distance : ℤ) (bed : Polyline) (bedhint : BedShapeHint)
    (heap : Instances) (result : IndexedPackGroup) (bbb : BoundingBox)
    (hp : runPlacer env placer model min_obj_distance bed bedhint heap = some (Except.ok result))
    (hb : bounding_box bed = some bbb)
    (hne : result ≠ [])
    (hidx : (result.flatten.map Prod.fst).Nodup)
    (hmodel : model.instancePtrs.Nodup) :
    (arrange env placer model min_obj_distance bed bedhint false false heap).1 =
        Outcome.returned (decide (result.length = 1)) ∧
    ∀ (k : Nat) (group : PackGroup), result[k]? = some group →
      ∀ r ∈ group, ∀ e, (projectModelFromTop env model heap)[r.1]? = some e →
        ((arrange env placer model min_obj_distance bed bedhint false false heap).2 e.1).offset =
          ⟨(r.2.translation.x : ℚ) * env.SCALING_FACTOR +
              (((k : ℤ) * stride env ⟨bbb.min, bbb.max⟩ : ℤ) : ℚ),
           (r.2.translation.y : ℚ) * env.SCALING_FACTOR,
           (heap e.1).offset.z⟩ ∧
        ((arrange env placer model min_obj_distance bed bedhint false false heap).2 e.1).rotation =
          ⟨(heap e.1).rotation.x, (heap e.1).rotation.y, r.2.rotation⟩ := by
  cases result with
  | nil => exact absurd rfl hne
  | cons front rest =>
    rw [arrange_of_ok_cons env placer model _ bed bedhint _ _ heap front rest bbb hp hb]
    refine ⟨by simp, ?_⟩
    intro k group hk r hr e he
    simp only [Bool.false_eq_true, if_false]
    rw [applyGroups_eq_runWrites]
    have hnd : ((groupsWrites (projectModelFromTop env model heap)
        (stride env ⟨bbb.min, bbb.max⟩) (front :: rest) 0).map Prod.fst).Nodup := by
      rw [groupsWrites_map_fst]
      exact addressed_nodup (shapemap_ptrs_nodup env model heap hmodel) hidx
    have hmem := @mem_groupsWrites (projectModelFromTop env model heap)
      (stride env ⟨bbb.min, bbb.max⟩) (front :: rest) 0 k group r e hk hr he
    have hw := runWrites_written env _ heap hnd _ hmem
    simp only [zero_add] at hw
    rw [hw]
    exact ⟨rfl, rfl⟩

/-- Instance of C3: two groups on the 250.5 mm bed. -/
theorem arrange_applies_every_group_witness :
    (arrange stdConsts demoPlacer demoModel 6000000 demoBed hintWhoKnows false false demoHeap).1 =
        Outcome.returned (decide (demoGroups.length = 1)) ∧
    ∀ (k : Nat) (group : PackGroup), demoGroups[k]? = some group →
      ∀ r ∈ group, ∀ e, (projectModelFromTop stdConsts demoModel demoHeap)[r.1]? = some e →
        ((arrange stdConsts demoPlacer demoModel 6000000 demoBed hintWhoKnows false false
            demoHeap).2 e.1).offset =
          ⟨(r.2.translation.x : ℚ) * stdConsts.SCALING_FACTOR +
              (((k : ℤ) * stride stdConsts ⟨⟨0, 0⟩, ⟨250500000, 200000000⟩⟩ : ℤ) : ℚ),
           (r.2.translation.y : ℚ) * stdConsts.SCALING_FACTOR,
           (demoHeap e.1).offset.z⟩ ∧
        ((arrange stdConsts demoPlacer demoModel 6000000 demoBed hintWhoKnows false false
            demoHeap).2 e.1).rotation =
          ⟨(demoHeap e.1).rotation.x, (demoHeap e.1).rotation.y, r.2.rotation⟩ :=
  arrange_applies_every_group stdConsts demoPlacer demoModel 6000000 demoBed hintWhoKnows
    demoHeap demoGroups ⟨⟨0, 0⟩, ⟨250500000, 200000000⟩⟩
    (demo_runPlacer demoPlacer _ (fun _ _ _ => rfl)) demo_bounding_box
    (by simp [demoGroups]) (by simp [demoGroups])
    (by simp [Model.instancePtrs, demoModel])

/-- C5: with `first_bin_only = true`, a non-empty result of the placer and no
cancellation, `arrange` writes the pairs of the first group with batch offset
0 and nothing else: the instance of every index that is not in the first
group (so of every index that occurs only in a later group) and every instance
outside the shape map keeps its state.  The indices of the first group are
pairwise distinct and the model owns each instance once. -/
theorem arrange_first_bin_only {ε : Type} (env : Consts)
    (placer : Bin → ℤ → List Item → Except ε IndexedPackGroup)
    (model : Model) (min_obj_distance : ℤ) (bed : Polyline) (bedhint : BedShapeHint)
    (heap : Instances) (front : PackGroup) (rest : IndexedPackGroup)
    (hp : runPlacer env placer model min_obj_distance bed bedhint heap =
      some (Except.ok (front :: rest)))
    (hidx : (front.map Prod.fst).Nodup)
    (hmodel : model.instancePtrs.Nodup) :
    (∀ r ∈ front, ∀ e, (projectModelFromTop env model heap)[r.1]? = some e →
        ((arrange env placer model min_obj_distance bed bedhint true false heap).2 e.1).offset =
          ⟨(r.2.translation.x : ℚ) * env.SCALING_FACTOR + 0,
           (r.2.translation.y : ℚ) * env.SCALING_FACTOR,
           (heap e.1).offset.z⟩ ∧
        ((arrange env placer model min_obj_distance bed bedhint true false heap).2 e.1).rotation =
          ⟨(heap e.1).rotation.x, (heap e.1).rotation.y, r.2.rotation⟩) ∧
    (∀ j e, j ∉ front.map Prod.fst → (projectModelFromTop env model heap)[j]? = some e →
        (arrange env placer model min_obj_distance bed bedhint true false heap).2 e.1 =
          heap e.1) ∧
    (∀ p, p ∉ (projectModelFromTop env model heap).map Prod.fst →
        (arrange env placer model min_obj_distance bed bedhint true false heap).2 p = heap p) := by
  obtain ⟨bbb, hb⟩ := runPlacer_some_bounding_box hp
  rw [arrange_of_ok_cons env placer model _ bed bedhint _ _ heap front rest bbb hp hb]
  simp only [Bool.false_eq_true, if_false, if_true]
  rw [applyResult_eq_runWrites]
  have hptr := shapemap_ptrs_nodup env model heap hmodel
  have hnd : ((groupWrites (projectModelFromTop env model heap) 0 front).map Prod.fst).Nodup := by
    rw [groupWrites_map_fst]
    exact addressed_nodup hptr hidx
  refine ⟨?_, ?_, ?_⟩
  · intro r hr e he
    have hw := runWrites_written env _ heap hnd _
      (@mem_groupWrites (projectModelFromTop env model heap) 0 front r e hr he)
    simp only at hw
    rw [hw]
    exact ⟨by simp [poseOf], rfl⟩
  · intro j e hj he
    apply runWrites_untouched
    rw [groupWrites_map_fst]
    exact not_addressed hptr hj he
  · intro p hp
    apply runWrites_untouched
    rw [groupWrites_map_fst]
    exact not_addressed_of_not_mem hp

/-- Instance of C5: two groups, only the first one is written. -/
theorem arrange_first_bin_only_witness :
    (arrange stdConsts demoPlacer demoModel 6000000 demoBed hintWhoKnows true false demoHeap).2 1 =
      demoHeap 1 :=
  (arrange_first_bin_only stdConsts demoPlacer demoModel 6000000 demoBed hintWhoKnows
    demoHeap [(0, demoItem 120000000 100000000)] [[(1, demoItem 125000000 90000000)]]
    (demo_runPlacer demoPlacer _ (fun _ _ _ => rfl))
    (by simp) (by simp [Model.instancePtrs, demoModel])).2.1 1
    (1, itemOf stdConsts demoHeap demoHull 1) (by simp)
    (by simp [projectModelFromTop_eq, demoModel, demoHull])

/-! ## The stride -/

/-- On a non-negative value the conversion to `Coord` is the floor. -/
theorem toCoord_of_nonneg {q : ℚ} (hq : 0 ≤ q) : toCoord q = ⌊q⌋ := by
  unfold toCoord
  rw [Int.tdiv_eq_ediv (Rat.num_nonneg.2 hq) (Int.ofNat_nonneg _)]
  exact (Rat.floor_def' q).symm

theorem bounding_box_fold_le (ps : List Point) :
    ∀ bb : BoundingBox, bb.min.x ≤ bb.max.x →
      (ps.foldl
        (fun bb q => ({ min := ⟨Min.min bb.min.x q.x, Min.min bb.min.y q.y⟩,
                        max := ⟨Max.max bb.max.x q.x, Max.max bb.max.y q.y⟩ } : BoundingBox))
        bb).min.x ≤
      (ps.foldl
        (fun bb q => ({ min := ⟨Min.min bb.min.x q.x, Min.min bb.min.y q.y⟩,
                        max := ⟨Max.max bb.max.x q.x, Max.max bb.max.y q.y⟩ } : BoundingBox))
        bb).max.x := by
  induction ps with
  | nil => intro bb h; exact h
  | cons p ps ih =>
    intro bb h
    rw [List.foldl_cons]
    apply ih
    exact le_trans (min_le_left _ _) (le_trans h (le_max_left _ _))

/-- The bounding box of an outline has a non-negative width. -/
theorem bounding_box_width_nonneg {bed : Polyline} {bbb : BoundingBox}
    (hb : bounding_box bed = some bbb) : bbb.min.x ≤ bbb.max.x := by
  cases bed with
  | nil => simp [bounding_box] at hb
  | cons p ps =>
    simp only [bounding_box, Option.some.injEq] at hb
    rw [← hb]
    exact bounding_box_fold_le ps _ (le_refl _)

/-- C4 (as stated) fails: on the 250.5 mm wide bed the product
1.2 × binWidth × SCALING_FACTOR is 300.6, and the stride of `arrange` is 300. -/
theorem stride_not_exact :
    bounding_box demoBed = some ⟨⟨0, 0⟩, ⟨250500000, 200000000⟩⟩ ∧
    stride stdConsts ⟨⟨0, 0⟩, ⟨250500000, 200000000⟩⟩ = 300 ∧
    (6 / 5 : ℚ) * ((Box.width ⟨⟨0, 0⟩, ⟨250500000, 200000000⟩⟩ : ℤ) : ℚ) *
        stdConsts.SCALING_FACTOR = 1503 / 5 ∧
    ((stride stdConsts ⟨⟨0, 0⟩, ⟨250500000, 200000000⟩⟩ : ℤ) : ℚ) ≠
      (6 / 5 : ℚ) * ((Box.width ⟨⟨0, 0⟩, ⟨250500000, 200000000⟩⟩ : ℤ) : ℚ) *
        stdConsts.SCALING_FACTOR := by
  have h1 : (6 / 5 : ℚ) * ((Box.width ⟨⟨0, 0⟩, ⟨250500000, 200000000⟩⟩ : ℤ) : ℚ) *
        stdConsts.SCALING_FACTOR = 1503 / 5 := by
    norm_num [Box.width, stdConsts]
  have h2 : stride stdConsts ⟨⟨0, 0⟩, ⟨250500000, 200000000⟩⟩ = 300 := by
    unfold stride
    rw [h1, toCoord_of_nonneg (by norm_num)]
    rw [Int.floor_eq_iff]
    constructor <;> norm_num
  refine ⟨demo_bounding_box, h2, h1, ?_⟩
  rw [h1, h2]
  norm_num

/-- C4 (amended): for every bed outline and a non-negative `SCALING_FACTOR`,
the stride of `arrange` is the product 1.2 × binWidth × SCALING_FACTOR
truncated to a whole number: the largest integer not above the product, in the
unscaled units of the offsets it is added to. -/
theorem stride_is_truncated_product (env : Consts) (bed : Polyline) (bbb : BoundingBox)
    (hb : bounding_box bed = some bbb) (hsf : 0 ≤ env.SCALING_FACTOR) :
    stride env ⟨bbb.min, bbb.max⟩ =
      ⌊(6 / 5 : ℚ) * ((bbb.max.x - bbb.min.x : ℤ) : ℚ) * env.SCALING_FACTOR⌋ := by
  unfold stride Box.width
  apply toCoord_of_nonneg
  have hw : (0 : ℚ) ≤ ((bbb.max.x - bbb.min.x : ℤ) : ℚ) := by
    exact_mod_cast sub_nonneg.2 (bounding_box_width_nonneg hb)
  positivity

/-- Instance of C4 (amended) on the 250.5 mm wide bed. -/
theorem stride_is_truncated_product_witness :
    stride stdConsts ⟨⟨0, 0⟩, ⟨250500000, 200000000⟩⟩ =
      ⌊(6 / 5 : ℚ) * (((250500000 : ℤ) - 0 : ℤ) : ℚ) * stdConsts.SCALING_FACTOR⌋ :=
  stride_is_truncated_product stdConsts demoBed ⟨⟨0, 0⟩, ⟨250500000, 200000000⟩⟩
    demo_bounding_box (by norm_num [stdConsts])

/-! ## The projection -/

theorem projectObjectChecked_eq (env : Consts) (heap : Instances) (ret : ShapeData2D)
    (o : ModelObject) (hhull : o.hull ≠ [])
    (hfirst : ∃ p rest, o.instances = some p :: rest) :
    projectObjectChecked env heap ret o = some (projectObject env heap ret o) := by
  obtain ⟨p, rest, hi⟩ := hfirst
  obtain ⟨q, qs, hq⟩ := List.exists_cons_of_ne_nil hhull
  simp [projectObjectChecked, projectObject, closedPath, hi, hq]

theorem projectObjectsChecked_eq (env : Consts) (heap : Instances) (objs : List ModelObject)
    (hdef : ∀ o ∈ objs, o.hull ≠ [] ∧ ∃ p rest, o.instances = some p :: rest) :
    ∀ ret : ShapeData2D,
      projectObjectsChecked env heap objs ret = some (objs.foldl (projectObject env heap) ret) := by
  induction objs with
  | nil => intro ret; rfl
  | cons o objs ih =>
    intro ret
    have ho := hdef o (List.mem_cons_self _ _)
    simp only [projectObjectsChecked, projectObjectChecked_eq env heap ret o ho.1 ho.2,
      List.foldl_cons]
    exact ih (fun o2 h2 => hdef o2 (List.mem_cons_of_mem _ h2)) _

/-- On a model in which every object has a hull with a point and a first
instance that is not null, `projectModelFromTop` has a result: it omits every
instance of an object whose hull has fewer than 4 vertices and emits every
other non-null instance exactly once, in input order (objects in model order,
instances in object order), each paired with the item built from the hull of
its object and from its own pose. -/
theorem projectModelFromTopChecked_retained (env : Consts) (model : Model) (heap : Instances)
    (hdef : ∀ o ∈ model.objects, o.hull ≠ [] ∧ ∃ p rest, o.instances = some p :: rest) :
    projectModelFromTopChecked env model heap =
      some (model.objects.flatMap (fun o =>
        if 4 ≤ o.hull.length then
          (o.instances.filterMap id).map (fun ptr => (ptr, itemOf env heap o.hull ptr))
        else [])) := by
  unfold projectModelFromTopChecked
  rw [projectObjectsChecked_eq env heap model.objects hdef, projectObjects_foldl]
  simp only [List.nil_append]
  congr 2
  funext o
  by_cases h : 4 ≤ o.hull.length <;> simp [h]

/-- A square with the instances 0, null, 1 and a triangle with the instance 2:
the two instances of the square are emitted in order, the null pointer and the
triangle are left out. -/
theorem projectModelFromTopChecked_demo :
    projectModelFromTopChecked stdConsts
        ⟨[⟨demoHull, [some 0, none, some 1]⟩, ⟨triHull, [some 2]⟩]⟩ demoHeap =
      some [(0, itemOf stdConsts demoHeap demoHull 0),
        (1, itemOf stdConsts demoHeap demoHull 1)] := by
  rw [projectModelFromTopChecked_retained]
  · simp [demoHull, triHull]
  · intro o ho
    simp only [List.mem_cons, List.mem_singleton, List.not_mem_nil, or_false] at ho
    rcases ho with rfl | rfl
    · exact ⟨by simp [demoHull], 0, [none, some 1], rfl⟩
    · exact ⟨by simp [triHull], 2, [], rfl⟩

theorem areaAcc_append (ps : List Point) (q : Point) :
    ∀ j : Point, areaAcc j (ps ++ [q]) =
      areaAcc j ps +
        (((ps.getLast?.getD j).x : ℚ) + q.x) * (((ps.getLast?.getD j).y : ℚ) - q.y) := by
  induction ps with
  | nil => intro j; simp [areaAcc]
  | cons p ps ih =>
    intro j
    have hp := ih p
    rw [List.cons_append]
    simp only [areaAcc]
    rw [hp, List.getLast?_cons, Option.getD_some]
    ring

/-- Closing an outline with its first point does not change its signed area. -/
theorem Polygon.area_closed (bed : Polyline) (front : Point) (hf : bed.head? = some front) :
    Polygon.area (bed ++ [front]) = Polygon.area bed := by
  cases bed with
  | nil => simp at hf
  | cons p ps =>
    simp only [List.head?_cons, Option.some.injEq] at hf
    subst hf
    unfold Polygon.area
    rw [List.getLast?_concat, List.getLast?_cons, List.cons_append]
    simp only [areaAcc]
    rw [areaAcc_append]
    ring

theorem bedShape_some (env : Consts) (bed : Polyline) (hne : bed ≠ []) :
    ∃ bb front, bounding_box bed = some bb ∧ bed.head? = some front ∧
      bedShape env bed =
        if 1 - |Polygon.area bed| / bb.area < 1 / 1000 then
          some { type := BedShapeType.BOX,
                 shape := { BedShapePayload.default with box := bb } }
        else if (isCircle env bb bed).valid then
          some { type := BedShapeType.CIRCLE,
                 shape := { BedShapePayload.default with circ := isCircle env bb bed } }
        else
          some { type := BedShapeType.IRREGULAR,
                 shape := { BedShapePayload.default with polygon := bed } } := by
  cases bed with
  | nil => exact absurd rfl hne
  | cons p ps =>
    refine ⟨_, p, rfl, rfl, ?_⟩
    have ha := Polygon.area_closed (p :: ps) p rfl
    unfold bedShape poly_area
    simp only [List.head?_cons, ha]
    rfl

theorem isCircle_valid_iff (env : Consts) (bb : BoundingBox) (bed : Polyline) (hne : bed ≠ []) :
    ((isCircle env bb bed).valid = true ↔
      ∀ pt ∈ bed,
        |distance_to env bb.center pt -
            (bed.map (distance_to env bb.center)).sum / (bed.length : ℚ)| ≤
          10 * env.SCALED_EPSILON) ∧
    ((isCircle env bb bed).valid = true →
      isCircle env bb bed =
        ⟨bb.center, some ((bed.map (distance_to env bb.center)).sum / (bed.length : ℚ))⟩) := by
  unfold isCircle
  simp only [hne, if_false, List.length_map]
  by_cases hany : ((bed.map (fun pt => distance_to env bb.center pt)).any
      (fun el => decide (|el - (bed.map (fun pt => distance_to env bb.center pt)).sum /
        (bed.length : ℚ)| > 10 * env.SCALED_EPSILON))) = true
  · rw [if_pos hany]
    simp only [Circle.valid, Circle.invalid, Option.isSome_none, Bool.false_eq_true, false_iff,
      false_implies, and_true]
    intro hall
    simp only [List.any_eq_true, List.mem_map, decide_eq_true_eq] at hany
    obtain ⟨el, ⟨pt, hpt, rfl⟩, hgt⟩ := hany
    exact absurd (hall pt hpt) (not_le.2 hgt)
  · rw [if_neg hany]
    simp only [Circle.valid, Option.isSome_some, true_iff, true_implies, and_true]
    intro pt hpt
    simp only [List.any_eq_true, List.mem_map, decide_eq_true_eq, not_exists, not_and] at hany
    exact not_lt.1 (hany _ ⟨pt, hpt, rfl⟩)

/-- C9 (as stated) fails: the clockwise unit square has signed area -1, so
1 - polyArea/bboxArea with the signed area is 2, not below 1e-3, and
`bedShape` still classifies it as BOX (it compares the absolute value).  The
counter-clockwise unit square, of signed area 1, is BOX as well. -/
theorem bedShape_box_on_negative_area :
    (bedShape stdConsts squareCW).map (fun r => r.type) = some BedShapeType.BOX ∧
    bounding_box squareCW = some ⟨⟨0, 0⟩, ⟨1, 1⟩⟩ ∧
    Polygon.area squareCW = -1 ∧
    ¬ (1 - Polygon.area squareCW / BoundingBox.area ⟨⟨0, 0⟩, ⟨1, 1⟩⟩ < 1 / 1000) ∧
    (bedShape stdConsts squareCCW).map (fun r => r.type) = some BedShapeType.BOX ∧
    Polygon.area squareCCW = 1 := by
  have ha : Polygon.area squareCW = -1 := by
    norm_num [Polygon.area, squareCW, areaAcc]
  refine ⟨?_, ?_, ha, ?_, ?_, ?_⟩
  · norm_num [bedShape, squareCW, bounding_box, poly_area, Polygon.area, areaAcc,
      BoundingBox.area, BoundingBox.width, BoundingBox.height]
  · simp [squareCW, bounding_box]
  · rw [ha]
    norm_num [BoundingBox.area, BoundingBox.width, BoundingBox.height]
  · norm_num [bedShape, squareCCW, bounding_box, poly_area, Polygon.area, areaAcc,
      BoundingBox.area, BoundingBox.width, BoundingBox.height]
  · norm_num [Polygon.area, squareCCW, areaAcc]

/-- C9 (amended): for every non-empty bed outline `bedShape` returns a hint,
and its type is BOX, with the bounding box of the outline as payload, exactly
when 1 - polyArea/bboxArea < 1e-3, where polyArea is the absolute value of the
signed area of the outline and bboxArea the area of its bounding box. -/
theorem bedShape_box_iff (env : Consts) (bed : Polyline) (hne : bed ≠ []) :
    ∃ r bb, bedShape env bed = some r ∧ bounding_box bed = some bb ∧
      (r.type = BedShapeType.BOX ↔ 1 - |Polygon.area bed| / bb.area < 1 / 1000) ∧
      (r.type = BedShapeType.BOX → r.shape.box = bb) := by
  obtain ⟨bb, front, hbb, _, hshape⟩ := bedShape_some env bed hne
  by_cases hbox : 1 - |Polygon.area bed| / bb.area < 1 / 1000
  · rw [if_pos hbox] at hshape
    exact ⟨_, bb, hshape, hbb, ⟨fun _ => hbox, fun _ => rfl⟩, fun _ => rfl⟩
  · rw [if_neg hbox] at hshape
    by_cases hc : (isCircle env bb bed).valid = true
    · rw [if_pos hc] at hshape
      refine ⟨_, bb, hshape, hbb, ⟨fun h => ?_, fun h => absurd h hbox⟩, fun h => ?_⟩ <;> cases h
    · rw [if_neg hc] at hshape
      refine ⟨_, bb, hshape, hbb, ⟨fun h => ?_, fun h => absurd h hbox⟩, fun h => ?_⟩ <;> cases h

/-- Instance of C9 (amended) on the clockwise unit square. -/
theorem bedShape_box_iff_witness :
    ∃ r bb, bedShape stdConsts squareCW = some r ∧ bounding_box squareCW = some bb ∧
      (r.type = BedShapeType.BOX ↔ 1 - |Polygon.area squareCW| / bb.area < 1 / 1000) ∧
      (r.type = BedShapeType.BOX → r.shape.box = bb) :=
  bedShape_box_iff stdConsts squareCW (by simp [squareCW])

/-- C10: for every non-empty bed outline that `bedShape` does not classify as
BOX, the type is CIRCLE exactly when the distance of every vertex to the
centre of the bounding box differs from the mean of these distances by at most
10 × SCALED_EPSILON, the payload being then (centre, mean distance); otherwise
the type is IRREGULAR and the payload is the outline itself. -/
theorem bedShape_circle_or_irregular (env : Consts) (bed : Polyline) (hne : bed ≠ []) :
    ∃ r bb, bedShape env bed = some r ∧ bounding_box bed = some bb ∧
      (r.type ≠ BedShapeType.BOX →
        (r.type = BedShapeType.CIRCLE ↔
          ∀ pt ∈ bed,
            |distance_to env bb.center pt -
                (bed.map (distance_to env bb.center)).sum / (bed.length : ℚ)| ≤
              10 * env.SCALED_EPSILON) ∧
        (r.type = BedShapeType.CIRCLE →
          r.shape.circ =
            ⟨bb.center, some ((bed.map (distance_to env bb.center)).sum / (bed.length : ℚ))⟩) ∧
        (r.type ≠ BedShapeType.CIRCLE →
          r.type = BedShapeType.IRREGULAR ∧ r.shape.polygon = bed)) := by
  obtain ⟨bb, front, hbb, _, hshape⟩ := bedShape_some env bed hne
  obtain ⟨hiff, hpay⟩ := isCircle_valid_iff env bb bed hne
  by_cases hbox : 1 - |Polygon.area bed| / bb.area < 1 / 1000
  · rw [if_pos hbox] at hshape
    exact ⟨_, bb, hshape, hbb, fun h => absurd rfl h⟩
  · rw [if_neg hbox] at hshape
    by_cases hc : (isCircle env bb bed).valid = true
    · rw [if_pos hc] at hshape
      refine ⟨_, bb, hshape, hbb, fun _ => ⟨?_, ?_, ?_⟩⟩
      · exact ⟨fun _ => hiff.1 hc, fun _ => rfl⟩
      · intro _
        exact hpay hc
      · intro h
        exact absurd rfl h
    · rw [if_neg hc] at hshape
      refine ⟨_, bb, hshape, hbb, fun _ => ⟨?_, ?_, ?_⟩⟩
      · constructor
        · intro h
          cases h
        · intro h
          exact absurd (hiff.2 h) hc
      · intro h
        cases h
      · intro _
        exact ⟨rfl, rfl⟩

/-- Instance of C10 on the octagon of radius 5000. -/
theorem bedShape_circle_or_irregular_witness :
    ∃ r bb, bedShape stdConsts octagon = some r ∧ bounding_box octagon = some bb ∧
      (r.type ≠ BedShapeType.BOX →
        (r.type = BedShapeType.CIRCLE ↔
          ∀ pt ∈ octagon,
            |distance_to stdConsts bb.center pt -
                (octagon.map (distance_to stdConsts bb.center)).sum / (octagon.length : ℚ)| ≤
              10 * stdConsts.SCALED_EPSILON) ∧
        (r.type = BedShapeType.CIRCLE →
          r.shape.circ =
            ⟨bb.center,
             some ((octagon.map (distance_to stdConsts bb.center)).sum / (octagon.length : ℚ))⟩) ∧
        (r.type ≠ BedShapeType.CIRCLE →
          r.type = BedShapeType.IRREGULAR ∧ r.shape.polygon = octagon)) :=
  bedShape_circle_or_irregular stdConsts octagon (by simp [octagon])

/-! ## Evaluation of the classifier on the octagon -/

theorem sqrtQ_octagon : sqrtQ 25000000 = 5000 := by
  have h : (25000000 : ℚ) = ((25000000 : ℕ) : ℚ) := by norm_num
  have h2 : Int.toNat ((25000000 : ℕ) : ℤ) = 25000000 := rfl
  unfold sqrtQ
  rw [h, Rat.num_natCast, Rat.den_natCast, h2]
  norm_num

/-- The octagon is classified as a circle of radius 5000 around the origin. -/
theorem bedShape_octagon :
    bedShape stdConsts octagon =
      some ⟨BedShapeType.CIRCLE, { BedShapePayload.default with circ := ⟨⟨0, 0⟩, some 5000⟩ }⟩ := by
  norm_num [bedShape, octagon, bounding_box, poly_area, Polygon.area, areaAcc,
    BoundingBox.area, BoundingBox.width, BoundingBox.height, isCircle, BoundingBox.center,
    distance_to, stdConsts, sqrtQ_octagon, Circle.valid, Circle.invalid, abs_of_nonneg,
    abs_of_neg]
  rfl

theorem demo_stride : stride stdConsts ⟨⟨0, 0⟩, ⟨250500000, 200000000⟩⟩ = 300 := by
  unfold stride
  have h1 : (6 / 5 : ℚ) * ((Box.width ⟨⟨0, 0⟩, ⟨250500000, 200000000⟩⟩ : ℤ) : ℚ) *
        stdConsts.SCALING_FACTOR = 1503 / 5 := by
    norm_num [Box.width, stdConsts]
  rw [h1, toCoord_of_nonneg (by norm_num), Int.floor_eq_iff]
  constructor <;> norm_num

theorem demo_shapemap :
    projectModelFromTop stdConsts demoModel demoHeap =
      [(0, itemOf stdConsts demoHeap demoHull 0), (1, itemOf stdConsts demoHeap demoHull 1)] := by
  simp [projectModelFromTop_eq, demoModel, demoHull]

/-- On the concrete inputs the second group lands 300 units beside the first:
instance 1 ends at X = 125 + 300, Y = 90, with its height 3 kept, and the call
returns `false` because two groups were produced. -/
theorem arrange_demo :
    (arrange stdConsts demoPlacer demoModel 6000000 demoBed hintWhoKnows false false demoHeap).1 =
      Outcome.returned false ∧
    ((arrange stdConsts demoPlacer demoModel 6000000 demoBed hintWhoKnows false false
        demoHeap).2 0) = ⟨⟨120, 100, 3⟩, ⟨0, 0, 1 / 2⟩⟩ ∧
    ((arrange stdConsts demoPlacer demoModel 6000000 demoBed hintWhoKnows false false
        demoHeap).2 1) = ⟨⟨425, 90, 3⟩, ⟨0, 0, 1 / 2⟩⟩ := by
  rw [arrange_of_ok_cons stdConsts demoPlacer demoModel 6000000 demoBed hintWhoKnows false false
    demoHeap _ _ _ (demo_runPlacer demoPlacer _ (fun _ _ _ => rfl)) demo_bounding_box]
  rw [demo_stride]
  simp only [Bool.false_eq_true, if_false, demo_shapemap]
  norm_num [applyGroups, applyResult, applyPair, demoItem, demoHeap,
    stdConsts, ModelInstance.set_offset, ModelInstance.set_rotation_Z, Function.update]

/-! ## The bounding box of an outline -/

theorem bounding_box_cons (p : Point) (ps : List Point) :
    bounding_box (p :: ps) = some (ps.foldl bbStep ⟨p, p⟩) := rfl

theorem boundsTight_fold (ps : List Point) :
    ∀ (bb : BoundingBox) (l : List Point), BoundsTight bb l →
      BoundsTight (ps.foldl bbStep bb) (l ++ ps) := by
  induction ps with
  | nil => intro bb l h; simpa using h
  | cons q ps ih =>
    intro bb l h
    have hstep : BoundsTight (bbStep bb q) (l ++ [q]) := by
      obtain ⟨hall, ⟨a, ha, hax⟩, ⟨b, hb, hbx⟩, ⟨c, hc, hcy⟩, ⟨d, hd, hdy⟩⟩ := h
      refine ⟨?_, ?_, ?_, ?_, ?_⟩
      · intro p hp
        rcases List.mem_append.1 hp with hp | hp
        · obtain ⟨h1, h2, h3, h4⟩ := hall p hp
          exact ⟨le_trans (min_le_left _ _) h1, le_trans h2 (le_max_left _ _),
            le_trans (min_le_left _ _) h3, le_trans h4 (le_max_left _ _)⟩
        · simp only [List.mem_singleton] at hp
          subst hp
          exact ⟨min_le_right _ _, le_max_right _ _, min_le_right _ _, le_max_right _ _⟩
      · rcases min_choice bb.min.x q.x with h | h
        · exact ⟨a, List.mem_append_left _ ha, by simp [bbStep, h, hax]⟩
        · exact ⟨q, by simp, by simp [bbStep, h]⟩
      · rcases max_choice bb.max.x q.x with h | h
        · exact ⟨b, List.mem_append_left _ hb, by simp [bbStep, h, hbx]⟩
        · exact ⟨q, by simp, by simp [bbStep, h]⟩
      · rcases min_choice bb.min.y q.y with h | h
        · exact ⟨c, List.mem_append_left _ hc, by simp [bbStep, h, hcy]⟩
        · exact ⟨q, by simp, by simp [bbStep, h]⟩
      · rcases max_choice bb.max.y q.y with h | h
        · exact ⟨d, List.mem_append_left _ hd, by simp [bbStep, h, hdy]⟩
        · exact ⟨q, by simp, by simp [bbStep, h]⟩
    have := ih (bbStep bb q) (l ++ [q]) hstep
    simpa using this

/-- The bounding box of an outline bounds its points tightly. -/
theorem bounding_box_tight {bed : Polyline} {bb : BoundingBox}
    (hb : bounding_box bed = some bb) : BoundsTight bb bed := by
  cases bed with
  | nil => simp [bounding_box] at hb
  | cons p ps =>
    rw [bounding_box_cons] at hb
    simp only [Option.some.injEq] at hb
    rw [← hb]
    have h0 : BoundsTight ⟨p, p⟩ [p] := by
      refine ⟨?_, ⟨p, by simp, rfl⟩, ⟨p, by simp, rfl⟩, ⟨p, by simp, rfl⟩, ⟨p, by simp, rfl⟩⟩
      intro q hq
      simp only [List.mem_singleton] at hq
      subst hq
      exact ⟨le_refl _, le_refl _, le_refl _, le_refl _⟩
    simpa using boundsTight_fold ps ⟨p, p⟩ [p] h0

/-- Two boxes that bound the same points tightly are equal. -/
theorem boundsTight_unique {bb bb' : BoundingBox} {l l' : List Point}
    (h : BoundsTight bb l) (h' : BoundsTight bb' l') (hmem : ∀ p, p ∈ l ↔ p ∈ l') :
    bb = bb' := by
  obtain ⟨hall, ⟨a, ha, hax⟩, ⟨b, hb, hbx⟩, ⟨c, hc, hcy⟩, ⟨d, hd, hdy⟩⟩ := h
  obtain ⟨hall', ⟨a', ha', hax'⟩, ⟨b', hb', hbx'⟩, ⟨c', hc', hcy'⟩, ⟨d', hd', hdy'⟩⟩ := h'
  have e1 : bb.min.x = bb'.min.x :=
    le_antisymm (hax' ▸ (hall a' ((hmem a').2 ha')).1) (hax ▸ (hall' a ((hmem a).1 ha)).1)
  have e2 : bb.max.x = bb'.max.x :=
    le_antisymm (hbx ▸ (hall' b ((hmem b).1 hb)).2.1) (hbx' ▸ (hall b' ((hmem b').2 hb')).2.1)
  have e3 : bb.min.y = bb'.min.y :=
    le_antisymm (hcy' ▸ (hall c' ((hmem c').2 hc')).2.2.1) (hcy ▸ (hall' c ((hmem c).1 hc)).2.2.1)
  have e4 : bb.max.y = bb'.max.y :=
    le_antisymm (hdy ▸ (hall' d ((hmem d).1 hd)).2.2.2) (hdy' ▸ (hall d' ((hmem d').2 hd')).2.2.2)
  cases bb with
  | mk mn mx =>
    cases bb' with
    | mk mn' mx' =>
      cases mn; cases mx; cases mn'; cases mx'
      simp only [BoundingBox.mk.injEq, Point.mk.injEq]
      exact ⟨⟨e1, e3⟩, ⟨e2, e4⟩⟩

theorem bounding_box_ne_nil {bed : Polyline} (hne : bed ≠ []) :
    ∃ bb, bounding_box bed = some bb := by
  cases bed with
  | nil => exact absurd rfl hne
  | cons p ps => exact ⟨_, rfl⟩

/-- Outlines with the same points have the same bounding box. -/
theorem bounding_box_congr {l l' : Polyline} (hne : l ≠ [])
    (hmem : ∀ p, p ∈ l ↔ p ∈ l') : bounding_box l' = bounding_box l := by
  obtain ⟨bb, hb⟩ := bounding_box_ne_nil hne
  have hne' : l' ≠ [] := by
    cases l with
    | nil => exact absurd rfl hne
    | cons p ps =>
      intro h
      have := (hmem p).1 (by simp)
      rw [h] at this
      cases this
  obtain ⟨bb', hb'⟩ := bounding_box_ne_nil hne'
  rw [hb, hb', boundsTight_unique (bounding_box_tight hb') (bounding_box_tight hb)
    (fun p => (hmem p).symm)]

/-! ## The signed area under rotation and reversal of the vertex list -/

theorem Polygon.area_cons (p : Point) (ps : List Point) :
    Polygon.area (p :: ps) = -(areaAcc (ps.getLast?.getD p) (p :: ps)) / 2 := by
  unfold Polygon.area
  rw [List.getLast?_cons]

/-- Moving the first vertex to the end does not change the signed area. -/
theorem Polygon.area_rotate_one (p : Point) (ps : List Point) :
    Polygon.area (ps ++ [p]) = Polygon.area (p :: ps) := by
  rw [Polygon.area_cons]
  unfold Polygon.area
  rw [List.getLast?_concat]
  simp only [areaAcc]
  rw [areaAcc_append]
  ring

theorem Polygon.area_rotate (k : Nat) : ∀ l : List Point,
    Polygon.area (l.rotate k) = Polygon.area l := by
  induction k with
  | zero => intro l; simp
  | succ k ih =>
    intro l
    cases l with
    | nil => simp
    | cons p ps => rw [List.rotate_cons_succ, ih, Polygon.area_rotate_one]

theorem edgeSum_append (a : Point) (l : List Point) (q : Point) :
    edgeSum (a :: l ++ [q]) =
      edgeSum (a :: l) +
        (((l.getLast?.getD a).x : ℚ) + q.x) * (((l.getLast?.getD a).y : ℚ) - q.y) := by
  simp only [edgeSum, List.cons_append]
  exact areaAcc_append l q a

theorem edgeSum_reverse : ∀ l : List Point, edgeSum l.reverse = -edgeSum l := by
  intro l
  induction l with
  | nil => simp [edgeSum]
  | cons a l ih =>
    cases l with
    | nil => simp [edgeSum, areaAcc]
    | cons b r =>
      rw [List.reverse_cons]
      obtain ⟨c, t, hct⟩ : ∃ c t, (b :: r).reverse = c :: t := by
        cases h : (b :: r).reverse with
        | nil => simp at h
        | cons c t => exact ⟨c, t, rfl⟩
      have hlast : (t.getLast?.getD c) = b := by
        have h1 : (c :: t).getLast? = some b := by
          rw [← hct, List.getLast?_reverse]
          rfl
        rw [List.getLast?_cons] at h1
        exact Option.some.inj h1
      rw [hct] at ih ⊢
      rw [edgeSum_append, ih, hlast]
      simp only [edgeSum, areaAcc]
      ring

/-- Reversing the vertex list negates the signed area. -/
theorem Polygon.area_reverse (l : List Point) :
    Polygon.area l.reverse = -Polygon.area l := by
  cases l with
  | nil => simp [Polygon.area]
  | cons h t =>
    have e1 : Polygon.area (h :: t).reverse =
        -(edgeSum (h :: (h :: t).reverse)) / 2 := by
      unfold Polygon.area
      rw [List.getLast?_reverse]
      rfl
    have e2 : h :: (h :: t).reverse = (h :: t ++ [h]).reverse := by simp
    rw [e1, e2, edgeSum_reverse, edgeSum_append, Polygon.area_cons]
    simp only [edgeSum, areaAcc]
    ring

theorem Polygon.abs_area_reverse (l : List Point) :
    |Polygon.area l.reverse| = |Polygon.area l| := by
  rw [Polygon.area_reverse, abs_neg]

/-! ## Degenerate outlines -/

theorem areaAcc_const_y (c : ℤ) : ∀ (l : List Point) (j : Point),
    j.y = c → (∀ p ∈ l, p.y = c) → areaAcc j l = 0 := by
  intro l
  induction l with
  | nil => intro j _ _; rfl
  | cons p ps ih =>
    intro j hj hl
    have hp : p.y = c := hl p (by simp)
    simp only [areaAcc]
    rw [ih p hp (fun q hq => hl q (List.mem_cons_of_mem _ hq)), hj, hp]
    simp

theorem areaAcc_const_x (c : ℤ) : ∀ (l : List Point) (j : Point),
    j.x = c → (∀ p ∈ l, p.x = c) →
      areaAcc j l = 2 * (c : ℚ) * ((j.y : ℚ) - (l.getLast?.getD j).y) := by
  intro l
  induction l with
  | nil => intro j _ _; simp [areaAcc]
  | cons p ps ih =>
    intro j hj hl
    have hp : p.x = c := hl p (by simp)
    simp only [areaAcc]
    rw [ih p hp (fun q hq => hl q (List.mem_cons_of_mem _ hq)), hj, hp, List.getLast?_cons,
      Option.getD_some]
    ring

/-- An outline whose points share their x or their y has signed area zero. -/
theorem Polygon.area_degenerate (l : List Point)
    (h : (∃ c, ∀ p ∈ l, p.x = c) ∨ (∃ c, ∀ p ∈ l, p.y = c)) : Polygon.area l = 0 := by
  cases l with
  | nil => simp [Polygon.area]
  | cons a t =>
    rw [Polygon.area_cons]
    have hmem : (t.getLast?.getD a) ∈ a :: t := by
      have : (a :: t).getLast? = some (t.getLast?.getD a) := List.getLast?_cons
      exact List.mem_of_getLast?_eq_some this
    rcases h with ⟨c, hc⟩ | ⟨c, hc⟩
    · rw [areaAcc_const_x c (a :: t) _ (hc _ hmem) hc, List.getLast?_cons, Option.getD_some]
      simp
    · rw [areaAcc_const_y c (a :: t) _ (hc _ hmem) hc]
      simp

/-- When the bounding box has zero area, so has the outline. -/
theorem Polygon.area_of_bb_area_zero {bed : Polyline} {bb : BoundingBox}
    (hb : bounding_box bed = some bb) (h0 : bb.area = 0) : Polygon.area bed = 0 := by
  obtain ⟨hall, _⟩ := bounding_box_tight hb
  apply Polygon.area_degenerate
  unfold BoundingBox.area BoundingBox.width BoundingBox.height at h0
  rcases mul_eq_zero.1 h0 with h | h
  · left
    have hx : bb.max.x = bb.min.x := by
      have : bb.max.x - bb.min.x = 0 := by exact_mod_cast h
      omega
    exact ⟨bb.min.x, fun p hp => by
      obtain ⟨h1, h2, _, _⟩ := hall p hp
      omega⟩
  · right
    have hy : bb.max.y = bb.min.y := by
      have : bb.max.y - bb.min.y = 0 := by exact_mod_cast h
      omega
    exact ⟨bb.min.y, fun p hp => by
      obtain ⟨_, _, h3, h4⟩ := hall p hp
      omega⟩

/-! ## Outlines that describe the same polygon -/

theorem sqrtQ_natCast (n : ℕ) : sqrtQ (n : ℚ) = (Nat.sqrt n : ℚ) := by
  unfold sqrtQ
  rw [Rat.num_natCast, Rat.den_natCast]
  simp

theorem SameCycle.ne_nil {l bed : Polyline} (h : SameCycle l bed) (hne : l ≠ []) : bed ≠ [] := by
  obtain ⟨k, h | h⟩ := h
  · rw [h]
    intro hc
    exact hne (List.rotate_eq_nil_iff.1 hc)
  · rw [h]
    intro hc
    exact hne (List.reverse_eq_nil_iff.1 (List.rotate_eq_nil_iff.1 hc))

theorem SameCycle.mem_iff {l bed : Polyline} (h : SameCycle l bed) (p : Point) :
    p ∈ l ↔ p ∈ bed := by
  obtain ⟨k, h | h⟩ := h
  · rw [h, List.mem_rotate]
  · rw [h, List.mem_rotate, List.mem_reverse]

theorem SameCycle.bounding_box {l bed : Polyline} (h : SameCycle l bed) (hne : l ≠ []) :
    bounding_box bed = bounding_box l :=
  bounding_box_congr hne (fun p => h.mem_iff p)

theorem SameCycle.abs_area {l bed : Polyline} (h : SameCycle l bed) :
    |Polygon.area bed| = |Polygon.area l| := by
  obtain ⟨k, h | h⟩ := h
  · rw [h, Polygon.area_rotate]
  · rw [h, Polygon.area_rotate, Polygon.abs_area_reverse]

/-- Appending a point that the outline already has keeps the bounding box. -/
theorem bounding_box_append_mem {bed : Polyline} {q : Point} (hq : q ∈ bed) :
    bounding_box (bed ++ [q]) = bounding_box bed := by
  have hne : bed ≠ [] := List.ne_nil_of_mem hq
  apply bounding_box_congr hne
  intro p
  constructor
  · intro hp
    exact List.mem_append_left _ hp
  · intro hp
    rcases List.mem_append.1 hp with hp | hp
    · exact hp
    · simp only [List.mem_singleton] at hp
      exact hp ▸ hq

/-! ## Claims on degenerate and closed outlines -/

/-- C11 (as stated) fails: the empty outline has no first point and no
bounding box, so `bedShape` has no result for it; and for the outline of two
points on a horizontal line the bounding box has area zero, the divisor of the
box test. -/
theorem bedShape_degenerate_inputs :
    bedShape stdConsts [] = none ∧ poly_area [] = none ∧ bounding_box [] = none ∧
    bounding_box flatBed = some ⟨⟨0, 0⟩, ⟨5, 0⟩⟩ ∧
    BoundingBox.area ⟨⟨0, 0⟩, ⟨5, 0⟩⟩ = 0 := by
  refine ⟨rfl, rfl, rfl, ?_, ?_⟩
  · simp [flatBed, bounding_box]
  · simp [BoundingBox.area, BoundingBox.width, BoundingBox.height]

/-- C11 (amended): for every non-empty bed outline `bedShape` returns a hint
whose type is one of BOX, CIRCLE and IRREGULAR, never WHO_KNOWS; the number of
vertices, by which the mean distance is divided, is not zero, and the area of
the bounding box, by which the area of the outline is divided, is not zero
when the box has positive width and height.  When that area is zero, the area
of the outline is zero as well and the type is not BOX. -/
theorem bedShape_total_on_nonempty (env : Consts) (bed : Polyline) (hne : bed ≠ []) :
    ∃ r bb, bedShape env bed = some r ∧ bounding_box bed = some bb ∧
      (r.type = BedShapeType.BOX ∨ r.type = BedShapeType.CIRCLE ∨
        r.type = BedShapeType.IRREGULAR) ∧
      r.type ≠ BedShapeType.WHO_KNOWS ∧
      (bed.length : ℚ) ≠ 0 ∧
      (0 < bb.width → 0 < bb.height → bb.area ≠ 0) ∧
      (bb.area = 0 → Polygon.area bed = 0 ∧ r.type ≠ BedShapeType.BOX) := by
  obtain ⟨bb, front, hbb, _, hshape⟩ := bedShape_some env bed hne
  have hlen : (bed.length : ℚ) ≠ 0 := by
    have : bed.length ≠ 0 := fun h => hne (List.length_eq_zero.1 h)
    exact_mod_cast this
  have hpos : 0 < bb.width → 0 < bb.height → bb.area ≠ 0 := by
    intro hw hh
    unfold BoundingBox.area
    have h1 : (0 : ℚ) < (bb.width : ℚ) := by exact_mod_cast hw
    have h2 : (0 : ℚ) < (bb.height : ℚ) := by exact_mod_cast hh
    exact ne_of_gt (mul_pos h1 h2)
  by_cases hbox : 1 - |Polygon.area bed| / bb.area < 1 / 1000
  · rw [if_pos hbox] at hshape
    refine ⟨_, bb, hshape, hbb, Or.inl rfl, by simp, hlen, hpos, ?_⟩
    intro h0
    exfalso
    rw [h0] at hbox
    norm_num at hbox
  · rw [if_neg hbox] at hshape
    by_cases hc : (isCircle env bb bed).valid = true
    · rw [if_pos hc] at hshape
      exact ⟨_, bb, hshape, hbb, Or.inr (Or.inl rfl), by simp, hlen, hpos,
        fun h0 => ⟨Polygon.area_of_bb_area_zero hbb h0, by simp⟩⟩
    · rw [if_neg hc] at hshape
      exact ⟨_, bb, hshape, hbb, Or.inr (Or.inr rfl), by simp, hlen, hpos,
        fun h0 => ⟨Polygon.area_of_bb_area_zero hbb h0, by simp⟩⟩

/-- Instance of C11 (amended) on the outline of two points. -/
theorem bedShape_total_on_nonempty_witness :
    ∃ r bb, bedShape stdConsts flatBed = some r ∧ bounding_box flatBed = some bb ∧
      (r.type = BedShapeType.BOX ∨ r.type = BedShapeType.CIRCLE ∨
        r.type = BedShapeType.IRREGULAR) ∧
      r.type ≠ BedShapeType.WHO_KNOWS ∧
      (flatBed.length : ℚ) ≠ 0 ∧
      (0 < bb.width → 0 < bb.height → bb.area ≠ 0) ∧
      (bb.area = 0 → Polygon.area flatBed = 0 ∧ r.type ≠ BedShapeType.BOX) :=
  bedShape_total_on_nonempty stdConsts flatBed (by simp [flatBed])

theorem sqrtQ_10562500 : sqrtQ 10562500 = 3250 := by
  have h := sqrtQ_natCast 10562500
  norm_num at h
  exact h

theorem sqrtQ_25000000 : sqrtQ 25000000 = 5000 := by
  have h := sqrtQ_natCast 25000000
  norm_num at h
  exact h

/-- C15 (as stated) fails: the open triangle is IRREGULAR (the distances 3250,
5000, 5000 have mean 4416.67 and the first deviates by 1166.67 > 1000), while
the same triangle with its first point repeated is CIRCLE (the distances 3250,
5000, 5000, 3250 have mean 4125 and all deviate by 875). -/
theorem bedShape_closed_triangle_differs :
    openTriangle.head? = some ⟨3000, 1250⟩ ∧
    closedTriangle = openTriangle ++ [⟨3000, 1250⟩] ∧
    (bedShape stdConsts openTriangle).map (fun r => r.type) = some BedShapeType.IRREGULAR ∧
    (bedShape stdConsts closedTriangle).map (fun r => r.type) = some BedShapeType.CIRCLE := by
  refine ⟨rfl, rfl, ?_, ?_⟩
  · norm_num [bedShape, openTriangle, bounding_box, poly_area, Polygon.area, areaAcc,
      BoundingBox.area, BoundingBox.width, BoundingBox.height, isCircle, BoundingBox.center,
      distance_to, stdConsts, sqrtQ_10562500, sqrtQ_25000000, Circle.valid, Circle.invalid,
      abs_of_nonneg, abs_of_neg]
  · norm_num [bedShape, closedTriangle, openTriangle, bounding_box, poly_area, Polygon.area,
      areaAcc, BoundingBox.area, BoundingBox.width, BoundingBox.height, isCircle,
      BoundingBox.center, distance_to, stdConsts, sqrtQ_10562500, sqrtQ_25000000, Circle.valid,
      Circle.invalid, abs_of_nonneg, abs_of_neg]
    exact ⟨_, rfl, rfl⟩

/-- C15 (amended): for every non-empty outline P, `bedShape` classifies P and P
with its first point repeated as an extra last point on the same bounding box,
and P is BOX exactly when the closed form is BOX, with the same payload box.
(When neither is BOX the types can differ between CIRCLE and IRREGULAR: the
repeated point enters the mean distance twice.) -/
theorem bedShape_closed_same_box (env : Consts) (bed : Polyline) (front : Point)
    (hf : bed.head? = some front) :
    ∃ r r2 bb, bedShape env bed = some r ∧ bedShape env (bed ++ [front]) = some r2 ∧
      bounding_box bed = some bb ∧ bounding_box (bed ++ [front]) = some bb ∧
      (r.type = BedShapeType.BOX ↔ r2.type = BedShapeType.BOX) ∧
      (r.type = BedShapeType.BOX → r2.shape.box = r.shape.box) := by
  have hne : bed ≠ [] := by
    intro h
    rw [h] at hf
    simp at hf
  have hmem : front ∈ bed := List.mem_of_mem_head? hf
  have hne2 : bed ++ [front] ≠ [] := by simp
  obtain ⟨r, bb, hr, hbb, hbox, hpay⟩ :
      ∃ r bb, bedShape env bed = some r ∧ bounding_box bed = some bb ∧
        (r.type = BedShapeType.BOX ↔ 1 - |Polygon.area bed| / bb.area < 1 / 1000) ∧
        (r.type = BedShapeType.BOX → r.shape.box = bb) := by
    obtain ⟨bb, _, hbb, _, hshape⟩ := bedShape_some env bed hne
    by_cases hb : 1 - |Polygon.area bed| / bb.area < 1 / 1000
    · rw [if_pos hb] at hshape
      exact ⟨_, bb, hshape, hbb, ⟨fun _ => hb, fun _ => rfl⟩, fun _ => rfl⟩
    · rw [if_neg hb] at hshape
      by_cases hc : (isCircle env bb bed).valid = true
      · rw [if_pos hc] at hshape
        refine ⟨_, bb, hshape, hbb, ⟨fun h => ?_, fun h => absurd h hb⟩, fun h => ?_⟩ <;> cases h
      · rw [if_neg hc] at hshape
        refine ⟨_, bb, hshape, hbb, ⟨fun h => ?_, fun h => absurd h hb⟩, fun h => ?_⟩ <;> cases h
  obtain ⟨r2, bb2, hr2, hbb2, hbox2, hpay2⟩ :
      ∃ r bb, bedShape env (bed ++ [front]) = some r ∧
        bounding_box (bed ++ [front]) = some bb ∧
        (r.type = BedShapeType.BOX ↔
          1 - |Polygon.area (bed ++ [front])| / bb.area < 1 / 1000) ∧
        (r.type = BedShapeType.BOX → r.shape.box = bb) := by
    obtain ⟨bb, _, hbb, _, hshape⟩ := bedShape_some env (bed ++ [front]) hne2
    by_cases hb : 1 - |Polygon.area (bed ++ [front])| / bb.area < 1 / 1000
    · rw [if_pos hb] at hshape
      exact ⟨_, bb, hshape, hbb, ⟨fun _ => hb, fun _ => rfl⟩, fun _ => rfl⟩
    · rw [if_neg hb] at hshape
      by_cases hc : (isCircle env bb (bed ++ [front])).valid = true
      · rw [if_pos hc] at hshape
        refine ⟨_, bb, hshape, hbb, ⟨fun h => ?_, fun h => absurd h hb⟩, fun h => ?_⟩ <;> cases h
      · rw [if_neg hc] at hshape
        refine ⟨_, bb, hshape, hbb, ⟨fun h => ?_, fun h => absurd h hb⟩, fun h => ?_⟩ <;> cases h
  have hsame : bb2 = bb := by
    have h := bounding_box_append_mem hmem
    rw [hbb2, hbb] at h
    exact Option.some.inj h
  subst hsame
  rw [Polygon.area_closed bed front hf] at hbox2
  refine ⟨r, r2, bb2, hr, hr2, hbb, hbb2, hbox.trans hbox2.symm, ?_⟩
  intro h
  rw [hpay h, hpay2 ((hbox.trans hbox2.symm).1 h)]

/-- Instance of C15 (amended) on the triangle. -/
theorem bedShape_closed_same_box_witness :
    ∃ r r2 bb, bedShape stdConsts openTriangle = some r ∧
      bedShape stdConsts (openTriangle ++ [⟨3000, 1250⟩]) = some r2 ∧
      bounding_box openTriangle = some bb ∧
      bounding_box (openTriangle ++ [⟨3000, 1250⟩]) = some bb ∧
      (r.type = BedShapeType.BOX ↔ r2.type = BedShapeType.BOX) ∧
      (r.type = BedShapeType.BOX → r2.shape.box = r.shape.box) :=
  bedShape_closed_same_box stdConsts openTriangle ⟨3000, 1250⟩ rfl

/-! ## Rectangles -/

theorem rectCorners_bounding_box (x0 y0 x1 y1 : ℤ) (hx : x0 < x1) (hy : y0 < y1) :
    bounding_box (rectCorners x0 y0 x1 y1) = some ⟨⟨x0, y0⟩, ⟨x1, y1⟩⟩ := by
  simp only [rectCorners, bounding_box, List.foldl, Option.some.injEq, BoundingBox.mk.injEq,
    Point.mk.injEq]
  refine ⟨⟨?_, ?_⟩, ⟨?_, ?_⟩⟩ <;> omega

theorem rectCorners_area (x0 y0 x1 y1 : ℤ) :
    Polygon.area (rectCorners x0 y0 x1 y1) = ((x1 - x0 : ℤ) : ℚ) * ((y1 - y0 : ℤ) : ℚ) := by
  simp only [rectCorners, Polygon.area, List.getLast?, List.getLast, areaAcc]
  push_cast
  ring

/-- C12: every axis-aligned rectangle of positive width and height, given by
its four corners from any starting corner in either winding direction, is
classified as BOX and the payload box is the rectangle itself. -/
theorem bedShape_rectangle (env : Consts) (x0 y0 x1 y1 : ℤ) (bed : Polyline)
    (hx : x0 < x1) (hy : y0 < y1) (hbed : SameCycle (rectCorners x0 y0 x1 y1) bed) :
    bedShape env bed =
      some ⟨BedShapeType.BOX, { BedShapePayload.default with box := ⟨⟨x0, y0⟩, ⟨x1, y1⟩⟩ }⟩ := by
  have hne0 : rectCorners x0 y0 x1 y1 ≠ [] := by simp [rectCorners]
  have hne : bed ≠ [] := hbed.ne_nil hne0
  obtain ⟨bb, _, hbb, _, hshape⟩ := bedShape_some env bed hne
  have hbb2 : bb = ⟨⟨x0, y0⟩, ⟨x1, y1⟩⟩ := by
    have h := hbed.bounding_box hne0
    rw [hbb, rectCorners_bounding_box x0 y0 x1 y1 hx hy] at h
    exact Option.some.inj h
  have hw : (0 : ℚ) < ((x1 - x0 : ℤ) : ℚ) := by exact_mod_cast sub_pos.2 hx
  have hh : (0 : ℚ) < ((y1 - y0 : ℤ) : ℚ) := by exact_mod_cast sub_pos.2 hy
  have harea : |Polygon.area bed| = ((x1 - x0 : ℤ) : ℚ) * ((y1 - y0 : ℤ) : ℚ) := by
    rw [hbed.abs_area, rectCorners_area, abs_of_pos (mul_pos hw hh)]
  have hbox : 1 - |Polygon.area bed| / bb.area < 1 / 1000 := by
    rw [harea, hbb2]
    simp only [BoundingBox.area, BoundingBox.width, BoundingBox.height]
    rw [div_self (ne_of_gt (mul_pos hw hh))]
    norm_num
  rw [hshape, if_pos hbox, hbb2]

/-- Instance of C12: the unit square, clockwise from the origin. -/
theorem bedShape_rectangle_witness :
    bedShape stdConsts squareCW =
      some ⟨BedShapeType.BOX, { BedShapePayload.default with box := ⟨⟨0, 0⟩, ⟨1, 1⟩⟩ }⟩ :=
  bedShape_rectangle stdConsts 0 0 1 1 squareCW (by norm_num) (by norm_num)
    ⟨3, Or.inr (by simp [squareCW, rectCorners, List.rotate])⟩

/-! ## Near-circular outlines -/

/-- The mean of a non-empty list lies between bounds of its elements. -/
theorem mean_mem_Icc (l : List ℚ) (a b : ℚ) (hne : l ≠ [])
    (h : ∀ x ∈ l, a ≤ x ∧ x ≤ b) :
    a ≤ l.sum / (l.length : ℚ) ∧ l.sum / (l.length : ℚ) ≤ b := by
  have hlen : (0 : ℚ) < (l.length : ℚ) := by
    have : 0 < l.length := List.length_pos.2 hne
    exact_mod_cast this
  have h1 := List.card_nsmul_le_sum l a (fun x hx => (h x hx).1)
  have h2 := List.sum_le_card_nsmul l b (fun x hx => (h x hx).2)
  rw [nsmul_eq_mul] at h1 h2
  constructor
  · rw [le_div_iff₀ hlen]
    linarith
  · rw [div_le_iff₀ hlen]
    linarith

/-- C13: for every outline that `bedShape` does not classify as BOX and whose
vertices all lie at a distance between R - d and R + d from the centre of its
bounding box, with 2·d ≤ 10 × SCALED_EPSILON, the type is CIRCLE, the centre
of the circle is the centre of the bounding box and its radius r satisfies
|r - R| ≤ d. -/
theorem bedShape_near_circle (env : Consts) (bed : Polyline) (r : BedShapeHint)
    (bb : BoundingBox) (R d : ℚ)
    (hr : bedShape env bed = some r) (hbb : bounding_box bed = some bb)
    (hnb : r.type ≠ BedShapeType.BOX)
    (hd : ∀ pt ∈ bed, R - d ≤ distance_to env bb.center pt ∧
      distance_to env bb.center pt ≤ R + d)
    (h2d : 2 * d ≤ 10 * env.SCALED_EPSILON) :
    r.type = BedShapeType.CIRCLE ∧
      ∃ rad, r.shape.circ = ⟨bb.center, some rad⟩ ∧ |rad - R| ≤ d := by
  have hne : bed ≠ [] := by
    intro h
    rw [h] at hbb
    simp [bounding_box] at hbb
  obtain ⟨bb2, _, hbb2, _, hshape⟩ := bedShape_some env bed hne
  have hsame : bb2 = bb := by
    rw [hbb] at hbb2
    exact (Option.some.inj hbb2).symm
  subst hsame
  obtain ⟨hiff, hpay⟩ := isCircle_valid_iff env bb2 bed hne
  have hmean := mean_mem_Icc (bed.map (distance_to env bb2.center)) (R - d) (R + d)
    (by simpa using hne)
    (by
      intro x hx
      obtain ⟨pt, hpt, rfl⟩ := List.mem_map.1 hx
      exact hd pt hpt)
  rw [List.length_map] at hmean
  have hvalid : (isCircle env bb2 bed).valid = true := by
    apply hiff.2
    intro pt hpt
    obtain ⟨h1, h2⟩ := hd pt hpt
    rw [abs_le]
    constructor <;> linarith [hmean.1, hmean.2]
  by_cases hbox : 1 - |Polygon.area bed| / bb2.area < 1 / 1000
  · rw [if_pos hbox, hr] at hshape
    have := Option.some.inj hshape
    rw [this] at hnb
    exact absurd rfl hnb
  · rw [if_neg hbox, if_pos hvalid, hr] at hshape
    have hreq := Option.some.inj hshape
    rw [hreq]
    refine ⟨rfl, _, hpay hvalid, ?_⟩
    rw [abs_le]
    constructor <;> linarith [hmean.1, hmean.2]

/-! ## Evaluation of the classifier on the 32-gon -/

theorem sqrtQ_gon_a : sqrtQ 9999999928158050 = 99999999 := by
  have h := sqrtQ_natCast 9999999928158050
  norm_num at h
  exact h

theorem sqrtQ_gon_b : sqrtQ 9999999935495858 = 99999999 := by
  have h := sqrtQ_natCast 9999999935495858
  norm_num at h
  exact h

theorem sqrtQ_gon_c : sqrtQ 9999999966439368 = 99999999 := by
  have h := sqrtQ_natCast 9999999966439368
  norm_num at h
  exact h

theorem sqrtQ_gon_d : sqrtQ 9999999984223808 = 99999999 := by
  have h := sqrtQ_natCast 9999999984223808
  norm_num at h
  exact h

theorem sqrtQ_gon_e : sqrtQ 10000000000000000 = 100000000 := by
  have h := sqrtQ_natCast 10000000000000000
  norm_num at h
  exact h

theorem gon32_bounding_box :
    bounding_box gon32 = some ⟨⟨-100000000, -100000000⟩, ⟨100000000, 100000000⟩⟩ := by
  simp [gon32, bounding_box]

set_option maxHeartbeats 1000000 in
theorem bedShape_gon32 :
    bedShape stdConsts gon32 =
      some ⟨BedShapeType.CIRCLE,
        { BedShapePayload.default with circ := ⟨⟨0, 0⟩, some (799999993 / 8)⟩ }⟩ := by
  norm_num [bedShape, gon32, bounding_box, poly_area, Polygon.area, areaAcc,
    BoundingBox.area, BoundingBox.width, BoundingBox.height, isCircle, BoundingBox.center,
    distance_to, stdConsts, sqrtQ_gon_a, sqrtQ_gon_b, sqrtQ_gon_c, sqrtQ_gon_d, sqrtQ_gon_e,
    Circle.valid, Circle.invalid, abs_of_nonneg, abs_of_neg]
  rfl

theorem gon32_distances :
    ∀ pt ∈ gon32, (100000000 : ℚ) - 1 ≤
        distance_to stdConsts (BoundingBox.center ⟨⟨-100000000, -100000000⟩,
          ⟨100000000, 100000000⟩⟩) pt ∧
      distance_to stdConsts (BoundingBox.center ⟨⟨-100000000, -100000000⟩,
          ⟨100000000, 100000000⟩⟩) pt ≤ 100000000 + 1 := by
  norm_num [gon32, BoundingBox.center, distance_to, stdConsts, sqrtQ_gon_a, sqrtQ_gon_b,
    sqrtQ_gon_c, sqrtQ_gon_d, sqrtQ_gon_e]

/-- Instance of C13: the regular 32-gon of radius R = 100000000 with rounded
vertices, d = 1: it is a CIRCLE and its radius is within 1 of R. -/
theorem bedShape_near_circle_witness :
    ∃ r, bedShape stdConsts gon32 = some r ∧ r.type = BedShapeType.CIRCLE ∧
      ∃ rad, r.shape.circ =
          ⟨BoundingBox.center ⟨⟨-100000000, -100000000⟩, ⟨100000000, 100000000⟩⟩, some rad⟩ ∧
        |rad - 100000000| ≤ 1 :=
  ⟨_, bedShape_gon32,
    bedShape_near_circle stdConsts gon32 _ _ 100000000 1 bedShape_gon32 gon32_bounding_box
      (by simp) gon32_distances (by norm_num [stdConsts])⟩

/-! ## L-shaped outlines -/

theorem lCorners_area (ox oy cx cy ix iy : ℤ) :
    Polygon.area (lCorners ox oy cx cy ix iy) =
      ((cx - ox : ℤ) : ℚ) * ((cy - oy : ℤ) : ℚ) - ((cx - ix : ℤ) : ℚ) * ((cy - iy : ℤ) : ℚ) := by
  simp only [lCorners, Polygon.area, List.getLast?, List.getLast, areaAcc]
  push_cast
  ring

theorem lCorners_bounding_box (ox oy cx cy ix iy : ℤ)
    (hx : StrictlyBetween ox ix cx) (hy : StrictlyBetween oy iy cy) :
    bounding_box (lCorners ox oy cx cy ix iy) =
      some ⟨⟨min ox cx, min oy cy⟩, ⟨max ox cx, max oy cy⟩⟩ := by
  simp only [lCorners, bounding_box, List.foldl, Option.some.injEq, BoundingBox.mk.injEq,
    Point.mk.injEq]
  unfold StrictlyBetween at hx hy
  refine ⟨⟨?_, ?_⟩, ⟨?_, ?_⟩⟩ <;> omega

/-- Signs of the two products in the area of an L. -/
theorem l_products (U u V v : ℚ) (hU : (0 < u ∧ u < U) ∨ (U < u ∧ u < 0))
    (hV : (0 < v ∧ v < V) ∨ (V < v ∧ v < 0)) :
    |U * V - u * v| = |U * V| - |u * v| ∧ 0 < |U * V| ∧ |U * V| = |U| * |V| := by
  refine ⟨?_, ?_, abs_mul U V⟩
  · rcases hU with ⟨hu0, huU⟩ | ⟨hUu, hu0⟩ <;> rcases hV with ⟨hv0, hvV⟩ | ⟨hVv, hv0⟩
    · have h1 : 0 < u * v := mul_pos hu0 hv0
      have h2 : u * v < U * V := by nlinarith
      rw [abs_of_pos (by linarith : 0 < U * V - u * v), abs_of_pos (by linarith : 0 < U * V),
        abs_of_pos h1]
    · have h1 : u * v < 0 := by nlinarith
      have h2 : U * V < u * v := by nlinarith
      rw [abs_of_neg (by linarith : U * V - u * v < 0), abs_of_neg (by linarith : U * V < 0),
        abs_of_neg h1]
      ring
    · have h1 : u * v < 0 := by nlinarith
      have h2 : U * V < u * v := by nlinarith
      rw [abs_of_neg (by linarith : U * V - u * v < 0), abs_of_neg (by linarith : U * V < 0),
        abs_of_neg h1]
      ring
    · have h1 : 0 < u * v := by nlinarith
      have h2 : u * v < U * V := by nlinarith
      rw [abs_of_pos (by linarith : 0 < U * V - u * v), abs_of_pos (by linarith : 0 < U * V),
        abs_of_pos h1]
  · apply abs_pos.2
    rcases hU with ⟨hu0, huU⟩ | ⟨hUu, hu0⟩ <;> rcases hV with ⟨hv0, hvV⟩ | ⟨hVv, hv0⟩
    · exact mul_ne_zero (by linarith) (by linarith)
    · exact mul_ne_zero (by linarith) (by linarith)
    · exact mul_ne_zero (by linarith) (by linarith)
    · exact mul_ne_zero (by linarith) (by linarith)

/-- The box test on an L compares the notch with the bounding box. -/
theorem lCorners_box_test (ox oy cx cy ix iy : ℤ)
    (hx : StrictlyBetween ox ix cx) (hy : StrictlyBetween oy iy cy) :
    (1 - |Polygon.area (lCorners ox oy cx cy ix iy)| /
        BoundingBox.area ⟨⟨min ox cx, min oy cy⟩, ⟨max ox cx, max oy cy⟩⟩ < 1 / 1000) ↔
      1000 * |(cx - ix) * (cy - iy)| < |(cx - ox) * (cy - oy)| := by
  have hU : (0 < ((cx - ix : ℤ) : ℚ) ∧ ((cx - ix : ℤ) : ℚ) < ((cx - ox : ℤ) : ℚ)) ∨
      (((cx - ox : ℤ) : ℚ) < ((cx - ix : ℤ) : ℚ) ∧ ((cx - ix : ℤ) : ℚ) < 0) := by
    rcases hx with ⟨h1, h2⟩ | ⟨h1, h2⟩
    · left; constructor <;> exact_mod_cast (by omega)
    · right; constructor <;> exact_mod_cast (by omega)
  have hV : (0 < ((cy - iy : ℤ) : ℚ) ∧ ((cy - iy : ℤ) : ℚ) < ((cy - oy : ℤ) : ℚ)) ∨
      (((cy - oy : ℤ) : ℚ) < ((cy - iy : ℤ) : ℚ) ∧ ((cy - iy : ℤ) : ℚ) < 0) := by
    rcases hy with ⟨h1, h2⟩ | ⟨h1, h2⟩
    · left; constructor <;> exact_mod_cast (by omega)
    · right; constructor <;> exact_mod_cast (by omega)
  obtain ⟨hdiff, hpos, habs⟩ := l_products _ _ _ _ hU hV
  have hbb : BoundingBox.area ⟨⟨min ox cx, min oy cy⟩, ⟨max ox cx, max oy cy⟩⟩ =
      |((cx - ox : ℤ) : ℚ) * ((cy - oy : ℤ) : ℚ)| := by
    rw [habs]
    simp only [BoundingBox.area, BoundingBox.width, BoundingBox.height]
    have e1 : max ox cx - min ox cx = |cx - ox| := by
      rcases le_total ox cx with h | h
      · rw [max_eq_right h, min_eq_left h, abs_of_nonneg (by omega)]
      · rw [max_eq_left h, min_eq_right h, abs_of_nonpos (by omega)]
        omega
    have e2 : max oy cy - min oy cy = |cy - oy| := by
      rcases le_total oy cy with h | h
      · rw [max_eq_right h, min_eq_left h, abs_of_nonneg (by omega)]
      · rw [max_eq_left h, min_eq_right h, abs_of_nonpos (by omega)]
        omega
    rw [e1, e2]
    push_cast
    rfl
  rw [lCorners_area, hbb, hdiff]
  have hcast : (1000 * |(cx - ix) * (cy - iy)| < |(cx - ox) * (cy - oy)|) ↔
      (1000 * |((cx - ix : ℤ) : ℚ) * ((cy - iy : ℤ) : ℚ)| <
        |((cx - ox : ℤ) : ℚ) * ((cy - oy : ℤ) : ℚ)|) := by
    constructor
    · intro h
      exact_mod_cast h
    · intro h
      exact_mod_cast h
  rw [hcast, sub_div, div_self (ne_of_gt hpos)]
  constructor
  · intro h
    have h2 : |((cx - ix : ℤ) : ℚ) * ((cy - iy : ℤ) : ℚ)| /
        |((cx - ox : ℤ) : ℚ) * ((cy - oy : ℤ) : ℚ)| < 1 / 1000 := by linarith
    rw [div_lt_iff₀ hpos] at h2
    linarith
  · intro h
    have h2 : |((cx - ix : ℤ) : ℚ) * ((cy - iy : ℤ) : ℚ)| /
        |((cx - ox : ℤ) : ℚ) * ((cy - oy : ℤ) : ℚ)| < 1 / 1000 := by
      rw [div_lt_iff₀ hpos]
      linarith
    linarith

/-- C14 (as stated) fails: the square of side 100 with a notch of side 1 is
classified BOX (the notch is a 1/10000 of the bounding box), and the L in the
square of side 2 is classified CIRCLE (all vertex distances lie within
10 × SCALED_EPSILON = 1000 of their mean). -/
theorem bedShape_L_not_irregular :
    (bedShape stdConsts notchedSquare).map (fun r => r.type) = some BedShapeType.BOX ∧
    (bedShape stdConsts tinyL).map (fun r => r.type) = some BedShapeType.CIRCLE := by
  constructor
  · norm_num [bedShape, notchedSquare, lCorners, bounding_box, poly_area, Polygon.area, areaAcc,
      BoundingBox.area, BoundingBox.width, BoundingBox.height]
  · have h2 : sqrtQ 2 = 1 := by
      have h := sqrtQ_natCast 2
      norm_num at h
      exact h
    have h1 : sqrtQ 1 = 1 := by
      have h := sqrtQ_natCast 1
      norm_num at h
      exact h
    have h0 : sqrtQ 0 = 0 := by
      have h := sqrtQ_natCast 0
      norm_num at h
      exact h
    norm_num [bedShape, tinyL, lCorners, bounding_box, poly_area, Polygon.area, areaAcc,
      BoundingBox.area, BoundingBox.width, BoundingBox.height, isCircle, BoundingBox.center,
      distance_to, stdConsts, h0, h1, h2, Circle.valid, Circle.invalid, abs_of_nonneg,
      abs_of_neg]
    exact ⟨_, rfl, rfl⟩

/-- C14 (amended): for every L-shaped outline (the rectangle with opposite
corners (ox, oy) and (cx, cy) without the smaller rectangle with opposite
corners (ix, iy) and (cx, cy); any starting vertex, either direction)
`bedShape` returns BOX when the notch is smaller than 999 millionths of the
bounding box; when the notch is larger than 1001 millionths of the bounding
box it does not return BOX, and it returns IRREGULAR, with the outline as
payload, exactly when the distance of some vertex to the centre of the
bounding box differs from the mean distance by more than 10 × SCALED_EPSILON
(it returns CIRCLE otherwise).  Nothing is said of a notch within a millionth
of the threshold 1/1000 of line 641. -/
theorem bedShape_L_shape (env : Consts) (ox oy cx cy ix iy : ℤ) (bed : Polyline)
    (hx : StrictlyBetween ox ix cx) (hy : StrictlyBetween oy iy cy)
    (hbed : SameCycle (lCorners ox oy cx cy ix iy) bed) :
    ∃ r bb, bedShape env bed = some r ∧ bounding_box bed = some bb ∧
      (1000000 * |(cx - ix) * (cy - iy)| < 999 * |(cx - ox) * (cy - oy)| →
        r.type = BedShapeType.BOX) ∧
      (1001 * |(cx - ox) * (cy - oy)| < 1000000 * |(cx - ix) * (cy - iy)| →
        r.type ≠ BedShapeType.BOX ∧
        (r.type = BedShapeType.IRREGULAR ↔
          ∃ pt ∈ bed,
            10 * env.SCALED_EPSILON <
              |distance_to env bb.center pt -
                (bed.map (distance_to env bb.center)).sum / (bed.length : ℚ)|) ∧
        (r.type ≠ BedShapeType.IRREGULAR → r.type = BedShapeType.CIRCLE) ∧
        (r.type = BedShapeType.IRREGULAR → r.shape.polygon = bed)) := by
  have hne0 : lCorners ox oy cx cy ix iy ≠ [] := by simp [lCorners]
  have hne : bed ≠ [] := hbed.ne_nil hne0
  obtain ⟨bb, _, hbb, _, hshape⟩ := bedShape_some env bed hne
  have hbb2 : bb = ⟨⟨min ox cx, min oy cy⟩, ⟨max ox cx, max oy cy⟩⟩ := by
    have h := hbed.bounding_box hne0
    rw [hbb, lCorners_bounding_box ox oy cx cy ix iy hx hy] at h
    exact Option.some.inj h
  have htest : (1 - |Polygon.area bed| / bb.area < 1 / 1000) ↔
      1000 * |(cx - ix) * (cy - iy)| < |(cx - ox) * (cy - oy)| := by
    rw [hbed.abs_area, hbb2]
    exact lCorners_box_test ox oy cx cy ix iy hx hy
  have hn0 : 0 ≤ |(cx - ix) * (cy - iy)| := abs_nonneg _
  have hb0 : 0 ≤ |(cx - ox) * (cy - oy)| := abs_nonneg _
  obtain ⟨hiff, _⟩ := isCircle_valid_iff env bb bed hne
  by_cases hbox : 1 - |Polygon.area bed| / bb.area < 1 / 1000
  · rw [if_pos hbox] at hshape
    have hlt := htest.1 hbox
    refine ⟨_, bb, hshape, hbb, fun _ => rfl, fun h => ?_⟩
    exfalso
    omega
  · rw [if_neg hbox] at hshape
    have hge : |(cx - ox) * (cy - oy)| ≤ 1000 * |(cx - ix) * (cy - iy)| :=
      not_lt.1 (fun h => hbox (htest.2 h))
    by_cases hc : (isCircle env bb bed).valid = true
    · rw [if_pos hc] at hshape
      refine ⟨_, bb, hshape, hbb, fun h => ?_, fun _ => ⟨?_, ⟨fun h => ?_, fun h => ?_⟩,
        fun _ => rfl, fun h => ?_⟩⟩
      · exfalso
        omega
      · simp
      · cases h
      · obtain ⟨pt, hpt, hdev⟩ := h
        exact absurd (hiff.1 hc pt hpt) (not_le.2 hdev)
      · cases h
    · rw [if_neg hc] at hshape
      refine ⟨_, bb, hshape, hbb, fun h => ?_, fun _ => ⟨?_, ⟨fun _ => ?_, fun _ => rfl⟩,
        fun h => ?_, fun _ => rfl⟩⟩
      · exfalso
        omega
      · simp
      · by_contra hall
        apply hc
        apply hiff.2
        intro pt hpt
        by_contra hlt
        exact hall ⟨pt, hpt, not_le.1 hlt⟩
      · exact absurd rfl h

/-- Instance of C14 (amended): the notched square read clockwise from its
second vertex; its notch is a ten-thousandth of the bounding box. -/
theorem bedShape_L_shape_witness :
    ∃ r bb, bedShape stdConsts ((lCorners 0 0 100 100 99 99).reverse.rotate 1) = some r ∧
      bounding_box ((lCorners 0 0 100 100 99 99).reverse.rotate 1) = some bb ∧
      (1000000 * |((100 : ℤ) - 99) * (100 - 99)| < 999 * |((100 : ℤ) - 0) * (100 - 0)| →
        r.type = BedShapeType.BOX) ∧
      (1001 * |((100 : ℤ) - 0) * (100 - 0)| < 1000000 * |((100 : ℤ) - 99) * (100 - 99)| →
        r.type ≠ BedShapeType.BOX ∧
        (r.type = BedShapeType.IRREGULAR ↔
          ∃ pt ∈ (lCorners 0 0 100 100 99 99).reverse.rotate 1,
            10 * stdConsts.SCALED_EPSILON <
              |distance_to stdConsts bb.center pt -
                (((lCorners 0 0 100 100 99 99).reverse.rotate 1).map
                    (distance_to stdConsts bb.center)).sum /
                  ((((lCorners 0 0 100 100 99 99).reverse.rotate 1).length : ℕ) : ℚ)|) ∧
        (r.type ≠ BedShapeType.IRREGULAR → r.type = BedShapeType.CIRCLE) ∧
        (r.type = BedShapeType.IRREGULAR →
          r.shape.polygon = (lCorners 0 0 100 100 99 99).reverse.rotate 1)) :=
  bedShape_L_shape stdConsts 0 0 100 100 99 99 _ (Or.inl ⟨by norm_num, by norm_num⟩)
    (Or.inl ⟨by norm_num, by norm_num⟩) ⟨1, Or.inr rfl⟩

/-! ## The objective: branches of `objfunc` -/

theorem sqrtQ_eq (q : ℚ) (n d : ℕ) (hn : q.num = (n : ℤ)) (hd : q.den = d) :
    sqrtQ q = (Nat.sqrt n : ℚ) / (Nat.sqrt d : ℚ) := by
  unfold sqrtQ
  rw [hn, hd, Int.toNat_ofNat]

theorem min_element_eq (d0 d1 d2 d3 d4 : ℚ) :
    min_element d0 d1 d2 d3 d4 = min (min (min (min d0 d1) d2) d3) d4 := by
  have key : ∀ m d : ℚ, (if d < m then d else m) = min m d := by
    intro m d
    by_cases h : d < m
    · rw [if_pos h, min_eq_right (le_of_lt h)]
    · rw [if_neg h, min_eq_left (not_lt.1 h)]
  simp only [min_element, List.foldl, key]

/-- The small-item branch of `objfunc`. -/
theorem objfunc_small_branch (env : Consts) (geo : Nest2D) (bincenter : Point)
    (merged_pile : List PolygonImpl) (pilebb : Box) (items : ItemGroup) (item : Item)
    (bin_area norm : ℚ) (spatindex smalls_spatindex : SpatIndex) (remaining : ItemGroup)
    (hsp : spatindex ≠ []) (hsmall : isBig bin_area (geo.area item) = false) :
    (objfunc env geo bincenter merged_pile pilebb items item bin_area norm spatindex
        smalls_spatindex remaining).1 =
      pl_distance env (geo.shapeBoundingBox (geo.transformedShape item)).center
        (SpatIndex.bounds spatindex).center / norm := by
  have he : spatindex.isEmpty = false := by
    cases spatindex with
    | nil => exact absurd rfl hsp
    | cons e es => rfl
  simp only [objfunc, hsmall, he, Bool.or_self, Bool.false_eq_true, if_false]

/-- The big-item branch of `objfunc` when no item remains. -/
theorem objfunc_last_item (env : Consts) (geo : Nest2D) (bincenter : Point)
    (merged_pile : List PolygonImpl) (pilebb : Box) (items : ItemGroup) (item : Item)
    (bin_area norm : ℚ) (spatindex smalls_spatindex : SpatIndex)
    (hbranch : isBig bin_area (geo.area item) = true ∨ spatindex = []) :
    (objfunc env geo bincenter merged_pile pilebb items item bin_area norm spatindex
        smalls_spatindex []).1 =
      1 / 2 * (geo.circumference (geo.convexHull (merged_pile ++ [geo.transformedShape item])) /
          norm) +
        1 / 2 * (2 * (((boundingBox pilebb
            (geo.shapeBoundingBox (geo.transformedShape item))).width : ℚ) +
          ((boundingBox pilebb
            (geo.shapeBoundingBox (geo.transformedShape item))).height : ℚ)) / norm) := by
  have hb : (isBig bin_area (geo.area item) || spatindex.isEmpty) = true := by
    rcases hbranch with h | h
    · simp [h]
    · simp [h]
  simp only [objfunc, hb, if_true, List.isEmpty_nil]
  push_cast
  ring

/-- The big-item branch of `objfunc` when an item remains: the score in terms
of the query result. -/
theorem objfunc_big_branch (env : Consts) (geo : Nest2D) (bincenter : Point)
    (merged_pile : List PolygonImpl) (pilebb : Box) (items : ItemGroup) (item : Item)
    (bin_area norm : ℚ) (spatindex smalls_spatindex : SpatIndex) (remaining : ItemGroup)
    (hbranch : isBig bin_area (geo.area item) = true ∨ spatindex = [])
    (hrem : remaining ≠ []) :
    (objfunc env geo bincenter merged_pile pilebb items item bin_area norm spatindex
        smalls_spatindex remaining).1 =
      if (SpatIndex.query geo
          (if isBig bin_area (geo.area item) then spatindex else smalls_spatindex)
          (geo.itemBoundingBox item)) = [] then
        1 / 2 * specDist env (geo.shapeBoundingBox (geo.transformedShape item))
            (boundingBox pilebb (geo.shapeBoundingBox (geo.transformedShape item)))
            bincenter norm +
          1 / 2 * specDensity env
            (boundingBox pilebb (geo.shapeBoundingBox (geo.transformedShape item))) norm
      else
        2 / 5 * specDist env (geo.shapeBoundingBox (geo.transformedShape item))
            (boundingBox pilebb (geo.shapeBoundingBox (geo.transformedShape item)))
            bincenter norm +
          2 / 5 * specDensity env
            (boundingBox pilebb (geo.shapeBoundingBox (geo.transformedShape item))) norm +
          1 / 5 * (SpatIndex.query geo
              (if isBig bin_area (geo.area item) then spatindex else smalls_spatindex)
              (geo.itemBoundingBox item)).foldl
            (alignmentStep geo items item
              (geo.shapeBoundingBox (geo.transformedShape item))) 1 := by
  have hb : (isBig bin_area (geo.area item) || spatindex.isEmpty) = true := by
    rcases hbranch with h | h
    · simp [h]
    · simp [h]
  have hr : remaining.isEmpty = false := by
    cases remaining with
    | nil => exact absurd rfl hrem
    | cons a as => rfl
  simp only [objfunc, hb, hr, if_true, Bool.false_eq_true, if_false, min_element_eq,
    List.isEmpty_iff, specDist, specDensity, specAnchorDistance]
  by_cases hbig : isBig bin_area (geo.area item) = true
  · simp only [hbig, if_true]
    split_ifs <;> ring
  · simp only [hbig, Bool.false_eq_true, if_false]
    split_ifs <;> ring

/-! ## The alignment loop -/

theorem foldl_min_le (l : List ℚ) : ∀ a : ℚ, l.foldl min a ≤ a := by
  induction l with
  | nil => intro a; exact le_refl a
  | cons x xs ih =>
    intro a
    exact le_trans (ih (min a x)) (min_le_left a x)

theorem foldl_min_le_mem (l : List ℚ) : ∀ a : ℚ, ∀ s ∈ l, l.foldl min a ≤ s := by
  induction l with
  | nil => intro a s hs; cases hs
  | cons x xs ih =>
    intro a s hs
    rcases List.mem_cons.1 hs with rfl | h
    · exact le_trans (foldl_min_le xs (min a s)) (min_le_right a s)
    · exact ih (min a x) s h

theorem foldl_min_mem (l : List ℚ) : ∀ a : ℚ, l.foldl min a = a ∨ l.foldl min a ∈ l := by
  induction l with
  | nil => intro a; exact Or.inl rfl
  | cons x xs ih =>
    intro a
    rcases ih (min a x) with h | h
    · rcases min_choice a x with h2 | h2
      · exact Or.inl (by rw [List.foldl_cons, h, h2])
      · exact Or.inr (by rw [List.foldl_cons, h, h2]; exact List.mem_cons_self _ _)
    · exact Or.inr (List.mem_cons_of_mem _ h)

/-- The loop of lines 224-235 computes the running minimum of the alignment
values of the neighbours of matching area. -/
theorem alignment_foldl (geo : Nest2D) (items : ItemGroup) (item : Item) (ibb : Box)
    (result : List SpatElement) :
    ∀ al : ℚ, result.foldl (alignmentStep geo items item ibb) al =
      (specAlignmentScores geo items item ibb result).foldl min al := by
  induction result with
  | nil => intro al; rfl
  | cons e es ih =>
    intro al
    rw [List.foldl_cons, ih]
    unfold specAlignmentScores alignmentStep
    cases hp : items[e.2]? with
    | none => simp [List.filterMap_cons, hp]
    | some p =>
      by_cases hm : |1 - geo.area p / geo.area item| < 1 / 1000000
      · simp only [List.filterMap_cons, hp, List.filter_cons, hm, decide_True, if_true,
          List.map_cons, List.foldl_cons]
        congr 1
        by_cases hlt : 1 - (geo.area item + geo.area p) /
            (boundingBox (geo.itemBoundingBox p) ibb).area < al
        · rw [if_pos hlt, min_eq_right (le_of_lt hlt)]
        · rw [if_neg hlt, min_eq_left (not_lt.1 hlt)]
      · simp only [List.filterMap_cons, hp, List.filter_cons, hm, decide_False, if_false,
          Bool.false_eq_true]

/-- With alignment values not above 1, the loop started at 1 yields their
minimum, and 1 when there is none. -/
theorem foldl_min_one (l : List ℚ) (h : ∀ s ∈ l, s ≤ 1) : l.foldl min 1 = specAlignment l := by
  cases l with
  | nil => rfl
  | cons s ss =>
    rw [List.foldl_cons, min_eq_right (h s (List.mem_cons_self _ _))]
    rfl

/-- The merged box of a box with a well-formed box has a non-negative area. -/
theorem boundingBox_area_nonneg (a ibb : Box)
    (hx : ibb.minCorner.x ≤ ibb.maxCorner.x) (hy : ibb.minCorner.y ≤ ibb.maxCorner.y) :
    0 ≤ (boundingBox a ibb).area := by
  unfold Box.area Box.width Box.height boundingBox
  simp only
  have h1 : (0 : ℤ) ≤ Max.max a.maxCorner.x ibb.maxCorner.x - Min.min a.minCorner.x ibb.minCorner.x := by
    omega
  have h2 : (0 : ℤ) ≤ Max.max a.maxCorner.y ibb.maxCorner.y - Min.min a.minCorner.y ibb.minCorner.y := by
    omega
  have h1q : (0 : ℚ) ≤ ((Max.max a.maxCorner.x ibb.maxCorner.x -
      Min.min a.minCorner.x ibb.minCorner.x : ℤ) : ℚ) := by exact_mod_cast h1
  have h2q : (0 : ℚ) ≤ ((Max.max a.maxCorner.y ibb.maxCorner.y -
      Min.min a.minCorner.y ibb.minCorner.y : ℤ) : ℚ) := by exact_mod_cast h2
  exact mul_nonneg h1q h2q

theorem specAlignmentScores_le_one (geo : Nest2D) (items : ItemGroup) (item : Item) (ibb : Box)
    (neighbours : List SpatElement) (harea : ∀ it, 0 ≤ geo.area it)
    (hx : ibb.minCorner.x ≤ ibb.maxCorner.x) (hy : ibb.minCorner.y ≤ ibb.maxCorner.y) :
    ∀ s ∈ specAlignmentScores geo items item ibb neighbours, s ≤ 1 := by
  intro s hs
  unfold specAlignmentScores at hs
  obtain ⟨p, _, rfl⟩ := List.mem_map.1 hs
  have h1 : 0 ≤ geo.area item + geo.area p := add_nonneg (harea item) (harea p)
  have h2 := boundingBox_area_nonneg (geo.itemBoundingBox p) ibb hx hy
  have h3 : 0 ≤ (geo.area item + geo.area p) / (boundingBox (geo.itemBoundingBox p) ibb).area :=
    div_nonneg h1 h2
  linarith

/-! ## Claims on `objfunc` -/

theorem isBig_of_ne_zero {bin_area : ℚ} (a : ℚ) (h : bin_area ≠ 0) :
    isBig bin_area a = decide (a / bin_area > 2 / 100) := by
  simp [isBig, h, BIG_ITEM_TRESHOLD]

theorem sqrtQ_100 : sqrtQ 100 = 10 := by
  rw [sqrtQ_eq _ 100 1 (by norm_num) (by norm_num)]
  norm_num

theorem sqrtQ_169 : sqrtQ 169 = 13 := by
  rw [sqrtQ_eq _ 169 1 (by norm_num) (by norm_num)]
  norm_num

theorem sqrtQ_360 : sqrtQ 360 = 18 := by
  rw [sqrtQ_eq _ 360 1 (by norm_num) (by norm_num)]
  norm_num

theorem sqrtQ_13225 : sqrtQ 13225 = 115 := by
  rw [sqrtQ_eq _ 13225 1 (by norm_num) (by norm_num)]
  norm_num

theorem sqrtQ_9_625 : sqrtQ (9 / 625) = 3 / 25 := by
  rw [sqrtQ_eq _ 9 625 (by norm_num) (by norm_num)]
  norm_num

theorem candidateSmall_box :
    demoGeo.shapeBoundingBox (demoGeo.transformedShape candidateSmall) =
      ⟨⟨26, 2⟩, ⟨36, 14⟩⟩ := by
  simp [demoGeo, candidateSmall, rectContour, translateShape, boxOfShape, bounding_box]

theorem candidateSmall_itemBox :
    demoGeo.itemBoundingBox candidateSmall = ⟨⟨26, 2⟩, ⟨36, 14⟩⟩ := by
  simp [demoGeo, candidateSmall, rectContour, translateShape, boxOfShape, bounding_box]

theorem candidateSmall_area : demoGeo.area candidateSmall = 120 := by
  norm_num [demoGeo, candidateSmall, rectContour, Polygon.area, areaAcc]

/-- C16 (as stated) fails: the list of placed items is non-empty (one small
item, so the big-items index built from it is empty) and the candidate is
small (120/40000 ≤ 0.02), yet the score is that of the big-item branch,
0.5·dist + 0.5·density = 11/80, and not the distance 13 of the candidate's
centre to the centre of `bigbb` (here `fullbb`) divided by norm, 13/200. -/
theorem objfunc_small_candidate_big_branch :
    ([placedSmall] : ItemGroup) ≠ [] ∧
    demoGeo.area candidateSmall / 40000 ≤ 2 / 100 ∧
    isBig 40000 (demoGeo.area placedSmall) = false ∧
    (objfunc stdConsts demoGeo ⟨100, 100⟩ [rectContour 10 16] ⟨⟨0, 0⟩, ⟨10, 16⟩⟩ [placedSmall]
        candidateSmall 40000 200 [] [(⟨⟨0, 0⟩, ⟨10, 16⟩⟩, 0)] [pendingItem]).1 = 11 / 80 ∧
    (objfunc stdConsts demoGeo ⟨100, 100⟩ [rectContour 10 16] ⟨⟨0, 0⟩, ⟨10, 16⟩⟩ [placedSmall]
        candidateSmall 40000 200 [] [(⟨⟨0, 0⟩, ⟨10, 16⟩⟩, 0)] [pendingItem]).2 =
      ⟨⟨0, 0⟩, ⟨36, 16⟩⟩ ∧
    pl_distance stdConsts (Box.center ⟨⟨26, 2⟩, ⟨36, 14⟩⟩) (Box.center ⟨⟨0, 0⟩, ⟨36, 16⟩⟩) / 200 =
      13 / 200 := by
  refine ⟨by simp, ?_, ?_, ?_, ?_, ?_⟩
  · rw [candidateSmall_area]
    norm_num
  · norm_num [isBig, demoGeo, placedSmall, rectContour, Polygon.area, areaAcc,
      BIG_ITEM_TRESHOLD]
  · have hsmall : isBig 40000 (demoGeo.area candidateSmall) = false := by
      rw [candidateSmall_area]
      norm_num [isBig, BIG_ITEM_TRESHOLD]
    rw [objfunc_big_branch stdConsts demoGeo _ _ _ _ _ _ _ _ _ _ (Or.inr rfl) (by simp)]
    rw [hsmall, candidateSmall_box, candidateSmall_itemBox]
    norm_num [SpatIndex.query, demoGeo, boxesIntersect, specDist, specDensity,
      specAnchorDistance, boundingBox, Box.center, toCoord, pl_distance, stdConsts, Box.width,
      Box.height, sqrtQ_100, sqrtQ_169, sqrtQ_360, sqrtQ_13225, sqrtQ_9_625]
  · simp only [objfunc]
    rw [candidateSmall_box]
    simp [boundingBox]
  · norm_num [Box.center, toCoord, pl_distance, stdConsts, sqrtQ_169]

/-- C16 (amended): when the index of the placed big items is non-empty and the
candidate is small (`isBig` is false for its area), the score is the distance
from the centre of the candidate's bounding box to the centre of `bigbb`, the
bounds of the index of the placed big items, divided by norm. -/
theorem objfunc_small_item_score (env : Consts) (geo : Nest2D) (bincenter : Point)
    (merged_pile : List PolygonImpl) (pilebb : Box) (items : ItemGroup) (item : Item)
    (bin_area norm : ℚ) (spatindex smalls_spatindex : SpatIndex) (remaining : ItemGroup)
    (hsp : spatindex ≠ []) (hsmall : isBig bin_area (geo.area item) = false) :
    (objfunc env geo bincenter merged_pile pilebb items item bin_area norm spatindex
        smalls_spatindex remaining).1 =
      pl_distance env (geo.shapeBoundingBox (geo.transformedShape item)).center
        (SpatIndex.bounds spatindex).center / norm :=
  objfunc_small_branch env geo bincenter merged_pile pilebb items item bin_area norm spatindex
    smalls_spatindex remaining hsp hsmall

theorem candidateSmall_isBig : isBig 40000 (demoGeo.area candidateSmall) = false := by
  rw [candidateSmall_area]
  norm_num [isBig, BIG_ITEM_TRESHOLD]

/-- A small candidate beside a placed big item: the index of big items is
not empty, the candidate is small, and the score is the normalised distance to
the centre of the big item's box. -/
theorem objfunc_small_item_score_witness :
    ([(⟨⟨0, 0⟩, ⟨100, 100⟩⟩, 0)] : SpatIndex) ≠ [] ∧
    isBig 40000 (demoGeo.area candidateSmall) = false ∧
    (objfunc stdConsts demoGeo ⟨100, 100⟩ [rectContour 100 100] ⟨⟨0, 0⟩, ⟨100, 100⟩⟩
        [candidateBig] candidateSmall 40000 200 [(⟨⟨0, 0⟩, ⟨100, 100⟩⟩, 0)]
        [(⟨⟨0, 0⟩, ⟨100, 100⟩⟩, 0)] [pendingItem]).1 =
      pl_distance stdConsts
        (demoGeo.shapeBoundingBox (demoGeo.transformedShape candidateSmall)).center
        (SpatIndex.bounds [(⟨⟨0, 0⟩, ⟨100, 100⟩⟩, 0)]).center / 200 :=
  ⟨by simp, candidateSmall_isBig,
    objfunc_small_item_score stdConsts demoGeo ⟨100, 100⟩ [rectContour 100 100]
      ⟨⟨0, 0⟩, ⟨100, 100⟩⟩ [candidateBig] candidateSmall 40000 200
      [(⟨⟨0, 0⟩, ⟨100, 100⟩⟩, 0)] [(⟨⟨0, 0⟩, ⟨100, 100⟩⟩, 0)] [pendingItem] (by simp)
      candidateSmall_isBig⟩

theorem query_eq_nil (geo : Nest2D) (index : SpatIndex) (querybb : Box)
    (h : ∀ e ∈ index, geo.intersects e.1 querybb = false) :
    SpatIndex.query geo index querybb = [] := by
  simp only [SpatIndex.query, List.filter_eq_nil_iff]
  intro e he
  simp [h e he]

theorem query_ne_nil (geo : Nest2D) (index : SpatIndex) (querybb : Box)
    (h : ∃ e ∈ index, geo.intersects e.1 querybb = true) :
    SpatIndex.query geo index querybb ≠ [] := by
  obtain ⟨e, he, hi⟩ := h
  intro hnil
  have hmem : e ∈ SpatIndex.query geo index querybb := by
    simp only [SpatIndex.query, List.mem_filter]
    exact ⟨he, hi⟩
  rw [hnil] at hmem
  exact List.not_mem_nil _ hmem

/-- C17: in the big-item branch (the candidate is big or the index of big
items is empty), when an item remains to be placed and no box of the queried
index (the big items' index for a big candidate, else the index of all items)
intersects the candidate's box, the score is 0.5·dist + 0.5·density with
dist = 0.8·(m / norm) + 0.2·(distance(candidate box centre, bed centre) /
norm), m the least of the five anchor distances to the centre of `fullbb`, and
density = sqrt((fullbb.width / norm) · (fullbb.height / norm)). -/
theorem objfunc_no_neighbour_score (env : Consts) (geo : Nest2D) (bincenter : Point)
    (merged_pile : List PolygonImpl) (pilebb : Box) (items : ItemGroup) (item : Item)
    (bin_area norm : ℚ) (spatindex smalls_spatindex : SpatIndex) (remaining : ItemGroup)
    (hbranch : isBig bin_area (geo.area item) = true ∨ spatindex = [])
    (hrem : remaining ≠ [])
    (hno : ∀ e ∈ (if isBig bin_area (geo.area item) then spatindex else smalls_spatindex),
      geo.intersects e.1 (geo.itemBoundingBox item) = false) :
    (objfunc env geo bincenter merged_pile pilebb items item bin_area norm spatindex
        smalls_spatindex remaining).1 =
      1 / 2 * specDist env (geo.shapeBoundingBox (geo.transformedShape item))
          (boundingBox pilebb (geo.shapeBoundingBox (geo.transformedShape item)))
          bincenter norm +
        1 / 2 * specDensity env
          (boundingBox pilebb (geo.shapeBoundingBox (geo.transformedShape item))) norm := by
  rw [objfunc_big_branch env geo bincenter merged_pile pilebb items item bin_area norm
    spatindex smalls_spatindex remaining hbranch hrem]
  rw [if_pos (query_eq_nil geo _ _ hno)]

/-- A small candidate away from the one placed small item: an item remains and
no indexed box intersects the candidate's box. -/
theorem objfunc_no_neighbour_score_witness :
    (isBig 40000 (demoGeo.area candidateSmall) = true ∨ ([] : SpatIndex) = []) ∧
    ([pendingItem] : ItemGroup) ≠ [] ∧
    (∀ e ∈ (if isBig 40000 (demoGeo.area candidateSmall) then ([] : SpatIndex)
        else [(⟨⟨0, 0⟩, ⟨10, 16⟩⟩, 0)]),
      demoGeo.intersects e.1 (demoGeo.itemBoundingBox candidateSmall) = false) ∧
    (objfunc stdConsts demoGeo ⟨100, 100⟩ [rectContour 10 16] ⟨⟨0, 0⟩, ⟨10, 16⟩⟩ [placedSmall]
        candidateSmall 40000 200 [] [(⟨⟨0, 0⟩, ⟨10, 16⟩⟩, 0)] [pendingItem]).1 =
      1 / 2 * specDist stdConsts
          (demoGeo.shapeBoundingBox (demoGeo.transformedShape candidateSmall))
          (boundingBox ⟨⟨0, 0⟩, ⟨10, 16⟩⟩
            (demoGeo.shapeBoundingBox (demoGeo.transformedShape candidateSmall)))
          ⟨100, 100⟩ 200 +
        1 / 2 * specDensity stdConsts
          (boundingBox ⟨⟨0, 0⟩, ⟨10, 16⟩⟩
            (demoGeo.shapeBoundingBox (demoGeo.transformedShape candidateSmall))) 200 := by
  have hno : ∀ e ∈ (if isBig 40000 (demoGeo.area candidateSmall) then ([] : SpatIndex)
      else [(⟨⟨0, 0⟩, ⟨10, 16⟩⟩, 0)]),
      demoGeo.intersects e.1 (demoGeo.itemBoundingBox candidateSmall) = false := by
    rw [candidateSmall_isBig, candidateSmall_itemBox]
    intro e he
    simp only [Bool.false_eq_true, if_false, List.mem_singleton] at he
    subst he
    simp [demoGeo, boxesIntersect]
  exact ⟨Or.inr rfl, by simp, hno,
    objfunc_no_neighbour_score stdConsts demoGeo ⟨100, 100⟩ [rectContour 10 16]
      ⟨⟨0, 0⟩, ⟨10, 16⟩⟩ [placedSmall] candidateSmall 40000 200 []
      [(⟨⟨0, 0⟩, ⟨10, 16⟩⟩, 0)] [pendingItem] (Or.inr rfl) (by simp) hno⟩

/-- C18: in the big-item branch, when an item remains and a box of the
queried index intersects the candidate's box, the score is 0.40·dist +
0.40·density + 0.20·alignment, where alignment is the minimum over the
intersecting neighbours p with |1 − area(p)/area(candidate)| < 1e-6 of
1 − (area(candidate) + area(p)) / area(merged box of p and candidate), and 1
when no intersecting neighbour has a matching area.  (Areas of items are
non-negative and the candidate's box is well formed.) -/
theorem objfunc_neighbour_score (env : Consts) (geo : Nest2D) (bincenter : Point)
    (merged_pile : List PolygonImpl) (pilebb : Box) (items : ItemGroup) (item : Item)
    (bin_area norm : ℚ) (spatindex smalls_spatindex : SpatIndex) (remaining : ItemGroup)
    (hbranch : isBig bin_area (geo.area item) = true ∨ spatindex = [])
    (hrem : remaining ≠ [])
    (hsome : ∃ e ∈ (if isBig bin_area (geo.area item) then spatindex else smalls_spatindex),
      geo.intersects e.1 (geo.itemBoundingBox item) = true)
    (harea : ∀ it, 0 ≤ geo.area it)
    (hx : (geo.shapeBoundingBox (geo.transformedShape item)).minCorner.x ≤
      (geo.shapeBoundingBox (geo.transformedShape item)).maxCorner.x)
    (hy : (geo.shapeBoundingBox (geo.transformedShape item)).minCorner.y ≤
      (geo.shapeBoundingBox (geo.transformedShape item)).maxCorner.y) :
    (objfunc env geo bincenter merged_pile pilebb items item bin_area norm spatindex
        smalls_spatindex remaining).1 =
      2 / 5 * specDist env (geo.shapeBoundingBox (geo.transformedShape item))
          (boundingBox pilebb (geo.shapeBoundingBox (geo.transformedShape item)))
          bincenter norm +
        2 / 5 * specDensity env
          (boundingBox pilebb (geo.shapeBoundingBox (geo.transformedShape item))) norm +
        1 / 5 * specAlignment (specAlignmentScores geo items item
          (geo.shapeBoundingBox (geo.transformedShape item))
          (SpatIndex.query geo
            (if isBig bin_area (geo.area item) then spatindex else smalls_spatindex)
            (geo.itemBoundingBox item))) := by
  rw [objfunc_big_branch env geo bincenter merged_pile pilebb items item bin_area norm
    spatindex smalls_spatindex remaining hbranch hrem]
  rw [if_neg (query_ne_nil geo _ _ hsome), alignment_foldl,
    foldl_min_one _ (specAlignmentScores_le_one geo items item _ _ harea hx hy)]

theorem candidateTwin_box :
    demoGeo.shapeBoundingBox (demoGeo.transformedShape candidateTwin) =
      ⟨⟨10, 0⟩, ⟨20, 16⟩⟩ := by
  simp [demoGeo, candidateTwin, rectContour, translateShape, boxOfShape, bounding_box]

theorem candidateTwin_itemBox :
    demoGeo.itemBoundingBox candidateTwin = ⟨⟨10, 0⟩, ⟨20, 16⟩⟩ := by
  simp [demoGeo, candidateTwin, rectContour, translateShape, boxOfShape, bounding_box]

theorem candidateTwin_area : demoGeo.area candidateTwin = 160 := by
  norm_num [demoGeo, candidateTwin, rectContour, Polygon.area, areaAcc]

theorem candidateTwin_isBig : isBig 40000 (demoGeo.area candidateTwin) = false := by
  rw [candidateTwin_area]
  norm_num [isBig, BIG_ITEM_TRESHOLD]

theorem demoGeo_area_nonneg : ∀ it, 0 ≤ demoGeo.area it := fun _ => abs_nonneg _

/-- A candidate put against the placed item of the same size: an item
remains and the indexed box of the placed item intersects the candidate's. -/
theorem objfunc_neighbour_score_witness :
    (isBig 40000 (demoGeo.area candidateTwin) = true ∨ ([] : SpatIndex) = []) ∧
    ([pendingItem] : ItemGroup) ≠ [] ∧
    (∃ e ∈ (if isBig 40000 (demoGeo.area candidateTwin) then ([] : SpatIndex)
        else [(⟨⟨0, 0⟩, ⟨10, 16⟩⟩, 0)]),
      demoGeo.intersects e.1 (demoGeo.itemBoundingBox candidateTwin) = true) ∧
    (objfunc stdConsts demoGeo ⟨100, 100⟩ [rectContour 10 16] ⟨⟨0, 0⟩, ⟨10, 16⟩⟩ [placedSmall]
        candidateTwin 40000 200 [] [(⟨⟨0, 0⟩, ⟨10, 16⟩⟩, 0)] [pendingItem]).1 =
      2 / 5 * specDist stdConsts
          (demoGeo.shapeBoundingBox (demoGeo.transformedShape candidateTwin))
          (boundingBox ⟨⟨0, 0⟩, ⟨10, 16⟩⟩
            (demoGeo.shapeBoundingBox (demoGeo.transformedShape candidateTwin)))
          ⟨100, 100⟩ 200 +
        2 / 5 * specDensity stdConsts
          (boundingBox ⟨⟨0, 0⟩, ⟨10, 16⟩⟩
            (demoGeo.shapeBoundingBox (demoGeo.transformedShape candidateTwin))) 200 +
        1 / 5 * specAlignment (specAlignmentScores demoGeo [placedSmall] candidateTwin
          (demoGeo.shapeBoundingBox (demoGeo.transformedShape candidateTwin))
          (SpatIndex.query demoGeo
            (if isBig 40000 (demoGeo.area candidateTwin) then ([] : SpatIndex)
              else [(⟨⟨0, 0⟩, ⟨10, 16⟩⟩, 0)])
            (demoGeo.itemBoundingBox candidateTwin))) := by
  have hsome : ∃ e ∈ (if isBig 40000 (demoGeo.area candidateTwin) then ([] : SpatIndex)
      else [(⟨⟨0, 0⟩, ⟨10, 16⟩⟩, 0)]),
      demoGeo.intersects e.1 (demoGeo.itemBoundingBox candidateTwin) = true := by
    rw [candidateTwin_isBig, candidateTwin_itemBox]
    exact ⟨(⟨⟨0, 0⟩, ⟨10, 16⟩⟩, 0), by simp, by simp [demoGeo, boxesIntersect]⟩
  exact ⟨Or.inr rfl, by simp, hsome,
    objfunc_neighbour_score stdConsts demoGeo ⟨100, 100⟩ [rectContour 10 16]
      ⟨⟨0, 0⟩, ⟨10, 16⟩⟩ [placedSmall] candidateTwin 40000 200 []
      [(⟨⟨0, 0⟩, ⟨10, 16⟩⟩, 0)] [pendingItem] (Or.inr rfl) (by simp) hsome
      demoGeo_area_nonneg (by rw [candidateTwin_box]; decide)
      (by rw [candidateTwin_box]; decide)⟩

/-- The alignment of the twin candidate with the placed item of the same area
is 0: the two areas fill the merged box, 1 - (160 + 160)/320. -/
theorem objfunc_twin_alignment :
    specAlignment (specAlignmentScores demoGeo [placedSmall] candidateTwin
      (demoGeo.shapeBoundingBox (demoGeo.transformedShape candidateTwin))
      (SpatIndex.query demoGeo [(⟨⟨0, 0⟩, ⟨10, 16⟩⟩, 0)]
        (demoGeo.itemBoundingBox candidateTwin))) = 0 := by
  rw [candidateTwin_box, candidateTwin_itemBox]
  have hq : SpatIndex.query demoGeo [(⟨⟨0, 0⟩, ⟨10, 16⟩⟩, 0)] ⟨⟨10, 0⟩, ⟨20, 16⟩⟩ =
      [(⟨⟨0, 0⟩, ⟨10, 16⟩⟩, 0)] := by
    simp [SpatIndex.query, demoGeo, boxesIntersect]
  rw [hq]
  have hp : demoGeo.area placedSmall = 160 := by
    norm_num [demoGeo, placedSmall, rectContour, Polygon.area, areaAcc]
  have hb : demoGeo.itemBoundingBox placedSmall = ⟨⟨0, 0⟩, ⟨10, 16⟩⟩ := by
    simp [demoGeo, placedSmall, rectContour, translateShape, boxOfShape, bounding_box]
  simp only [specAlignmentScores, List.filterMap_cons, List.filterMap_nil,
    List.getElem?_cons_zero, List.filter_cons, List.filter_nil, hp, candidateTwin_area, hb]
  norm_num [specAlignment, boundingBox, Box.area, Box.width, Box.height, hp, hb]

/-- C19: in the big-item branch, when no item remains after the candidate,
the score is 0.5·(circumference of the convex hull of the pile shapes with the
candidate) / norm + 0.5·(2·(fullbb.width + fullbb.height)) / norm; it is the
same for every bed centre and every content of the two indexes that selects
this branch. -/
theorem objfunc_last_item_score (env : Consts) (geo : Nest2D) (bincenter bincenter2 : Point)
    (merged_pile : List PolygonImpl) (pilebb : Box) (items : ItemGroup) (item : Item)
    (bin_area norm : ℚ) (spatindex smalls_spatindex spatindex2 smalls_spatindex2 : SpatIndex)
    (hbranch : isBig bin_area (geo.area item) = true ∨ spatindex = [])
    (hbranch2 : isBig bin_area (geo.area item) = true ∨ spatindex2 = []) :
    (objfunc env geo bincenter merged_pile pilebb items item bin_area norm spatindex
        smalls_spatindex []).1 =
      1 / 2 * geo.circumference (geo.convexHull (merged_pile ++ [geo.transformedShape item])) /
          norm +
        1 / 2 * (2 * (((boundingBox pilebb
            (geo.shapeBoundingBox (geo.transformedShape item))).width : ℚ) +
          ((boundingBox pilebb
            (geo.shapeBoundingBox (geo.transformedShape item))).height : ℚ))) / norm ∧
    (objfunc env geo bincenter2 merged_pile pilebb items item bin_area norm spatindex2
        smalls_spatindex2 []).1 =
      (objfunc env geo bincenter merged_pile pilebb items item bin_area norm spatindex
        smalls_spatindex []).1 := by
  rw [objfunc_last_item env geo bincenter merged_pile pilebb items item bin_area norm
      spatindex smalls_spatindex hbranch,
    objfunc_last_item env geo bincenter2 merged_pile pilebb items item bin_area norm
      spatindex2 smalls_spatindex2 hbranch2]
  exact ⟨by ring, rfl⟩

theorem candidateBig_area : demoGeo.area candidateBig = 10000 := by
  norm_num [demoGeo, candidateBig, rectContour, Polygon.area, areaAcc]

theorem candidateBig_isBig : isBig 40000 (demoGeo.area candidateBig) = true := by
  rw [candidateBig_area]
  norm_num [isBig, BIG_ITEM_TRESHOLD]

/-- A big candidate that is the only and last item: the branch of big items
is taken for two bed centres and two contents of the indexes. -/
theorem objfunc_last_item_score_witness :
    (isBig 40000 (demoGeo.area candidateBig) = true ∨ ([] : SpatIndex) = []) ∧
    (isBig 40000 (demoGeo.area candidateBig) = true ∨
      ([(⟨⟨0, 0⟩, ⟨10, 16⟩⟩, 0)] : SpatIndex) = []) ∧
    ((objfunc stdConsts demoGeo ⟨100, 100⟩ [] ⟨⟨0, 0⟩, ⟨0, 0⟩⟩ [] candidateBig 40000 200 []
        [] []).1 =
      1 / 2 * demoGeo.circumference
          (demoGeo.convexHull ([] ++ [demoGeo.transformedShape candidateBig])) / 200 +
        1 / 2 * (2 * (((boundingBox ⟨⟨0, 0⟩, ⟨0, 0⟩⟩
            (demoGeo.shapeBoundingBox (demoGeo.transformedShape candidateBig))).width : ℚ) +
          ((boundingBox ⟨⟨0, 0⟩, ⟨0, 0⟩⟩
            (demoGeo.shapeBoundingBox (demoGeo.transformedShape candidateBig))).height : ℚ))) /
          200 ∧
    (objfunc stdConsts demoGeo ⟨0, 0⟩ [] ⟨⟨0, 0⟩, ⟨0, 0⟩⟩ [] candidateBig 40000 200
        [(⟨⟨0, 0⟩, ⟨10, 16⟩⟩, 0)] [(⟨⟨0, 0⟩, ⟨10, 16⟩⟩, 0)] []).1 =
      (objfunc stdConsts demoGeo ⟨100, 100⟩ [] ⟨⟨0, 0⟩, ⟨0, 0⟩⟩ [] candidateBig 40000 200 []
        [] []).1) :=
  ⟨Or.inl candidateBig_isBig, Or.inl candidateBig_isBig,
    objfunc_last_item_score stdConsts demoGeo ⟨100, 100⟩ ⟨0, 0⟩ [] ⟨⟨0, 0⟩, ⟨0, 0⟩⟩ []
      candidateBig 40000 200 [] [] [(⟨⟨0, 0⟩, ⟨10, 16⟩⟩, 0)] [(⟨⟨0, 0⟩, ⟨10, 16⟩⟩, 0)]
      (Or.inl candidateBig_isBig) (Or.inl candidateBig_isBig)⟩

theorem sqrtQ_10000 : sqrtQ 10000 = 100 := by
  rw [sqrtQ_eq _ 10000 1 (by norm_num) (by norm_num)]
  norm_num

/-- The score of the big candidate as the last item is 2: the hull has
circumference 400 and the box of the pile has perimeter 400, for norm 200. -/
theorem objfunc_last_item_demo :
    (objfunc stdConsts demoGeo ⟨100, 100⟩ [] ⟨⟨0, 0⟩, ⟨0, 0⟩⟩ [] candidateBig 40000 200 []
        [] []).1 = 2 := by
  rw [objfunc_last_item stdConsts demoGeo _ _ _ _ _ _ _ _ _ (Or.inr rfl)]
  have hb : demoGeo.shapeBoundingBox (demoGeo.transformedShape candidateBig) =
      ⟨⟨0, 0⟩, ⟨100, 100⟩⟩ := by
    simp [demoGeo, candidateBig, rectContour, translateShape, boxOfShape, bounding_box]
  rw [hb]
  norm_num [demoGeo, candidateBig, rectContour, translateShape, contourLength, pl_distance,
    stdConsts, boundingBox, Box.width, Box.height, sqrtQ_10000]

/-! ## Divisions of `objfunc` -/

theorem divChecked_zero (a : ℚ) : divChecked a 0 = none := by
  simp [divChecked]

theorem clamp_pos_eq_max (m : ℚ) : (if m > 0 then m else 0) = max 0 m := by
  by_cases h : m > 0
  · rw [if_pos h, max_eq_right h.le]
  · rw [if_neg h, max_eq_left (not_lt.1 h)]

theorem clamp_neg_eq_max (m : ℚ) : (if m < 0 then 0 else m) = max 0 m := by
  by_cases h : m < 0
  · rw [if_pos h, max_eq_left h.le]
  · rw [if_neg h, max_eq_right (not_lt.1 h)]

/-- C21: for the arranger with a Box bin and every candidate, the objective
value is s + max(0, overfit(fullbb, bin))², with (s, fullbb) the result of
`objfunc` for the centre of the bin; it is never less than s and it is s
whenever the overfit of fullbb is not positive. -/
theorem objectiveBox_penalty (env : Consts) (geo : Nest2D) (overfit : Box → Box → ℚ)
    (bin : Box) (st : ArrBase) (item : Item) :
    objectiveBox env geo overfit bin st item =
        (st.objfunc env geo bin.center item).1 +
          (max 0 (overfit (st.objfunc env geo bin.center item).2 bin)) ^ 2 ∧
      (st.objfunc env geo bin.center item).1 ≤ objectiveBox env geo overfit bin st item ∧
      (overfit (st.objfunc env geo bin.center item).2 bin ≤ 0 →
        objectiveBox env geo overfit bin st item = (st.objfunc env geo bin.center item).1) := by
  have h : objectiveBox env geo overfit bin st item =
      (st.objfunc env geo bin.center item).1 +
        (max 0 (overfit (st.objfunc env geo bin.center item).2 bin)) ^ 2 := by
    simp only [objectiveBox]
    rw [clamp_pos_eq_max, pow_two]
  refine ⟨h, ?_, ?_⟩
  · rw [h]
    exact le_add_of_nonneg_right (sq_nonneg _)
  · intro hle
    rw [h, max_eq_left hle]
    ring

theorem isBig_eq_true_iff {bin_area : ℚ} (a : ℚ) (h : bin_area ≠ 0) :
    isBig bin_area a = true ↔ a / bin_area > 2 / 100 := by
  simp [isBig, h, BIG_ITEM_TRESHOLD]

theorem isBig_zero_eq_true_iff (a : ℚ) : isBig 0 a = true ↔ 0 < a := by
  simp [isBig]

/-- C22: for the arranger with a Circle bin, the objective value of a big
candidate (area / binArea > 0.02) is s + max(0, overfit(convex hull of the
pile shapes with the candidate, bin))², and that of a small candidate is s,
the score of `objfunc`.  (For a bin area 0 the quotient of the source is an
infinity for a positive area: the candidates with a positive area are the big
ones.) -/
theorem objectiveCircle_penalty (env : Consts) (geo : Nest2D)
    (overfit : PolygonImpl → Circle → ℚ) (bin : Circle) (st : ArrBase) (item : Item) :
    (st.m_bin_area ≠ 0 →
      objectiveCircle env geo overfit bin st item =
        if geo.area item / st.m_bin_area > 2 / 100 then
          (st.objfunc env geo bin.center item).1 +
            (max 0 (overfit
              (geo.convexHull (st.m_merged_pile ++ [geo.transformedShape item])) bin)) ^ 2
        else (st.objfunc env geo bin.center item).1) ∧
    (st.m_bin_area = 0 →
      objectiveCircle env geo overfit bin st item =
        if 0 < geo.area item then
          (st.objfunc env geo bin.center item).1 +
            (max 0 (overfit
              (geo.convexHull (st.m_merged_pile ++ [geo.transformedShape item])) bin)) ^ 2
        else (st.objfunc env geo bin.center item).1) := by
  have h : objectiveCircle env geo overfit bin st item =
      if isBig st.m_bin_area (geo.area item) = true then
        (st.objfunc env geo bin.center item).1 +
          (max 0 (overfit
            (geo.convexHull (st.m_merged_pile ++ [geo.transformedShape item])) bin)) ^ 2
      else (st.objfunc env geo bin.center item).1 := by
    simp only [objectiveCircle]
    split
    · rw [clamp_neg_eq_max, pow_two]
    · rfl
  constructor
  · intro hbin
    rw [h]
    by_cases hb : geo.area item / st.m_bin_area > 2 / 100
    · rw [if_pos hb, if_pos ((isBig_eq_true_iff _ hbin).2 hb)]
    · rw [if_neg hb, if_neg (fun hc => hb ((isBig_eq_true_iff _ hbin).1 hc))]
  · intro hbin
    rw [h, hbin]
    by_cases hb : 0 < geo.area item
    · rw [if_pos hb, if_pos ((isBig_zero_eq_true_iff _).2 hb)]
    · rw [if_neg hb, if_neg (fun hc => hb ((isBig_zero_eq_true_iff _).1 hc))]

/-- C23: for the arranger with an irregular polygon bin and for the one with
no bin, the objective value of every candidate is the score of `objfunc`, with
nothing added; the bed centre is the centre of the bounding box of the bin
polygon for the first and the origin (with bin area 0) for the second. -/
theorem objective_without_penalty (env : Consts) (geo : Nest2D) (bin : PolygonImpl)
    (st : ArrBase) (item : Item) :
    objectivePolygon env geo bin st item =
        (objfunc env geo (geo.shapeBoundingBox bin).center st.m_merged_pile st.m_pilebb
          st.m_items item st.m_bin_area st.m_norm st.m_rtree st.m_smallsrtree
          st.m_remaining).1 ∧
      objectiveNoBin env geo st item =
        (objfunc env geo ⟨0, 0⟩ st.m_merged_pile st.m_pilebb st.m_items item 0 st.m_norm
          st.m_rtree st.m_smallsrtree st.m_remaining).1 :=
  ⟨rfl, rfl⟩

/-- C24: the box `fullbb` returned by `objfunc` has the componentwise minimum
of the min corners and the componentwise maximum of the max corners of the
pile box and of the candidate's box; it contains both boxes and lies in every
box that contains both. -/
theorem objfunc_fullbb_least (env : Consts) (geo : Nest2D) (bincenter : Point)
    (merged_pile : List PolygonImpl) (pilebb : Box) (items : ItemGroup) (item : Item)
    (bin_area norm : ℚ) (spatindex smalls_spatindex : SpatIndex) (remaining : ItemGroup) :
    (objfunc env geo bincenter merged_pile pilebb items item bin_area norm spatindex
        smalls_spatindex remaining).2 =
      ⟨⟨min pilebb.minCorner.x (geo.shapeBoundingBox (geo.transformedShape item)).minCorner.x,
        min pilebb.minCorner.y (geo.shapeBoundingBox (geo.transformedShape item)).minCorner.y⟩,
       ⟨max pilebb.maxCorner.x (geo.shapeBoundingBox (geo.transformedShape item)).maxCorner.x,
        max pilebb.maxCorner.y
          (geo.shapeBoundingBox (geo.transformedShape item)).maxCorner.y⟩⟩ ∧
    (objfunc env geo bincenter merged_pile pilebb items item bin_area norm spatindex
        smalls_spatindex remaining).2.contains pilebb ∧
    (objfunc env geo bincenter merged_pile pilebb items item bin_area norm spatindex
        smalls_spatindex remaining).2.contains
      (geo.shapeBoundingBox (geo.transformedShape item)) ∧
    ∀ b : Box, b.contains pilebb →
      b.contains (geo.shapeBoundingBox (geo.transformedShape item)) →
      b.contains (objfunc env geo bincenter merged_pile pilebb items item bin_area norm
        spatindex smalls_spatindex remaining).2 := by
  have h : (objfunc env geo bincenter merged_pile pilebb items item bin_area norm spatindex
      smalls_spatindex remaining).2 =
      boundingBox pilebb (geo.shapeBoundingBox (geo.transformedShape item)) := rfl
  rw [h]
  refine ⟨rfl, ?_, ?_, ?_⟩
  · simp only [Box.contains, boundingBox]
    exact ⟨min_le_left _ _, min_le_left _ _, le_max_left _ _, le_max_left _ _⟩
  · simp only [Box.contains, boundingBox]
    exact ⟨min_le_right _ _, min_le_right _ _, le_max_right _ _, le_max_right _ _⟩
  · intro b hp hi
    simp only [Box.contains, boundingBox] at hp hi ⊢
    exact ⟨le_min hp.1 hi.1, le_min hp.2.1 hi.2.1, max_le hp.2.2.1 hi.2.2.1,
      max_le hp.2.2.2 hi.2.2.2⟩

/-! ## The indexes built by `before_packing` -/

theorem packingLoop_eq (geo : Nest2D) (bin_area : ℚ) (items : ItemGroup) :
    ∀ (idx : Nat) (rtree smallsrtree : SpatIndex),
      packingLoop geo bin_area items idx (rtree, smallsrtree) =
        (rtree ++ (((items.enumFrom idx).filter
            (fun p => isBig bin_area (geo.area p.2))).map
            (fun p => (geo.itemBoundingBox p.2, p.1))),
         smallsrtree ++ ((items.enumFrom idx).map
            (fun p => (geo.itemBoundingBox p.2, p.1)))) := by
  induction items with
  | nil => intro idx rtree smallsrtree; simp [packingLoop]
  | cons itm rest ih =>
    intro idx rtree smallsrtree
    simp only [packingLoop, List.enumFrom_cons, List.filter_cons, List.map_cons]
    rw [ih]
    by_cases hb : isBig bin_area (geo.area itm) = true
    · simp [hb]
    · simp [hb]

theorem before_packing_smalls (geo : Nest2D) (pileBox : List PolygonImpl → Box) (st : ArrBase)
    (merged_pile : List PolygonImpl) (items remaining : ItemGroup) :
    (before_packing geo pileBox st merged_pile items remaining).m_smallsrtree =
      items.enum.map (fun p => (geo.itemBoundingBox p.2, p.1)) := by
  simp [before_packing, packingLoop_eq, List.enum]

theorem before_packing_rtree (geo : Nest2D) (pileBox : List PolygonImpl → Box) (st : ArrBase)
    (merged_pile : List PolygonImpl) (items remaining : ItemGroup) :
    (before_packing geo pileBox st merged_pile items remaining).m_rtree =
      (items.enum.filter (fun p => isBig st.m_bin_area (geo.area p.2))).map
        (fun p => (geo.itemBoundingBox p.2, p.1)) := by
  simp [before_packing, packingLoop_eq, List.enum]

theorem mem_before_packing_smalls (geo : Nest2D) (pileBox : List PolygonImpl → Box)
    (st : ArrBase) (merged_pile : List PolygonImpl) (items remaining : ItemGroup)
    (e : SpatElement) :
    e ∈ (before_packing geo pileBox st merged_pile items remaining).m_smallsrtree ↔
      ∃ i itm, items[i]? = some itm ∧ e = (geo.itemBoundingBox itm, i) := by
  rw [before_packing_smalls, List.mem_map]
  constructor
  · rintro ⟨⟨i, itm⟩, hmem, rfl⟩
    exact ⟨i, itm, List.mk_mem_enum_iff_getElem?.1 hmem, rfl⟩
  · rintro ⟨i, itm, hget, rfl⟩
    exact ⟨(i, itm), List.mk_mem_enum_iff_getElem?.2 hget, rfl⟩

theorem mem_before_packing_rtree (geo : Nest2D) (pileBox : List PolygonImpl → Box)
    (st : ArrBase) (merged_pile : List PolygonImpl) (items remaining : ItemGroup)
    (e : SpatElement) :
    e ∈ (before_packing geo pileBox st merged_pile items remaining).m_rtree ↔
      ∃ i itm, items[i]? = some itm ∧ isBig st.m_bin_area (geo.area itm) = true ∧
        e = (geo.itemBoundingBox itm, i) := by
  rw [before_packing_rtree, List.mem_map]
  constructor
  · rintro ⟨⟨i, itm⟩, hmem, rfl⟩
    rw [List.mem_filter] at hmem
    exact ⟨i, itm, List.mk_mem_enum_iff_getElem?.1 hmem.1, hmem.2, rfl⟩
  · rintro ⟨i, itm, hget, hbig, rfl⟩
    exact ⟨(i, itm), List.mem_filter.2 ⟨List.mk_mem_enum_iff_getElem?.2 hget, hbig⟩, rfl⟩

theorem before_packing_fields (geo : Nest2D) (pileBox : List PolygonImpl → Box)
    (st : ArrBase) (merged_pile : List PolygonImpl) (items remaining : ItemGroup) :
    (before_packing geo pileBox st merged_pile items remaining).m_items = items ∧
    (before_packing geo pileBox st merged_pile items remaining).m_bin_area = st.m_bin_area ∧
    (before_packing geo pileBox st merged_pile items remaining).m_norm = st.m_norm ∧
    (before_packing geo pileBox st merged_pile items remaining).m_merged_pile = merged_pile ∧
    (before_packing geo pileBox st merged_pile items remaining).m_remaining = remaining ∧
    (before_packing geo pileBox st merged_pile items remaining).m_pilebb =
      pileBox merged_pile :=
  ⟨rfl, rfl, rfl, rfl, rfl, rfl⟩

/-- C25: after `before_packing` ran on the placed items, whatever the two
indexes held before, the index of all items holds exactly the entries
(boundingBox(items[i]), i), once each in the order of the items, and the index
of big items holds exactly those with area(items[i]) / binArea > 0.02 (for a
bin area 0, where the quotient of the source is an infinity, those with a
positive area); so the index of big items is a subset of the index of all
items, the result depends on the former state through its bin area and norm
only, and running the callback again with the same arguments changes
nothing. -/
theorem before_packing_indexes (geo : Nest2D) (pileBox : List PolygonImpl → Box)
    (st : ArrBase) (merged_pile : List PolygonImpl) (items remaining : ItemGroup) :
    (∀ e : SpatElement,
      e ∈ (before_packing geo pileBox st merged_pile items remaining).m_smallsrtree ↔
        ∃ i itm, items[i]? = some itm ∧ e = (geo.itemBoundingBox itm, i)) ∧
    (st.m_bin_area ≠ 0 → ∀ e : SpatElement,
      e ∈ (before_packing geo pileBox st merged_pile items remaining).m_rtree ↔
        ∃ i itm, items[i]? = some itm ∧ geo.area itm / st.m_bin_area > 2 / 100 ∧
          e = (geo.itemBoundingBox itm, i)) ∧
    (st.m_bin_area = 0 → ∀ e : SpatElement,
      e ∈ (before_packing geo pileBox st merged_pile items remaining).m_rtree ↔
        ∃ i itm, items[i]? = some itm ∧ 0 < geo.area itm ∧
          e = (geo.itemBoundingBox itm, i)) ∧
    ((before_packing geo pileBox st merged_pile items remaining).m_smallsrtree.map Prod.snd =
      List.range items.length) ∧
    (∀ e ∈ (before_packing geo pileBox st merged_pile items remaining).m_rtree,
      e ∈ (before_packing geo pileBox st merged_pile items remaining).m_smallsrtree) ∧
    (∀ st2 : ArrBase, st2.m_bin_area = st.m_bin_area → st2.m_norm = st.m_norm →
      before_packing geo pileBox st2 merged_pile items remaining =
        before_packing geo pileBox st merged_pile items remaining) ∧
    before_packing geo pileBox (before_packing geo pileBox st merged_pile items remaining)
        merged_pile items remaining =
      before_packing geo pileBox st merged_pile items remaining := by
  refine ⟨mem_before_packing_smalls geo pileBox st merged_pile items remaining,
    ?_, ?_, ?_, ?_, ?_, ?_⟩
  · intro hbin e
    rw [mem_before_packing_rtree]
    constructor
    · rintro ⟨i, itm, hget, hbig, he⟩
      exact ⟨i, itm, hget, (isBig_eq_true_iff _ hbin).1 hbig, he⟩
    · rintro ⟨i, itm, hget, hbig, he⟩
      exact ⟨i, itm, hget, (isBig_eq_true_iff _ hbin).2 hbig, he⟩
  · intro hbin e
    rw [mem_before_packing_rtree, hbin]
    constructor
    · rintro ⟨i, itm, hget, hbig, he⟩
      exact ⟨i, itm, hget, (isBig_zero_eq_true_iff _).1 hbig, he⟩
    · rintro ⟨i, itm, hget, hbig, he⟩
      exact ⟨i, itm, hget, (isBig_zero_eq_true_iff _).2 hbig, he⟩
  · rw [before_packing_smalls, List.map_map]
    have : (Prod.snd ∘ fun p : Nat × Item => (geo.itemBoundingBox p.2, p.1)) = Prod.fst := rfl
    rw [this, List.enum_map_fst]
  · intro e he
    rw [mem_before_packing_rtree] at he
    obtain ⟨i, itm, hget, _, rfl⟩ := he
    exact (mem_before_packing_smalls geo pileBox st merged_pile items remaining _).2
      ⟨i, itm, hget, rfl⟩
  · intro st2 hb hn
    simp only [before_packing, hb, hn]
  · rfl

/-- The callback on a small and a big placed item for the bin of 200 by 200:
both are in the index of all items, the big one alone in the index of big
items. -/
theorem before_packing_demo :
    (before_packing demoGeo demoPileBox (ArrBase.new stdConsts 40000)
        [rectContour 10 16, rectContour 100 100] [placedSmall, candidateBig]
        [pendingItem]).m_smallsrtree =
      [(⟨⟨0, 0⟩, ⟨10, 16⟩⟩, 0), (⟨⟨0, 0⟩, ⟨100, 100⟩⟩, 1)] ∧
    (before_packing demoGeo demoPileBox (ArrBase.new stdConsts 40000)
        [rectContour 10 16, rectContour 100 100] [placedSmall, candidateBig]
        [pendingItem]).m_rtree = [(⟨⟨0, 0⟩, ⟨100, 100⟩⟩, 1)] := by
  have hs : demoGeo.area placedSmall = 160 := by
    norm_num [demoGeo, placedSmall, rectContour, Polygon.area, areaAcc]
  have hsb : isBig 40000 (demoGeo.area placedSmall) = false := by
    rw [hs]
    norm_num [isBig, BIG_ITEM_TRESHOLD]
  have hbs : demoGeo.itemBoundingBox placedSmall = ⟨⟨0, 0⟩, ⟨10, 16⟩⟩ := by
    simp [demoGeo, placedSmall, rectContour, translateShape, boxOfShape, bounding_box]
  have hbb : demoGeo.itemBoundingBox candidateBig = ⟨⟨0, 0⟩, ⟨100, 100⟩⟩ := by
    simp [demoGeo, candidateBig, rectContour, translateShape, boxOfShape, bounding_box]
  constructor
  · rw [before_packing_smalls]
    simp [List.enum, hbs, hbb]
  · rw [before_packing_rtree]
    simp [List.enum, ArrBase.new, hsb, candidateBig_isBig, hbs, hbb]

/-- C28: every index stored by `before_packing` in either spatial index is
less than the length of the placed-item list it stored, so the lookup
`items[idx]` of `objfunc` finds an item. -/
theorem before_packing_index_in_bounds (geo : Nest2D) (pileBox : List PolygonImpl → Box)
    (st : ArrBase) (merged_pile : List PolygonImpl) (items remaining : ItemGroup)
    (e : SpatElement)
    (he : e ∈ (before_packing geo pileBox st merged_pile items remaining).m_rtree ∨
      e ∈ (before_packing geo pileBox st merged_pile items remaining).m_smallsrtree) :
    e.2 < (before_packing geo pileBox st merged_pile items remaining).m_items.length ∧
      ∃ p, (before_packing geo pileBox st merged_pile items remaining).m_items[e.2]? =
        some p := by
  have hs : e ∈ (before_packing geo pileBox st merged_pile items remaining).m_smallsrtree := by
    rcases he with he | he
    · rw [mem_before_packing_rtree] at he
      obtain ⟨i, itm, hget, _, rfl⟩ := he
      exact (mem_before_packing_smalls geo pileBox st merged_pile items remaining _).2
        ⟨i, itm, hget, rfl⟩
    · exact he
  rw [mem_before_packing_smalls] at hs
  obtain ⟨i, itm, hget, rfl⟩ := hs
  have hlt : i < items.length := by
    by_contra hge
    rw [List.getElem?_eq_none (not_lt.1 hge)] at hget
    exact Option.noConfusion hget
  exact ⟨hlt, itm, hget⟩

/-- The entry of the one placed item is in the index of all items, and its
index 0 is in bounds. -/
theorem before_packing_index_in_bounds_witness :
    (((⟨⟨0, 0⟩, ⟨10, 16⟩⟩, 0) : SpatElement) ∈
        (before_packing demoGeo demoPileBox (ArrBase.new stdConsts 40000) [rectContour 10 16]
          [placedSmall] [pendingItem]).m_rtree ∨
      ((⟨⟨0, 0⟩, ⟨10, 16⟩⟩, 0) : SpatElement) ∈
        (before_packing demoGeo demoPileBox (ArrBase.new stdConsts 40000) [rectContour 10 16]
          [placedSmall] [pendingItem]).m_smallsrtree) ∧
    (((⟨⟨0, 0⟩, ⟨10, 16⟩⟩, 0) : SpatElement).2 <
        (before_packing demoGeo demoPileBox (ArrBase.new stdConsts 40000) [rectContour 10 16]
          [placedSmall] [pendingItem]).m_items.length ∧
      ∃ p, (before_packing demoGeo demoPileBox (ArrBase.new stdConsts 40000)
          [rectContour 10 16] [placedSmall] [pendingItem]).m_items[
            ((⟨⟨0, 0⟩, ⟨10, 16⟩⟩, 0) : SpatElement).2]? = some p) := by
  have hmem : ((⟨⟨0, 0⟩, ⟨10, 16⟩⟩, 0) : SpatElement) ∈
      (before_packing demoGeo demoPileBox (ArrBase.new stdConsts 40000) [rectContour 10 16]
        [placedSmall] [pendingItem]).m_smallsrtree := by
    rw [mem_before_packing_smalls]
    refine ⟨0, placedSmall, rfl, ?_⟩
    simp [demoGeo, placedSmall, rectContour, translateShape, boxOfShape, bounding_box]
  exact ⟨Or.inr hmem,
    before_packing_index_in_bounds demoGeo demoPileBox (ArrBase.new stdConsts 40000)
      [rectContour 10 16] [placedSmall] [pendingItem] _ (Or.inr hmem)⟩

/-! ## The branch of `objfunc` on the indexes of `before_packing` -/

theorem takesBigBranch_eq_false_iff (geo : Nest2D) (bin_area : ℚ) (spatindex : SpatIndex)
    (item : Item) :
    takesBigBranch geo bin_area spatindex item = false ↔
      isBig bin_area (geo.area item) = false ∧ spatindex ≠ [] := by
  cases spatindex <;> simp [takesBigBranch]

theorem before_packing_nil_indexes (geo : Nest2D) (pileBox : List PolygonImpl → Box)
    (st : ArrBase) (merged_pile : List PolygonImpl) (remaining : ItemGroup) :
    (before_packing geo pileBox st merged_pile [] remaining).m_rtree = [] ∧
      (before_packing geo pileBox st merged_pile [] remaining).m_smallsrtree = [] :=
  ⟨rfl, rfl⟩

/-- C26: on the indexes built by `before_packing`, when the placed-item list
is empty the branch of the big items runs for every candidate, small ones
included, and scores it with the last-item formula or with 0.5·dist +
0.5·density (no neighbour exists); and whenever the small-item path is taken
(the score is then the normalised distance to the centre of the big items'
bounds) the placed-item list is not empty. -/
theorem objfunc_small_path_needs_pile (env : Consts) (geo : Nest2D)
    (pileBox : List PolygonImpl → Box) (st : ArrBase) (merged_pile : List PolygonImpl)
    (remaining : ItemGroup) (bincenter : Point) (item : Item) :
    takesBigBranch geo (before_packing geo pileBox st merged_pile [] remaining).m_bin_area
        (before_packing geo pileBox st merged_pile [] remaining).m_rtree item = true ∧
    ((before_packing geo pileBox st merged_pile [] remaining).objfunc env geo bincenter
        item).1 =
      (if remaining = [] then
        1 / 2 * (geo.circumference
            (geo.convexHull (merged_pile ++ [geo.transformedShape item])) / st.m_norm) +
          1 / 2 * (2 * (((boundingBox (pileBox merged_pile)
              (geo.shapeBoundingBox (geo.transformedShape item))).width : ℚ) +
            ((boundingBox (pileBox merged_pile)
              (geo.shapeBoundingBox (geo.transformedShape item))).height : ℚ)) / st.m_norm)
      else
        1 / 2 * specDist env (geo.shapeBoundingBox (geo.transformedShape item))
            (boundingBox (pileBox merged_pile)
              (geo.shapeBoundingBox (geo.transformedShape item))) bincenter st.m_norm +
          1 / 2 * specDensity env
            (boundingBox (pileBox merged_pile)
              (geo.shapeBoundingBox (geo.transformedShape item))) st.m_norm) ∧
    ∀ items : ItemGroup,
      takesBigBranch geo (before_packing geo pileBox st merged_pile items remaining).m_bin_area
          (before_packing geo pileBox st merged_pile items remaining).m_rtree item = false →
        items ≠ [] ∧
        ((before_packing geo pileBox st merged_pile items remaining).objfunc env geo bincenter
            item).1 =
          pl_distance env (geo.shapeBoundingBox (geo.transformedShape item)).center
            (SpatIndex.bounds
              (before_packing geo pileBox st merged_pile items remaining).m_rtree).center /
            st.m_norm := by
  refine ⟨?_, ?_, ?_⟩
  · simp [takesBigBranch, before_packing, packingLoop]
  · by_cases hrem : remaining = []
    · subst hrem
      rw [if_pos rfl]
      exact objfunc_last_item env geo bincenter merged_pile (pileBox merged_pile) [] item
        st.m_bin_area st.m_norm [] [] (Or.inr rfl)
    · rw [if_neg hrem]
      have h := objfunc_big_branch env geo bincenter merged_pile (pileBox merged_pile) [] item
        st.m_bin_area st.m_norm [] [] remaining (Or.inr rfl) hrem
      have hq : SpatIndex.query geo
          (if isBig st.m_bin_area (geo.area item) = true then ([] : SpatIndex) else [])
          (geo.itemBoundingBox item) = [] := by
        simp [SpatIndex.query]
      rw [if_pos hq] at h
      exact h
  · intro items hfalse
    rw [takesBigBranch_eq_false_iff] at hfalse
    refine ⟨?_, ?_⟩
    · rintro rfl
      exact hfalse.2 rfl
    · exact objfunc_small_branch env geo bincenter merged_pile (pileBox merged_pile) items item
        st.m_bin_area st.m_norm _ _ remaining hfalse.2 hfalse.1

/-! ## The stride against the width of the bed -/

/-- With the stride 0 the second group is written with the batch offset of
the first one. -/
theorem applyGroups_stride_zero (env : Consts) (shapemap : ShapeData2D) (g1 g2 : PackGroup)
    (heap : Instances) :
    applyGroups env 0 shapemap [g1, g2] 0 heap =
      applyResult env g2 0 shapemap (applyResult env g1 0 shapemap heap) := by
  simp [applyGroups]

/-- C27 fails on the code: a bed of width 500000 in scaled units (0.5 in the
units of the written offsets) has a positive width, and the stride is
`static_cast<Coord>(1.2 * 0.5) = 0`, less than the width: the overflow group
is written with the batch offset 0, onto the primary bed and not next to it
as the comment of lines 750-752 says. -/
theorem stride_zero_on_narrow_bed :
    bounding_box (rectCorners 0 0 500000 500000) = some ⟨⟨0, 0⟩, ⟨500000, 500000⟩⟩ ∧
    0 < Box.width ⟨⟨0, 0⟩, ⟨500000, 500000⟩⟩ ∧
    stride stdConsts ⟨⟨0, 0⟩, ⟨500000, 500000⟩⟩ = 0 ∧
    ((stride stdConsts ⟨⟨0, 0⟩, ⟨500000, 500000⟩⟩ : ℤ) : ℚ) <
      ((Box.width ⟨⟨0, 0⟩, ⟨500000, 500000⟩⟩ : ℤ) : ℚ) * stdConsts.SCALING_FACTOR ∧
    ∀ (shapemap : ShapeData2D) (g1 g2 : PackGroup) (heap : Instances),
      applyGroups stdConsts (stride stdConsts ⟨⟨0, 0⟩, ⟨500000, 500000⟩⟩) shapemap [g1, g2] 0
          heap =
        applyResult stdConsts g2 0 shapemap (applyResult stdConsts g1 0 shapemap heap) := by
  have hs : stride stdConsts ⟨⟨0, 0⟩, ⟨500000, 500000⟩⟩ = 0 := by
    have h1 : (6 / 5 : ℚ) * ((Box.width ⟨⟨0, 0⟩, ⟨500000, 500000⟩⟩ : ℤ) : ℚ) *
        stdConsts.SCALING_FACTOR = 3 / 5 := by
      norm_num [Box.width, stdConsts]
    unfold stride
    rw [h1, toCoord_of_nonneg (by norm_num)]
    norm_num [Int.floor_eq_iff]
  refine ⟨?_, ?_, hs, ?_, ?_⟩
  · simp [rectCorners, bounding_box]
  · simp [Box.width]
  · rw [hs]
    norm_num [Box.width, stdConsts]
  · intro shapemap g1 g2 heap
    rw [hs]
    exact applyGroups_stride_zero stdConsts shapemap g1 g2 heap

/-- For every bed whose width is at least 5 in the units of the written
offsets (width·SCALING_FACTOR ≥ 5), the stride is at least that width, so the
bin of the group written with offset (k+1)·stride begins where or after the
bin of the group with offset k·stride ends. -/
theorem stride_ge_width (env : Consts) (binbb : Box)
    (hw : 5 ≤ ((binbb.width : ℤ) : ℚ) * env.SCALING_FACTOR) :
    ((binbb.width : ℤ) : ℚ) * env.SCALING_FACTOR ≤ ((stride env binbb : ℤ) : ℚ) ∧
      ∀ k : ℕ, (k : ℚ) * ((stride env binbb : ℤ) : ℚ) +
          ((binbb.width : ℤ) : ℚ) * env.SCALING_FACTOR ≤
        ((k : ℚ) + 1) * ((stride env binbb : ℤ) : ℚ) := by
  have hy : (0 : ℚ) ≤ (6 / 5 : ℚ) * ((binbb.width : ℤ) : ℚ) * env.SCALING_FACTOR := by
    have : (6 / 5 : ℚ) * ((binbb.width : ℤ) : ℚ) * env.SCALING_FACTOR =
        6 / 5 * (((binbb.width : ℤ) : ℚ) * env.SCALING_FACTOR) := by ring
    rw [this]
    linarith
  have hs : ((stride env binbb : ℤ) : ℚ) =
      ((⌊(6 / 5 : ℚ) * ((binbb.width : ℤ) : ℚ) * env.SCALING_FACTOR⌋ : ℤ) : ℚ) := by
    unfold stride
    rw [toCoord_of_nonneg hy]
  have hfl := Int.lt_floor_add_one ((6 / 5 : ℚ) * ((binbb.width : ℤ) : ℚ) * env.SCALING_FACTOR)
  have h1 : ((binbb.width : ℤ) : ℚ) * env.SCALING_FACTOR ≤ ((stride env binbb : ℤ) : ℚ) := by
    rw [hs]
    linarith
  refine ⟨h1, ?_⟩
  intro k
  linarith

/-- The bed of width 250500000 scaled units is 250.5 wide in the units of the
written offsets; the stride 300 is larger. -/
theorem stride_ge_width_witness :
    5 ≤ ((Box.width ⟨⟨0, 0⟩, ⟨250500000, 200000000⟩⟩ : ℤ) : ℚ) * stdConsts.SCALING_FACTOR ∧
    (((Box.width ⟨⟨0, 0⟩, ⟨250500000, 200000000⟩⟩ : ℤ) : ℚ) * stdConsts.SCALING_FACTOR ≤
        ((stride stdConsts ⟨⟨0, 0⟩, ⟨250500000, 200000000⟩⟩ : ℤ) : ℚ) ∧
      ∀ k : ℕ, (k : ℚ) * ((stride stdConsts ⟨⟨0, 0⟩, ⟨250500000, 200000000⟩⟩ : ℤ) : ℚ) +
          ((Box.width ⟨⟨0, 0⟩, ⟨250500000, 200000000⟩⟩ : ℤ) : ℚ) * stdConsts.SCALING_FACTOR ≤
        ((k : ℚ) + 1) * ((stride stdConsts ⟨⟨0, 0⟩, ⟨250500000, 200000000⟩⟩ : ℤ) : ℚ)) :=
  ⟨by norm_num [Box.width, stdConsts],
    stride_ge_width stdConsts ⟨⟨0, 0⟩, ⟨250500000, 200000000⟩⟩
      (by norm_num [Box.width, stdConsts])⟩

/-! ## The bin chosen by `arrange` -/

theorem bedShape_type_ne_who_knows (env : Consts) (bed : Polyline) (h : BedShapeHint)
    (hbs : bedShape env bed = some h) : h.type ≠ BedShapeType.WHO_KNOWS := by
  unfold bedShape at hbs
  split at hbs
  · split at hbs
    · cases hbs; simp
    · dsimp only at hbs
      split at hbs
      · cases hbs; simp
      · cases hbs; simp
  · cases hbs

theorem runPlacer_box_hint {ε : Type} (env : Consts)
    (placer : Bin → ℤ → List Item → Except ε IndexedPackGroup)
    (model : Model) (min_obj_distance : ℤ) (bed : Polyline) (bedhint : BedShapeHint)
    (heap : Instances) (bbb : BoundingBox)
    (ht : bedhint.type = BedShapeType.BOX) (hbb : bounding_box bed = some bbb) :
    runPlacer env placer model min_obj_distance bed bedhint heap =
      some (placer (Bin.box ⟨bbb.min, bbb.max⟩) min_obj_distance
        ((projectModelFromTop env model heap).map Prod.snd)) := by
  simp [runPlacer, effectiveHint, ht, hbb, selectBin]

/-- C29: with a BOX hint the bin handed to the placer is the bounding box of
the bed outline, and two calls of `arrange` that differ only in the payload
of their BOX hints end alike; with a WHO_KNOWS hint the arranger is the one of
the hint that `bedShape` returns for the outline, and it is the polygon
arranger exactly when `bedShape` returns IRREGULAR. -/
theorem arrange_bin_of_hint {ε : Type} (env : Consts)
    (placer : Bin → ℤ → List Item → Except ε IndexedPackGroup)
    (model : Model) (min_obj_distance : ℤ) (bed : Polyline)
    (boxhint boxhint2 whohint classified : BedShapeHint)
    (first_bin_only stopcondition : Bool) (heap : Instances) (bbb : BoundingBox)
    (hb1 : boxhint.type = BedShapeType.BOX) (hb2 : boxhint2.type = BedShapeType.BOX)
    (hw : whohint.type = BedShapeType.WHO_KNOWS)
    (hbb : bounding_box bed = some bbb) (hbs : bedShape env bed = some classified) :
    runPlacer env placer model min_obj_distance bed boxhint heap =
        some (placer (Bin.box ⟨bbb.min, bbb.max⟩) min_obj_distance
          ((projectModelFromTop env model heap).map Prod.snd)) ∧
    arrange env placer model min_obj_distance bed boxhint first_bin_only stopcondition heap =
      arrange env placer model min_obj_distance bed boxhint2 first_bin_only stopcondition
        heap ∧
    runPlacer env placer model min_obj_distance bed whohint heap =
        some (placer (selectBin ⟨bbb.min, bbb.max⟩ bed classified) min_obj_distance
          ((projectModelFromTop env model heap).map Prod.snd)) ∧
    (selectBin ⟨bbb.min, bbb.max⟩ bed classified = Bin.polygon bed ↔
      classified.type = BedShapeType.IRREGULAR) := by
  have h1 := runPlacer_box_hint env placer model min_obj_distance bed boxhint heap bbb hb1 hbb
  have h2 := runPlacer_box_hint env placer model min_obj_distance bed boxhint2 heap bbb hb2 hbb
  refine ⟨h1, ?_, ?_, ?_⟩
  · simp only [arrange, h1, h2]
  · simp [runPlacer, effectiveHint, hw, hbs, hbb]
  · have hne := bedShape_type_ne_who_knows env bed classified hbs
    cases hty : classified.type <;> simp [selectBin, hty] at hne ⊢

theorem bedShape_demoBed :
    bedShape stdConsts demoBed =
      some ⟨BedShapeType.BOX,
        { BedShapePayload.default with box := ⟨⟨0, 0⟩, ⟨250500000, 200000000⟩⟩ }⟩ := by
  norm_num [bedShape, demoBed, bounding_box, poly_area, Polygon.area, areaAcc,
    BoundingBox.area, BoundingBox.width, BoundingBox.height]

/-- Two BOX hints with different payload boxes and a WHO_KNOWS hint on the
rectangular bed of 250.5 by 200: the bin is the bounding box of the bed and
the classified hint is BOX, not the polygon arranger. -/
theorem arrange_bin_of_hint_witness :
    (runPlacer stdConsts demoPlacer demoModel 6000000 demoBed
        ⟨BedShapeType.BOX, BedShapePayload.default⟩ demoHeap =
      some (demoPlacer (Bin.box ⟨⟨0, 0⟩, ⟨250500000, 200000000⟩⟩) 6000000
        ((projectModelFromTop stdConsts demoModel demoHeap).map Prod.snd)) ∧
    arrange stdConsts demoPlacer demoModel 6000000 demoBed
        ⟨BedShapeType.BOX, BedShapePayload.default⟩ false false demoHeap =
      arrange stdConsts demoPlacer demoModel 6000000 demoBed
        ⟨BedShapeType.BOX, { BedShapePayload.default with box := ⟨⟨7, 7⟩, ⟨9, 9⟩⟩ }⟩
        false false demoHeap ∧
    runPlacer stdConsts demoPlacer demoModel 6000000 demoBed hintWhoKnows demoHeap =
      some (demoPlacer
        (selectBin ⟨⟨0, 0⟩, ⟨250500000, 200000000⟩⟩ demoBed
          ⟨BedShapeType.BOX,
            { BedShapePayload.default with box := ⟨⟨0, 0⟩, ⟨250500000, 200000000⟩⟩ }⟩)
        6000000 ((projectModelFromTop stdConsts demoModel demoHeap).map Prod.snd)) ∧
    (selectBin ⟨⟨0, 0⟩, ⟨250500000, 200000000⟩⟩ demoBed
        ⟨BedShapeType.BOX,
          { BedShapePayload.default with box := ⟨⟨0, 0⟩, ⟨250500000, 200000000⟩⟩ }⟩ =
        Bin.polygon demoBed ↔
      (⟨BedShapeType.BOX,
          { BedShapePayload.default with box := ⟨⟨0, 0⟩, ⟨250500000, 200000000⟩⟩ }⟩ :
        BedShapeHint).type = BedShapeType.IRREGULAR)) :=
  arrange_bin_of_hint stdConsts demoPlacer demoModel 6000000 demoBed
    ⟨BedShapeType.BOX, BedShapePayload.default⟩
    ⟨BedShapeType.BOX, { BedShapePayload.default with box := ⟨⟨7, 7⟩, ⟨9, 9⟩⟩ }⟩
    hintWhoKnows
    ⟨BedShapeType.BOX,
      { BedShapePayload.default with box := ⟨⟨0, 0⟩, ⟨250500000, 200000000⟩⟩ }⟩
    false false demoHeap ⟨⟨0, 0⟩, ⟨250500000, 200000000⟩⟩ rfl rfl rfl demo_bounding_box
    bedShape_demoBed

/-! ## Claims on `Plater::priv::arrange` -/

theorem arrStep_arranging (count : Nat) (s : PlaterState) (e : ArrStep) :
    (arrStep count s e).arranging =
      (s.arranging && !decide (e = ArrStep.cancel_pressed)) := by
  cases e <;> simp [arrStep, statusfn, cancelCallback, PlaterState.emit]

theorem foldl_arrStep_arranging (count : Nat) (steps : List ArrStep) :
    ∀ s : PlaterState, (steps.foldl (arrStep count) s).arranging =
      (s.arranging && !decide (ArrStep.cancel_pressed ∈ steps)) := by
  induction steps with
  | nil => intro s; simp
  | cons e rest ih =>
    intro s
    rw [List.foldl_cons, ih, arrStep_arranging]
    by_cases he : e = ArrStep.cancel_pressed
    · simp [he]
    · have hne : ¬ ArrStep.cancel_pressed = e := fun h => he h.symm
      simp [he, hne]

theorem arrStep_log_keeps (count : Nat) (s : PlaterState) (e : ArrStep) :
    ∀ x ∈ s.log, x ∈ (arrStep count s e).log := by
  intro x hx
  cases e <;> simp [arrStep, statusfn, cancelCallback, PlaterState.emit, hx]

theorem foldl_arrStep_log_keeps (count : Nat) (steps : List ArrStep) :
    ∀ s : PlaterState, ∀ x ∈ s.log, x ∈ (steps.foldl (arrStep count) s).log := by
  induction steps with
  | nil => intro s x hx; exact hx
  | cons e rest ih =>
    intro s x hx
    rw [List.foldl_cons]
    exact ih _ x (arrStep_log_keeps count s e x hx)

theorem arrangePrologue_arranging (s : PlaterState) : (arrangePrologue s).arranging = true := by
  simp [arrangePrologue, statusfn, PlaterState.emit]

theorem arrangePrologue_log (s : PlaterState) :
    PlaterEvent.arr_arrange ∈ (arrangePrologue s).log := by
  simp [arrangePrologue, statusfn, PlaterState.emit]

theorem arrangeEpilogue_arranging (count prev_range : Nat) (s : PlaterState) :
    (arrangeEpilogue count prev_range s).arranging = false := by
  simp [arrangeEpilogue, statusfn, PlaterState.emit]

theorem arrangeEpilogue_log_keeps (count prev_range : Nat) (s : PlaterState) :
    ∀ x ∈ s.log, x ∈ (arrangeEpilogue count prev_range s).log := by
  intro x hx
  simp [arrangeEpilogue, statusfn, PlaterState.emit, hx]

/-- C30: `Plater::priv::arrange` called while the flag `arranging` is set
returns at once: the state is unchanged and `arr::arrange` is not called.
Called with the flag clear it calls `arr::arrange` and, when that returns or
throws a `std::exception`, ends with the flag clear and no exception leaving
it.  The stop condition polled after the steps `pre` of the run is true
exactly when the cancel callback ran among them. -/
theorem plater_arrange_flag (steps : List ArrStep) (ending : ArrEnding) (s : PlaterState) :
    (s.arranging = true → Plater.arrange steps ending s = (s, false)) ∧
    (s.arranging = false → ending ≠ ArrEnding.threw_other →
      (Plater.arrange steps ending s).1.arranging = false ∧
      (Plater.arrange steps ending s).2 = false ∧
      PlaterEvent.arr_arrange ∈ (Plater.arrange steps ending s).1.log) ∧
    (∀ pre post : List ArrStep, steps = pre ++ ArrStep.poll_stop :: post →
      (stopConditionOf (pre.foldl (arrStep s.instance_count) (arrangePrologue s)) = true ↔
        ArrStep.cancel_pressed ∈ pre)) := by
  refine ⟨?_, ?_, ?_⟩
  · intro h
    simp [Plater.arrange, h]
  · intro h hend
    have hlog : PlaterEvent.arr_arrange ∈
        (steps.foldl (arrStep s.instance_count) (arrangePrologue s)).log :=
      foldl_arrStep_log_keeps _ steps _ _ (arrangePrologue_log s)
    cases ending with
    | returned ret =>
      simp only [Plater.arrange, h, Bool.false_eq_true, if_false]
      exact ⟨arrangeEpilogue_arranging _ _ _, trivial, arrangeEpilogue_log_keeps _ _ _ _ hlog⟩
    | threw_std_exception =>
      simp only [Plater.arrange, h, Bool.false_eq_true, if_false]
      refine ⟨arrangeEpilogue_arranging _ _ _, trivial, arrangeEpilogue_log_keeps _ _ _ _ ?_⟩
      simp [PlaterState.emit, hlog]
    | threw_other => exact absurd rfl hend
  · intro pre post _
    simp [stopConditionOf, foldl_arrStep_arranging, arrangePrologue_arranging]

/-- A run in which the stop condition is polled before and after the cancel
button is pressed: the first poll answers false, the second true, and the
command ends with the flag clear. -/
theorem plater_arrange_demo :
    (Plater.arrange [ArrStep.progress 1, ArrStep.poll_stop, ArrStep.cancel_pressed,
        ArrStep.poll_stop] (ArrEnding.returned false) idlePlater).1 =
      ⟨false, true, 2, 100,
        [PlaterEvent.enable_toolbar_item false, PlaterEvent.background_process_stop,
          PlaterEvent.set_range 2, PlaterEvent.set_cancel_callback true,
          PlaterEvent.set_progress 2, PlaterEvent.set_status_text StatusMsg.arranging,
          PlaterEvent.arr_arrange,
          PlaterEvent.set_progress 1, PlaterEvent.set_status_text StatusMsg.arranging,
          PlaterEvent.stopcondition false,
          PlaterEvent.set_progress 2, PlaterEvent.set_status_text StatusMsg.canceled,
          PlaterEvent.stopcondition true,
          PlaterEvent.set_progress 2, PlaterEvent.set_status_text StatusMsg.done,
          PlaterEvent.set_range 100, PlaterEvent.set_cancel_callback false,
          PlaterEvent.enable_toolbar_item true, PlaterEvent.update]⟩ ∧
    Plater.arrange [ArrStep.progress 1] (ArrEnding.returned true) busyPlater =
      (busyPlater, false) ∧
    (Plater.arrange [ArrStep.progress 1] ArrEnding.threw_other idlePlater).1.arranging =
      true := by
  refine ⟨by decide, by decide, by decide⟩

/-! ## The object functions on a bin that the pile overflows -/

theorem candidateBig_box :
    demoGeo.shapeBoundingBox (demoGeo.transformedShape candidateBig) =
      ⟨⟨0, 0⟩, ⟨100, 100⟩⟩ := by
  simp [demoGeo, candidateBig, rectContour, translateShape, boxOfShape, bounding_box]

theorem narrowBin_state :
    ArrBase.new stdConsts 10000 = ⟨10000, [], [], 100, [], ⟨⟨0, 0⟩, ⟨0, 0⟩⟩, [], []⟩ := by
  simp only [ArrBase.new, stdConsts, sqrtQ_10000]

/-- The big candidate alone, as the last item, for a bin of area 10000 and
any bed centre: the score is 4 and `fullbb` is the box of the candidate. -/
theorem objfunc_narrowBin (bincenter : Point) :
    (ArrBase.new stdConsts 10000).objfunc stdConsts demoGeo bincenter candidateBig =
      (4, ⟨⟨0, 0⟩, ⟨100, 100⟩⟩) := by
  rw [narrowBin_state]
  refine Prod.ext ?_ ?_
  · simp only [ArrBase.objfunc]
    rw [objfunc_last_item stdConsts demoGeo _ _ _ _ _ _ _ _ _ (Or.inr rfl), candidateBig_box]
    norm_num [demoGeo, candidateBig, rectContour, translateShape, contourLength, pl_distance,
      stdConsts, boundingBox, Box.width, Box.height, sqrtQ_10000]
  · have h : ((⟨10000, [], [], 100, [], ⟨⟨0, 0⟩, ⟨0, 0⟩⟩, [], []⟩ : ArrBase).objfunc stdConsts
        demoGeo bincenter candidateBig).2 =
        boundingBox ⟨⟨0, 0⟩, ⟨0, 0⟩⟩
          (demoGeo.shapeBoundingBox (demoGeo.transformedShape candidateBig)) := rfl
    rw [h, candidateBig_box]
    simp [boundingBox]

/-- On the bin of 50 by 200 the box of the pile with the 100 by 100 candidate
is 50 too wide: the Box arranger adds 50² to the score 4, the arranger for the
polygon of the same outline adds nothing. -/
theorem objective_on_narrow_bin :
    boxOverfit ⟨⟨0, 0⟩, ⟨100, 100⟩⟩ ⟨⟨0, 0⟩, ⟨50, 200⟩⟩ = 50 ∧
    objectiveBox stdConsts demoGeo boxOverfit ⟨⟨0, 0⟩, ⟨50, 200⟩⟩ (ArrBase.new stdConsts 10000)
      candidateBig = 2504 ∧
    objectivePolygon stdConsts demoGeo (rectContour 50 200) (ArrBase.new stdConsts 10000)
      candidateBig = 4 := by
  refine ⟨?_, ?_, ?_⟩
  · norm_num [boxOverfit, Box.width, Box.height]
  · simp only [objectiveBox, objfunc_narrowBin]
    norm_num [boxOverfit, Box.width, Box.height]
  · simp only [objectivePolygon, objfunc_narrowBin]

/-! ## The object function for a Circle bin on a big and on a small candidate -/

theorem sqrtQ_40000 : sqrtQ 40000 = 200 := by
  rw [sqrtQ_eq _ 40000 1 (by norm_num) (by norm_num)]
  norm_num

theorem sqrtQ_144 : sqrtQ 144 = 12 := by
  rw [sqrtQ_eq _ 144 1 (by norm_num) (by norm_num)]
  norm_num

theorem wideBin_state :
    ArrBase.new stdConsts 40000 = ⟨40000, [], [], 200, [], ⟨⟨0, 0⟩, ⟨0, 0⟩⟩, [], []⟩ := by
  simp only [ArrBase.new, stdConsts, sqrtQ_40000]

/-- For a bin of area 40000 and an overfit of 7 the big candidate (a quarter
of the bin) gets its score 2 and the penalty 49, the small candidate (3
thousandths of the bin) gets its score 9/25 and no penalty. -/
theorem objectiveCircle_demo :
    demoGeo.area candidateBig / 40000 > 2 / 100 ∧
    objectiveCircle stdConsts demoGeo (fun _ _ => 7) ⟨⟨100, 100⟩, some 100⟩
      (ArrBase.new stdConsts 40000) candidateBig = 51 ∧
    ¬ demoGeo.area candidateSmall / 40000 > 2 / 100 ∧
    objectiveCircle stdConsts demoGeo (fun _ _ => 7) ⟨⟨100, 100⟩, some 100⟩
      (ArrBase.new stdConsts 40000) candidateSmall = 9 / 25 := by
  rw [wideBin_state]
  refine ⟨?_, ?_, ?_, ?_⟩
  · rw [candidateBig_area]
    norm_num
  · simp only [objectiveCircle, candidateBig_isBig, if_true, ArrBase.objfunc]
    rw [objfunc_last_item stdConsts demoGeo _ _ _ _ _ _ _ _ _ (Or.inr rfl), candidateBig_box]
    norm_num [demoGeo, candidateBig, rectContour, translateShape, contourLength, pl_distance,
      stdConsts, boundingBox, Box.width, Box.height, sqrtQ_10000]
  · rw [candidateSmall_area]
    norm_num
  · simp only [objectiveCircle, candidateSmall_isBig, Bool.false_eq_true, if_false,
      ArrBase.objfunc]
    rw [objfunc_last_item stdConsts demoGeo _ _ _ _ _ _ _ _ _ (Or.inr rfl), candidateSmall_box]
    norm_num [demoGeo, candidateSmall, rectContour, translateShape, contourLength, pl_distance,
      stdConsts, boundingBox, Box.width, Box.height, sqrtQ_100, sqrtQ_144]

end arr
end Slic3r
